import Mathlib

/-!
# go-eth2-wallet-nd: the account locking state machine and the JSON codecs

A shallow embedding of `account.go`, `account_json.go` and `wallet_json.go`
(package `nd`).  An account is a record of its fields; the methods `Lock`,
`Unlock`, `IsUnlocked`, `PrivateKey`, `Sign`, `MarshalJSON` and `UnmarshalJSON`
are functions from the account (and their arguments) to the values they return
and, where they mutate the receiver, the account afterwards.  `storeAccount`
and `deserializeAccount` are functions of the same kind, over the persisted
state of the store and the wallet.  The wallet itself is declared in wallet.go,
which is not among the sources: what is said of it follows the specification.

Conventions of the embedding:

* a Go `error` is an `Option String`: `none` is `nil`, `some msg` is an error
  whose `Error()` text is `msg` (`errors.Wrap(err, m)` has text `m ++ ": " ++ err`);
* an interface or pointer value that may be `nil` is an `Option`;
* a call through a `nil` interface or pointer is a run-time panic, recorded as
  `Completion.panicked`;
* `[]byte` and Go strings are lists of bytes; `string(passphrase)` keeps the bytes;
* the per-account mutex is not modelled: calls are taken one at a time.

The encryptor, the BLS key algorithm, the wallet (`batchDecrypt`) and the
libraries the JSON code calls are outside these files; they enter as parameters.
-/

namespace nd

/-- A byte slice (`[]byte`); a Go `string` is modelled the same way when only its
bytes matter. -/
abbrev Bytes := List Nat

/-- A `uuid.UUID` (sixteen bytes). -/
abbrev UUID := List Nat

/-- The dynamic values `encoding/json` stores in an `any`: `nil`, `bool`,
`float64`, `string`, `[]any` and `map[string]any`. -/
inductive any where
  | null : any
  | bool (b : Bool) : any
  | float64 (x : Rat) : any
  | string (s : String) : any
  | slice (xs : List any) : any
  | map (kvs : List (String × any)) : any

/-- A non-nil `map[string]any`, the shape of a crypto descriptor. -/
abbrev CryptoMap := List (String × any)

/-- The part of the `e2wtypes.Encryptor` interface the account uses: `String()`
(the scheme name written by `MarshalJSON`) and `Decrypt(data, key)`. -/
structure Encryptor where
  /-- `String()`. -/
  toString : String
  /-- `Decrypt(data map[string]any, key string) ([]byte, error)`. -/
  Decrypt : CryptoMap → Bytes → Except String Bytes

/-- The BLS key algorithm of `e2types`, over private keys `SK`, public keys `PK`
and signatures `Sig`. -/
structure KeyAlgorithm (SK PK Sig : Type) where
  /-- `e2types.BLSPrivateKeyFromBytes`. -/
  BLSPrivateKeyFromBytes : Bytes → Except String SK
  /-- `e2types.BLSPublicKeyFromBytes`. -/
  BLSPublicKeyFromBytes : Bytes → Except String PK
  /-- `PrivateKey.PublicKey()`. -/
  PublicKey : SK → PK
  /-- `PublicKey.Marshal()`. -/
  Marshal : PK → Bytes
  /-- `PrivateKey.Sign(msg)`. -/
  Sign : SK → Bytes → Sig
  /-- `Signature.Verify(msg, pubKey)`. -/
  Verify : Sig → Bytes → PK → Bool

/-- The `account` struct of `account.go`, without its mutex.  `W` is the state of
the wallet reached through the `wallet` pointer. -/
structure account (SK PK W : Type) where
  id : UUID
  name : String
  publicKey : Option PK
  crypto : Option CryptoMap
  unlocked : Bool
  secretKey : Option SK
  version : Nat
  wallet : Option W
  encryptor : Option Encryptor

/-- How a call ends: it returns (with its `error` result) or it panics. -/
inductive Completion where
  | returned (err : Option String) : Completion
  | panicked : Completion
deriving DecidableEq, Repr

/-- A call `Unlock` makes into one of its collaborators. -/
inductive Call where
  | Decrypt (crypto : CryptoMap) (passphrase : Bytes) : Call
  | batchDecrypt (passphrase : Bytes) : Call

/-- What `account.go` needs from outside the file: the key algorithm and the
wallet method `batchDecrypt`.  `batchDecrypt` lives in `wallet.go`; it receives
the wallet state, the passphrase and the calling account (which it reaches
through the wallet and may mutate) and gives how it ended and the account
afterwards.  Nothing is assumed about it. -/
structure Env (SK PK Sig W : Type) where
  keys : KeyAlgorithm SK PK Sig
  batchDecrypt : W → Bytes → account SK PK W → Completion × account SK PK W

/-- The result of `Unlock`: how the call ended, the account afterwards, and the
collaborator calls it made, in order. -/
structure UnlockResult (SK PK W : Type) where
  completion : Completion
  account : account SK PK W
  calls : List Call

variable {SK PK Sig W : Type}

/-- `newAccount`: the zero value of the struct. -/
def newAccount : account SK PK W :=
  { id := [], name := "", publicKey := none, crypto := none, unlocked := false,
    secretKey := none, version := 0, wallet := none, encryptor := none }

/-- `ID`. -/
def ID (a : account SK PK W) : UUID := a.id

/-- `Name`. -/
def Name (a : account SK PK W) : String := a.name

/-- `PrivateKey` (account.go 62-69): the key and the error it returns. -/
def PrivateKey (a : account SK PK W) : Option SK × Option String :=
  if !a.unlocked then
    (none, some "cannot provide private key when account is locked")
  else
    (a.secretKey, none)

/-- `Lock` (account.go 76-83): the error it returns and the account afterwards. -/
def Lock (a : account SK PK W) : Option String × account SK PK W :=
  (none, { a with unlocked := false })

/-- Lines 115-123 of `Unlock`: "Ensure the private key is correct", then
`a.unlocked = true`.  `a.secretKey.PublicKey()` panics on a nil secret key and
`a.publicKey.Marshal()` on a nil public key. -/
def ensureKey (env : Env SK PK Sig W) (a : account SK PK W) (calls : List Call) :
    UnlockResult SK PK W :=
  match a.secretKey with
  | none => ⟨.panicked, a, calls⟩
  | some sk =>
    match a.publicKey with
    | none => ⟨.panicked, a, calls⟩
    | some pk =>
      if env.keys.Marshal (env.keys.PublicKey sk) ≠ env.keys.Marshal pk then
        ⟨.returned (some "private key does not correspond to public key"),
          { a with secretKey := none }, calls⟩
      else
        ⟨.returned none, { a with unlocked := true }, calls⟩

/-- `Unlock` (account.go 85-126). -/
def Unlock (env : Env SK PK Sig W) (a : account SK PK W) (passphrase : Bytes) :
    UnlockResult SK PK W :=
  if a.unlocked then
    -- If the account is already unlocked then nothing to do.
    ⟨.returned none, a, []⟩
  else
    match a.secretKey with
    | some _ => ⟨.returned none, { a with unlocked := true }, []⟩
    | none =>
      -- First time unlocking, need to decrypt.
      match a.crypto with
      | none =>
        -- This is a batch account, decrypt the batch.
        match a.wallet with
        | none => ⟨.panicked, a, []⟩
        | some w =>
          match env.batchDecrypt w passphrase a with
          | (.panicked, a1) => ⟨.panicked, a1, [.batchDecrypt passphrase]⟩
          | (.returned (some err), a1) =>
            ⟨.returned (some ("failed to decrypt batch: " ++ err)), a1,
              [.batchDecrypt passphrase]⟩
          | (.returned none, a1) => ensureKey env a1 [.batchDecrypt passphrase]
      | some crypto =>
        -- This is an individual account, decrypt the account.
        match a.encryptor with
        | none => ⟨.panicked, a, []⟩
        | some enc =>
          match enc.Decrypt crypto passphrase with
          | .error _ =>
            ⟨.returned (some "incorrect passphrase"), a, [.Decrypt crypto passphrase]⟩
          | .ok privateKeyBytes =>
            match env.keys.BLSPrivateKeyFromBytes privateKeyBytes with
            | .error err =>
              ⟨.returned (some ("failed to obtain private key: " ++ err)), a,
                [.Decrypt crypto passphrase]⟩
            | .ok privateKey =>
              ensureKey env { a with secretKey := some privateKey }
                [.Decrypt crypto passphrase]

/-- `IsUnlocked` (account.go 128-131). -/
def IsUnlocked (a : account SK PK W) : Bool × Option String :=
  (a.unlocked, none)

/-- `Path`. -/
def Path (_a : account SK PK W) : String := ""

/-- `Sign` (account.go 138-157): the signature and the error it returns. -/
def Sign (env : Env SK PK Sig W) (a : account SK PK W) (data : Bytes) :
    Option Sig × Option String :=
  match IsUnlocked a with
  | (_, some err) => (none, some err)
  | (unlocked, none) =>
    if !unlocked then
      (none, some "cannot sign when account is locked")
    else
      match a.secretKey with
      | none => (none, some "missing private key for unlocked account")
      | some sk => (some (env.keys.Sign sk data), none)

/-- A call on an account by its user. -/
inductive Op where
  | Unlock (passphrase : Bytes) : Op
  | Lock : Op
  | Sign (data : Bytes) : Op

/-- The account after one call (`Sign` does not write to the account). -/
def step (env : Env SK PK Sig W) (a : account SK PK W) : Op → account SK PK W
  | .Unlock passphrase => (Unlock env a passphrase).account
  | .Lock => (Lock a).2
  | .Sign _ => a

/-- The account after a sequence of calls, first call first. -/
def run (env : Env SK PK Sig W) (a : account SK PK W) (ops : List Op) : account SK PK W :=
  ops.foldl (step env) a

/-- A newly loaded account: it is locked and holds no secret key (neither field
is part of the persisted record), and the loader has set its public key and its
encryptor. -/
def NewlyLoaded (a : account SK PK W) : Prop :=
  a.unlocked = false ∧ a.secretKey = none ∧ a.publicKey.isSome = true ∧
    a.encryptor.isSome = true

/-- A held secret key agrees with the stored public key: the bytes of the public
key derived from it equal the bytes of `publicKey` (the comparison `Unlock` makes
with `bytes.Equal`). -/
def KeyMatches (env : Env SK PK Sig W) (a : account SK PK W) : Prop :=
  ∀ sk, a.secretKey = some sk →
    ∃ pk, a.publicKey = some pk ∧
      env.keys.Marshal (env.keys.PublicKey sk) = env.keys.Marshal pk

/-- The account's lock state and held key are consistent: an unlocked account
holds a secret key, and a held secret key agrees with the stored public key. -/
def Consistent (env : Env SK PK Sig W) (a : account SK PK W) : Prop :=
  (a.unlocked = true → a.secretKey.isSome = true) ∧ KeyMatches env a

/-- The invariant of an individually encrypted account under `Unlock`, `Lock`
and `Sign`: the crypto descriptor and the public key stay in place and the
account is `Consistent`. -/
def IndividualInv (env : Env SK PK Sig W) (a : account SK PK W) : Prop :=
  a.crypto.isSome = true ∧ a.publicKey.isSome = true ∧ Consistent env a

/-! ## The JSON codecs (`account_json.go`, `wallet_json.go`)

`UnmarshalJSON` is modelled on the result of its first statement,
`json.Unmarshal(data, &v)` with `v map[string]any`: either that call's error or
the decoded document.  `MarshalJSON` is modelled up to its last statement: it
gives the `data` map handed to `json.Marshal`.  How `encoding/json` reads such a
map back is `jsonRoundTrip`.  The library functions the two files call
(`uuid`, `encoding/hex`, `fmt`, `keystorev4`) are the fields of `Codec`. -/

/-- A decoded JSON object (`map[string]any`), as a list of entries; the value of
a key is that of its first entry.  A nil map is the empty list. -/
abbrev Document := List (String × any)

/-- `val, exists := v[key]`. -/
def lookup : Document → String → Option any
  | [], _ => none
  | (k, val) :: rest, key => if k = key then some val else lookup rest key

/-- The library functions used by the JSON code. -/
structure Codec where
  /-- `uuid.UUID.String()`. -/
  uuidString : UUID → String
  /-- `uuid.Parse`. -/
  uuidParse : String → Except String UUID
  /-- `fmt.Sprintf("%x", bytes)`. -/
  hexEncode : Bytes → String
  /-- `hex.DecodeString`. -/
  hexDecodeString : String → Except String Bytes
  /-- The verb `%q` of `fmt` on a string (`strconv.Quote`). -/
  quote : String → String
  /-- `keystorev4.New()`. -/
  keystorev4New : Encryptor
  /-- The `float64` that `encoding/json` reads back for an unsigned integer it
  wrote (the nearest `float64`). -/
  float64OfUint : Nat → Rat
  /-- The value of the conversion `uint(x)` for a `float64` whose truncation does
  not fit a `uint`; Go leaves it to the implementation. -/
  uintOutOfRange : Rat → Nat

/-- The conversion `uint(x)` of a `float64` (64-bit `uint`): the fraction is
discarded (truncation towards zero). -/
def uint (codec : Codec) (x : Rat) : Nat :=
  if -1 < x ∧ x < 2 ^ 64 then x.floor.toNat else codec.uintOutOfRange x

/-- A step of a decoder: the receiver after the step, or the error returned
together with the receiver as the step left it. -/
abbrev Decoded (α : Type) := Except (String × α) α

/-- account_json.go 48-72: the identifier, under `uuid` or else under `id`. -/
def account.unmarshalID (codec : Codec) (a : account SK PK W) (v : Document) :
    Decoded (account SK PK W) :=
  match lookup v "uuid" with
  | some val =>
    match val with
    | .string idStr =>
      match codec.uuidParse idStr with
      | .error err => .error ("failed to parse account ID: " ++ err, a)
      | .ok id => .ok { a with id := id }
    | _ => .error ("account ID invalid", a)
  | none =>
    match lookup v "id" with
    | some val =>
      match val with
      | .string idStr =>
        match codec.uuidParse idStr with
        | .error err => .error ("failed to parse account ID: " ++ err, a)
        | .ok id => .ok { a with id := id }
      | _ => .error ("account ID invalid", a)
    | none => .error ("account ID missing", a)

/-- account_json.go 74-82: the name. -/
def account.unmarshalName (a : account SK PK W) (v : Document) :
    Decoded (account SK PK W) :=
  match lookup v "name" with
  | some val =>
    match val with
    | .string name => .ok { a with name := name }
    | _ => .error ("account name invalid", a)
  | none => .error ("account name missing", a)

/-- account_json.go 83-98: the public key.  The result of
`BLSPublicKeyFromBytes` is assigned to `a.publicKey` before its error is looked
at, so a rejected key leaves no usable public key in the receiver. -/
def account.unmarshalPubkey (codec : Codec) (keys : KeyAlgorithm SK PK Sig)
    (a : account SK PK W) (v : Document) : Decoded (account SK PK W) :=
  match lookup v "pubkey" with
  | some val =>
    match val with
    | .string publicKey =>
      match codec.hexDecodeString publicKey with
      | .error err => .error ("failed to decode public key: " ++ err, a)
      | .ok bytes =>
        match keys.BLSPublicKeyFromBytes bytes with
        | .error err => .error ("invalid public key: " ++ err, { a with publicKey := none })
        | .ok pk => .ok { a with publicKey := some pk }
    | _ => .error ("account pubkey invalid", a)
  | none => .error ("account pubkey missing", a)

/-- account_json.go 99-107: the crypto descriptor. -/
def account.unmarshalCrypto (a : account SK PK W) (v : Document) :
    Decoded (account SK PK W) :=
  match lookup v "crypto" with
  | some val =>
    match val with
    | .map crypto => .ok { a with crypto := some crypto }
    | _ => .error ("account crypto invalid", a)
  | none => .error ("account crypto missing", a)

/-- account_json.go 108-120: the version, then "Only support keystore v4 at
current". -/
def account.unmarshalVersion (codec : Codec) (a : account SK PK W) (v : Document) :
    Decoded (account SK PK W) :=
  match lookup v "version" with
  | some val =>
    match val with
    | .float64 version =>
      if uint codec version ≠ 4 then
        .error ("unsupported keystore version", { a with version := uint codec version })
      else
        .ok { a with version := uint codec version }
    | _ => .error ("account version invalid", a)
  | none => .error ("account version missing", a)

/-- account_json.go 121-135: the encryptor. -/
def account.unmarshalEncryptor (codec : Codec) (a : account SK PK W) (v : Document) :
    Decoded (account SK PK W) :=
  match lookup v "encryptor" with
  | none =>
    -- Default.
    .ok { a with encryptor := some codec.keystorev4New }
  | some val =>
    match val with
    | .string encryptor =>
      if encryptor = "keystore" ∨ encryptor = "keystorev4" then
        .ok { a with encryptor := some codec.keystorev4New }
      else
        .error ("unsupported encryptor " ++ codec.quote encryptor, a)
    | _ => .error ("encryptor invalid", a)

/-- The field steps of `account.UnmarshalJSON`, in the order of the source. -/
def account.unmarshalFields (codec : Codec) (keys : KeyAlgorithm SK PK Sig)
    (a : account SK PK W) (v : Document) :
    Except (String × account SK PK W) (account SK PK W) := do
  let a ← account.unmarshalID codec a v
  let a ← account.unmarshalName a v
  let a ← account.unmarshalPubkey codec keys a v
  let a ← account.unmarshalCrypto a v
  let a ← account.unmarshalVersion codec a v
  account.unmarshalEncryptor codec a v

/-- `account.UnmarshalJSON` (account_json.go 40-138) on the result `parsed` of
`json.Unmarshal(data, &v)`: the error it returns and the receiver afterwards. -/
def account.UnmarshalJSON (codec : Codec) (keys : KeyAlgorithm SK PK Sig)
    (a : account SK PK W) (parsed : Except String Document) :
    Option String × account SK PK W :=
  match parsed with
  | .error err => (some ("failed to unmarshal account: " ++ err), a)
  | .ok v =>
    match account.unmarshalFields codec keys a v with
    | .error (err, a1) => (some err, a1)
    | .ok a1 => (none, a1)

/-- The Go values `MarshalJSON` stores in its `data` map. -/
inductive GoValue where
  | string (s : String) : GoValue
  | uint (n : Nat) : GoValue
  | map (m : Option CryptoMap) : GoValue

/-- `account.MarshalJSON` (account_json.go 27-38): the `data` map it hands to
`json.Marshal`, in the order of the assignments; `none` when the call panics on
a nil public key or a nil encryptor. -/
def account.MarshalJSON (codec : Codec) (keys : KeyAlgorithm SK PK Sig)
    (a : account SK PK W) : Option (List (String × GoValue)) :=
  match a.publicKey, a.encryptor with
  | some pk, some enc =>
    some [("uuid", .string (codec.uuidString a.id)),
      ("name", .string a.name),
      ("pubkey", .string (codec.hexEncode (keys.Marshal pk))),
      ("crypto", .map a.crypto),
      ("encryptor", .string enc.toString),
      ("version", .uint a.version)]
  | _, _ => none

/-- What `encoding/json` reads back into an `any` for a value it wrote: a string
as a string, an unsigned integer as a `float64`, a nil map as `nil` (JSON
`null`), a map of decoded values as that map. -/
def jsonRoundTrip (codec : Codec) : GoValue → any
  | .string s => .string s
  | .uint n => .float64 (codec.float64OfUint n)
  | .map none => .null
  | .map (some m) => .map m

/-- The document `json.Unmarshal` decodes from the output of `json.Marshal` on a
`data` map. -/
def reload (codec : Codec) (data : List (String × GoValue)) : Document :=
  data.map fun kv => (kv.1, jsonRoundTrip codec kv.2)

/-- Modelled from the spec: the struct `wallet` is declared in wallet.go, which
is not among the sources; these are the three fields wallet_json.go reads and
assigns, the field `encryptor` that account.go reads (line 187), and the lock
state of the wallet lock gate (specification, section 4.1). -/
structure wallet where
  id : UUID
  name : String
  version : Nat
  unlocked : Bool
  encryptor : Option Encryptor

/-- Modelled from the spec: the constant `walletType` is declared in wallet.go,
which is not among the sources; it is the fixed discriminator of the
non-deterministic wallet, the value the tests of wallet_json.go use. -/
def walletType : String := "non-deterministic"

/-- wallet_json.go 45-55: the type. -/
def wallet.unmarshalType (codec : Codec) (w : wallet) (v : Document) : Decoded wallet :=
  match lookup v "type" with
  | some val =>
    match val with
    | .string dataWalletType =>
      if dataWalletType ≠ walletType then
        .error ("wallet type " ++ codec.quote dataWalletType ++ " unexpected", w)
      else
        .ok w
    | _ => .error ("wallet type invalid", w)
  | none => .error ("wallet type missing", w)

/-- wallet_json.go 56-81: the identifier, under `uuid` or else under `id`. -/
def wallet.unmarshalID (codec : Codec) (w : wallet) (v : Document) : Decoded wallet :=
  match lookup v "uuid" with
  | some val =>
    match val with
    | .string idStr =>
      match codec.uuidParse idStr with
      | .error err => .error ("failed to parse wallet ID: " ++ err, w)
      | .ok id => .ok { w with id := id }
    | _ => .error ("wallet ID invalid", w)
  | none =>
    -- Used to be ID; remove with V2.0
    match lookup v "id" with
    | some val =>
      match val with
      | .string idStr =>
        match codec.uuidParse idStr with
        | .error err => .error ("failed to parse wallet ID: " ++ err, w)
        | .ok id => .ok { w with id := id }
      | _ => .error ("wallet ID invalid", w)
    | none => .error ("wallet ID missing", w)

/-- wallet_json.go 82-90: the name. -/
def wallet.unmarshalName (w : wallet) (v : Document) : Decoded wallet :=
  match lookup v "name" with
  | some val =>
    match val with
    | .string name => .ok { w with name := name }
    | _ => .error ("wallet name invalid", w)
  | none => .error ("wallet name missing", w)

/-- wallet_json.go 91-99: the version. -/
def wallet.unmarshalVersion (codec : Codec) (w : wallet) (v : Document) : Decoded wallet :=
  match lookup v "version" with
  | some val =>
    match val with
    | .float64 version => .ok { w with version := uint codec version }
    | _ => .error ("wallet version invalid", w)
  | none => .error ("wallet version missing", w)

/-- The field steps of `wallet.UnmarshalJSON`, in the order of the source. -/
def wallet.unmarshalFields (codec : Codec) (w : wallet) (v : Document) :
    Except (String × wallet) wallet := do
  let w ← wallet.unmarshalType codec w v
  let w ← wallet.unmarshalID codec w v
  let w ← wallet.unmarshalName w v
  wallet.unmarshalVersion codec w v

/-- `wallet.UnmarshalJSON` (wallet_json.go 37-102) on the result `parsed` of
`json.Unmarshal(data, &v)`: the error it returns and the receiver afterwards. -/
def wallet.UnmarshalJSON (codec : Codec) (w : wallet) (parsed : Except String Document) :
    Option String × wallet :=
  match parsed with
  | .error err => (some err, w)
  | .ok v =>
    match wallet.unmarshalFields codec w v with
    | .error (err, w1) => (some err, w1)
    | .ok w1 => (none, w1)

/-- Unmarshalling the output of `MarshalJSON(a)` into a fresh account: the error
`UnmarshalJSON` returns and the account it leaves; `none` when `MarshalJSON`
panics. -/
def account.reloaded (codec : Codec) (keys : KeyAlgorithm SK PK Sig) (a : account SK PK W) :
    Option (Option String × account SK PK W) :=
  (account.MarshalJSON codec keys a).map fun data =>
    account.UnmarshalJSON codec keys newAccount (.ok (reload codec data))

/-! ### The validation order of the specification (section 4.5)

The specification describes each decoder as an ordered list of field checks, the
first failing check giving the error.  The definitions of this section follow
that description: one function per field, which looks at that field only and
gives the field's error when the field is faulty, and the first fault of the
list.  They are compared with the decoders above in the theorems. -/

namespace Spec

/-- The identifier entry of a document: `uuid`, or else its legacy alias `id`. -/
def identifierField (v : Document) : Option any :=
  match lookup v "uuid" with
  | some val => some val
  | none => lookup v "id"

/-- The first fault of a list of checks, if any check finds one. -/
def firstFault : List (Option String) → Option String
  | [] => none
  | some err :: _ => some err
  | none :: rest => firstFault rest

/-- The fault of an identifier entry: it must be a string that parses as an
identifier.  `entity` is "account" or "wallet". -/
def identifierFault (codec : Codec) (entity : String) (v : Document) : Option String :=
  match identifierField v with
  | none => some (entity ++ " ID missing")
  | some (.string idStr) =>
    match codec.uuidParse idStr with
    | .error err => some ("failed to parse " ++ entity ++ " ID: " ++ err)
    | .ok _ => none
  | some _ => some (entity ++ " ID invalid")

/-- The fault of a name entry: it must be a string. -/
def nameFault (entity : String) (v : Document) : Option String :=
  match lookup v "name" with
  | none => some (entity ++ " name missing")
  | some (.string _) => none
  | some _ => some (entity ++ " name invalid")

/-- The fault of the `pubkey` entry: it must be a string of hexadecimal digits
that decodes to a structurally valid public key. -/
def pubkeyFault (codec : Codec) (keys : KeyAlgorithm SK PK Sig) (v : Document) :
    Option String :=
  match lookup v "pubkey" with
  | none => some "account pubkey missing"
  | some (.string publicKey) =>
    match codec.hexDecodeString publicKey with
    | .error err => some ("failed to decode public key: " ++ err)
    | .ok bytes =>
      match keys.BLSPublicKeyFromBytes bytes with
      | .error err => some ("invalid public key: " ++ err)
      | .ok _ => none
  | some _ => some "account pubkey invalid"

/-- The fault of the `crypto` entry: it must be a nested document. -/
def cryptoFault (v : Document) : Option String :=
  match lookup v "crypto" with
  | none => some "account crypto missing"
  | some (.map _) => none
  | some _ => some "account crypto invalid"

/-- The fault of the account's `version` entry: it must be a number (presence
and type), and then equal the supported version 4. -/
def accountVersionFault (codec : Codec) (v : Document) : Option String :=
  match lookup v "version" with
  | none => some "account version missing"
  | some (.float64 version) =>
    if uint codec version = 4 then none else some "unsupported keystore version"
  | some _ => some "account version invalid"

/-- The fault of the `encryptor` entry: when present it must be a string that
names a supported encryption scheme. -/
def encryptorFault (codec : Codec) (v : Document) : Option String :=
  match lookup v "encryptor" with
  | none => none
  | some (.string encryptor) =>
    if encryptor = "keystore" ∨ encryptor = "keystorev4" then none
    else some ("unsupported encryptor " ++ codec.quote encryptor)
  | some _ => some "encryptor invalid"

/-- The error of an account document: the fault of the earliest faulty field in
the order identifier, name, pubkey, crypto, version, encryptor. -/
def accountError (codec : Codec) (keys : KeyAlgorithm SK PK Sig) (v : Document) :
    Option String :=
  firstFault [identifierFault codec "account" v, nameFault "account" v,
    pubkeyFault codec keys v, cryptoFault v, accountVersionFault codec v,
    encryptorFault codec v]

/-- The fault of the wallet's `type` entry: it must be a string equal to the
fixed discriminator. -/
def typeFault (codec : Codec) (v : Document) : Option String :=
  match lookup v "type" with
  | none => some "wallet type missing"
  | some (.string dataWalletType) =>
    if dataWalletType = walletType then none
    else some ("wallet type " ++ codec.quote dataWalletType ++ " unexpected")
  | some _ => some "wallet type invalid"

/-- The fault of the wallet's `version` entry: it must be a number. -/
def walletVersionFault (v : Document) : Option String :=
  match lookup v "version" with
  | none => some "wallet version missing"
  | some (.float64 _) => none
  | some _ => some "wallet version invalid"

/-- The error of a wallet document: the fault of the earliest faulty field in
the order type, identifier, name, version. -/
def walletError (codec : Codec) (v : Document) : Option String :=
  firstFault [typeFault codec v, identifierFault codec "wallet" v, nameFault "wallet" v,
    walletVersionFault v]

/-- The identifier a document gives: that of its identifier entry, when the entry
is a string that parses as an identifier. -/
def decodedID (codec : Codec) (v : Document) : Option UUID :=
  match identifierField v with
  | some (.string idStr) =>
    match codec.uuidParse idStr with
    | .ok id => some id
    | .error _ => none
  | _ => none

/-- The name a document gives: its `name` entry, when that is a string. -/
def decodedName (v : Document) : Option String :=
  match lookup v "name" with
  | some (.string name) => some name
  | _ => none

/-- The public key a document gives (the value for the field `publicKey`): when
the `pubkey` entry is a string of hexadecimal digits, the key the key algorithm
makes of the decoded bytes, or nil when it rejects them. -/
def decodedPubkey (codec : Codec) (keys : KeyAlgorithm SK PK Sig) (v : Document) :
    Option (Option PK) :=
  match lookup v "pubkey" with
  | some (.string publicKey) =>
    match codec.hexDecodeString publicKey with
    | .error _ => none
    | .ok bytes =>
      match keys.BLSPublicKeyFromBytes bytes with
      | .error _ => some none
      | .ok pk => some (some pk)
  | _ => none

/-- The crypto descriptor a document gives (the value for the field `crypto`):
its `crypto` entry, when that is a nested document. -/
def decodedCrypto (v : Document) : Option (Option CryptoMap) :=
  match lookup v "crypto" with
  | some (.map crypto) => some (some crypto)
  | _ => none

/-- The version a document gives: its `version` entry converted with `uint`,
when the entry is a number. -/
def decodedVersion (codec : Codec) (v : Document) : Option Nat :=
  match lookup v "version" with
  | some (.float64 version) => some (uint codec version)
  | _ => none

end Spec

/-- The document `v` with every key `id` written `uuid` instead. -/
def renameIDToUUID (v : Document) : Document :=
  v.map fun kv => (if kv.1 = "id" then "uuid" else kv.1, kv.2)

/-- `wallet.MarshalJSON` (wallet_json.go 26-35): the `data` map it hands to
`json.Marshal`, in the order of the assignments. -/
def wallet.MarshalJSON (codec : Codec) (w : wallet) : List (String × GoValue) :=
  [("uuid", .string (codec.uuidString w.id)),
    ("name", .string w.name),
    ("version", .uint w.version),
    ("type", .string walletType)]

/-- Modelled from the spec: `newWallet` is defined in wallet.go, which is not
among the sources; it gives the wallet before anything is decoded into it, and a
new wallet is locked (section 4.1; wallet_test.go 81-83). -/
def newWallet : wallet :=
  { id := [], name := "", version := 0, unlocked := false, encryptor := none }

/-- Unmarshalling the output of `MarshalJSON(w)` into a fresh wallet: the error
`UnmarshalJSON` returns and the wallet it leaves. -/
def wallet.reloaded (codec : Codec) (w : wallet) : Option String × wallet :=
  wallet.UnmarshalJSON codec newWallet (.ok (reload codec (wallet.MarshalJSON codec w)))

/-- Modelled from the spec: `wallet.Unlock` is defined in wallet.go, which is not
among the sources.  Section 4.1: the passphrase is not checked, unlock always
succeeds and leaves the wallet in the creatable (unlocked) state.  The result is
the error returned and the wallet afterwards; `none` is the nil passphrase. -/
def wallet.Unlock (w : wallet) (_passphrase : Option Bytes) : Option String × wallet :=
  (none, { w with unlocked := true })

/-- Modelled from the spec: `wallet.Lock` is defined in wallet.go, which is not
among the sources.  Section 4.1: it returns the wallet to the non-creatable
(locked) state. -/
def wallet.Lock (w : wallet) : Option String × wallet :=
  (none, { w with unlocked := false })

/-- Modelled from the spec: `wallet.IsUnlocked` is defined in wallet.go, which is
not among the sources; it reports the lock state (wallet_test.go 81-99). -/
def wallet.IsUnlocked (w : wallet) : Bool × Option String :=
  (w.unlocked, none)

/-- A call on the wallet lock gate. -/
inductive WalletOp where
  | Unlock (passphrase : Option Bytes) : WalletOp
  | Lock : WalletOp

/-- The wallet after one call on its lock gate. -/
def wallet.step (w : wallet) : WalletOp → wallet
  | .Unlock passphrase => (wallet.Unlock w passphrase).2
  | .Lock => (wallet.Lock w).2

/-- The wallet after a sequence of calls on its lock gate, first call first. -/
def wallet.run (w : wallet) (ops : List WalletOp) : wallet :=
  ops.foldl wallet.step w

/-- What `json.Unmarshal(data, a)` finds in `data` when `a` has the method
`UnmarshalJSON`: bytes that are not valid JSON, for which it returns its own
error without calling the method, or valid JSON, for which it calls
`a.UnmarshalJSON(data)`, whose first statement then gives `parsed`. -/
inductive JSONData where
  | invalid (err : String) : JSONData
  | valid (parsed : Except String Document) : JSONData

/-- `deserializeAccount` (account.go 183-193): the account and the error it
returns. -/
def deserializeAccount (codec : Codec) (keys : KeyAlgorithm SK PK Sig) (w : wallet)
    (data : JSONData) : Option (account SK PK wallet) × Option String :=
  match data with
  | .invalid err => (none, some ("failed to unmarshal account: " ++ err))
  | .valid parsed =>
    match account.UnmarshalJSON codec keys
        { (newAccount : account SK PK wallet) with wallet := some w, encryptor := w.encryptor }
        parsed with
    | (some err, _) => (none, some ("failed to unmarshal account: " ++ err))
    | (none, a) => (some a, none)

/-- The collaborators of `storeAccount` outside account.go, over the persisted
state `S` of the store: `json.Marshal`, the wallet methods `storeAccountsIndex`,
`AccountByName` and `AccountByID` (wallet.go) and the store's `StoreAccount`.  A
write gives the error it returns and the persisted state it leaves; a look-up
gives the error it returns and only reads the persisted state.  Nothing else is
assumed. -/
structure Persistence (S W : Type) where
  /-- `json.Marshal(a)`, once `MarshalJSON` has built its `data` map: the error it
  returns, if any (`encoding/json` fails on a value it cannot encode). -/
  jsonMarshal : List (String × GoValue) → Option String
  /-- `a.wallet.storeAccountsIndex()`. -/
  storeAccountsIndex : W → S → Option String × S
  /-- `a.wallet.store.StoreAccount(a.wallet.ID(), a.ID(), data)`. -/
  StoreAccount : W → UUID → List (String × GoValue) → S → Option String × S
  /-- `a.wallet.AccountByName(ctx, a.name)`. -/
  AccountByName : W → String → S → Option String
  /-- `a.wallet.AccountByID(ctx, a.id)`. -/
  AccountByID : W → UUID → S → Option String

/-- `storeAccount` (account.go 159-181) on the persisted state `s`: how the call
ends and the persisted state afterwards.  `json.Marshal(a)` calls `MarshalJSON`,
which panics on a nil public key or encryptor, and returns the error of encoding
the `data` map; the calls through `a.wallet` panic on a nil wallet. -/
def storeAccount {S : Type} (codec : Codec) (keys : KeyAlgorithm SK PK Sig)
    (ops : Persistence S W) (a : account SK PK W) (s : S) : Completion × S :=
  match account.MarshalJSON codec keys a with
  | none => (.panicked, s)
  | some data =>
    match ops.jsonMarshal data with
    | some err => (.returned (some ("failed to marshal account: " ++ err)), s)
    | none =>
      match a.wallet with
      | none => (.panicked, s)
      | some w =>
        match ops.storeAccountsIndex w s with
        | (some err, s1) => (.returned (some ("failed to store account index: " ++ err)), s1)
        | (none, s1) =>
          match ops.StoreAccount w a.id data s1 with
          | (some err, s2) => (.returned (some ("failed to store account: " ++ err)), s2)
          | (none, s2) =>
            -- Check to ensure the created account can be retrieved.
            match ops.AccountByName w a.name s2 with
            | some err =>
              (.returned
                (some ("failed to confirm account when retrieving by name: " ++ err)), s2)
            | none =>
              match ops.AccountByID w a.id s2 with
              | some err =>
                (.returned
                  (some ("failed to confirm account when retrieveing by ID: " ++ err)), s2)
              | none => (.returned none, s2)

/-- The receiver as a decoder step leaves it, whether the step fails or not. -/
def Decoded.receiver {α : Type} : Except (String × α) α → α
  | .ok a => a
  | .error (_, a) => a

/-- The fields of an account that no step before the last one of the decoder
writes: `b` has the lock state, secret key, wallet and encryptor of `a`. -/
def account.Untouched (a b : account SK PK W) : Prop :=
  b.unlocked = a.unlocked ∧ b.secretKey = a.secretKey ∧ b.wallet = a.wallet ∧
    b.encryptor = a.encryptor

/-- What every run of the account decoder keeps of the receiver `a`: the lock
state, secret key and wallet in any case, and the encryptor too when the decoder
fails. -/
def account.Framed (a : account SK PK W) :
    Except (String × account SK PK W) (account SK PK W) → Prop
  | .ok b => b.unlocked = a.unlocked ∧ b.secretKey = a.secretKey ∧ b.wallet = a.wallet
  | .error (_, b) => account.Untouched a b

/-- The document `v` without its entries of key `id`. -/
def removeID (v : Document) : Document :=
  v.filter fun kv => kv.1 ≠ "id"

/-! ## The wallet operations of the specification

`CreateAccount`, `ImportAccount`, `BatchWallet`, `batchDecrypt` and the loading
of a wallet are defined in wallet.go, which is not among the sources.  The
definitions of this section follow sections 3, 4.1, 4.2, 4.3 and 4.6 of the
specification; where they unlock an account they use `Unlock` of account.go. -/

namespace Spec

/-- Modelled from the spec: what an account reaches of its wallet when it
unlocks (sections 4.4 and 4.6), namely the wallet's batch record.  The wallet
struct is declared in wallet.go, which is not among the sources. -/
structure Owner where
  batch : Option CryptoMap

/-- Modelled from the spec: the external capabilities of section 6 that the
wallet operations of wallet.go (not among the sources) use: the key algorithm
with the byte form of a private key, the encryptor with `encrypt` next to its
`Decrypt`, the encryption of a batch (the collection of account id and secret
"as one unit") and its decryption, the store (the error of persisting an account
and the index, if any), the reserved leading characters of account names, and
the quoting of a name in an error. -/
structure Capabilities (SK PK Sig : Type) where
  keys : KeyAlgorithm SK PK Sig
  secretBytes : SK → Bytes
  encryptor : Encryptor
  encrypt : Bytes → Bytes → CryptoMap
  encryptBatch : List (UUID × Bytes) → Bytes → CryptoMap
  decryptBatch : CryptoMap → Bytes → Except String (List (UUID × Bytes))
  store : account SK PK Owner → Option String
  reserved : Char → Bool
  quote : String → String

/-- Modelled from the spec: the wallet entity of section 3 (declared in
wallet.go, not among the sources): the wallet with its accounts, its index from
account name to account id, and its optional batch record. -/
structure Wallet (SK PK : Type) extends wallet where
  accounts : List (account SK PK Owner)
  index : List (String × UUID)
  batch : Option CryptoMap

/-- Modelled from the spec: the "wallet locked" condition of section 4.1; the
text of the error is in wallet.go, which is not among the sources. -/
def walletLocked : String := "wallet locked"

/-- Modelled from the spec: `batchDecrypt` of section 4.6 (wallet.go, not among
the sources): it decrypts the wallet's batch descriptor with the passphrase,
which yields the collection of account id and secret, and the calling account
takes its own entry, if there is one.  The specification does not give the error
of a wallet without batch record; its text here is a placeholder. -/
def batchDecrypt (caps : Capabilities SK PK Sig) (w : Owner) (passphrase : Bytes)
    (a : account SK PK Owner) : Completion × account SK PK Owner :=
  match w.batch with
  | none => (.returned (some "no batch"), a)
  | some descriptor =>
    match caps.decryptBatch descriptor passphrase with
    | .error err => (.returned (some err), a)
    | .ok secrets =>
      match secrets.lookup a.id with
      | none => (.returned none, a)
      | some secret =>
        match caps.keys.BLSPrivateKeyFromBytes secret with
        | .error err => (.returned (some err), a)
        | .ok sk => (.returned none, { a with secretKey := some sk })

/-- Modelled from the spec: the collaborators of `Unlock` for an account of a
wallet of the specification (wallet.go is not among the sources): the key
algorithm and the `batchDecrypt` of section 4.6. -/
def env (caps : Capabilities SK PK Sig) : Env SK PK Sig Owner where
  keys := caps.keys
  batchDecrypt := batchDecrypt caps

/-- Modelled from the spec: the lock gate of section 4.1 and the validations of
section 4.2, steps 1 to 3, of `CreateAccount` and `ImportAccount` (wallet.go,
not among the sources): the error of the first check that fails, if any. -/
def rejection (caps : Capabilities SK PK Sig) (v : Wallet SK PK) (name : String) :
    Option String :=
  if v.unlocked = false then some walletLocked
  else if name = "" then some "account name missing"
  else if name.data.head?.map caps.reserved = some true then
    some ("invalid account name " ++ caps.quote name)
  else if (v.index.lookup name).isSome then
    some ("account with name " ++ caps.quote name ++ " already exists")
  else none

/-- Modelled from the spec: the account that steps 4 to 6 of section 4.2 build
(wallet.go, not among the sources) from the private key `sk` and the fresh
identifier `id`, in a wallet with the batch record `batch`: it carries the public
key of `sk` and the encryption of `sk` with the passphrase as its own crypto
descriptor, and it is locked and holds no secret. -/
def created (caps : Capabilities SK PK Sig) (batch : Option CryptoMap) (name : String)
    (passphrase : Bytes) (sk : SK) (id : UUID) : account SK PK Owner :=
  { id := id, name := name, publicKey := some (caps.keys.PublicKey sk),
    crypto := some (caps.encrypt (caps.secretBytes sk) passphrase), unlocked := false,
    secretKey := none, version := 4, wallet := some ⟨batch⟩,
    encryptor := some caps.encryptor }

/-- Modelled from the spec: steps 4 to 8 of section 4.2 (wallet.go, not among the
sources) for the private key `sk` and the fresh identifier `id`: the account is
built locked and without secret, with the encrypted key as its crypto
descriptor, and is persisted with the index; a store failure leaves the wallet
as it was (section 7). -/
def register (caps : Capabilities SK PK Sig) (v : Wallet SK PK) (name : String)
    (passphrase : Bytes) (sk : SK) (id : UUID) :
    Option (account SK PK Owner) × Option String × Wallet SK PK :=
  let a := created caps v.batch name passphrase sk id
  match caps.store a with
  | some err => (none, some err, v)
  | none =>
    (some a, none,
      { v with accounts := v.accounts ++ [a], index := v.index ++ [(name, id)] })

/-- Modelled from the spec: `CreateAccount` of section 4.2 (wallet.go, not among
the sources); `sk` and `id` are the private key and the identifier that the
capabilities generate.  The result is the account and the error returned, and
the wallet afterwards. -/
def CreateAccount (caps : Capabilities SK PK Sig) (v : Wallet SK PK) (name : String)
    (passphrase : Bytes) (sk : SK) (id : UUID) :
    Option (account SK PK Owner) × Option String × Wallet SK PK :=
  match rejection caps v name with
  | some err => (none, some err, v)
  | none => register caps v name passphrase sk id

/-- Modelled from the spec: `ImportAccount` of section 4.3 (wallet.go, not among
the sources): as `CreateAccount`, with the private key made from the bytes `key`
of the caller, or the failure "invalid key material". -/
def ImportAccount (caps : Capabilities SK PK Sig) (v : Wallet SK PK) (name : String)
    (key : Bytes) (passphrase : Bytes) (id : UUID) :
    Option (account SK PK Owner) × Option String × Wallet SK PK :=
  match rejection caps v name with
  | some err => (none, some err, v)
  | none =>
    match caps.keys.BLSPrivateKeyFromBytes key with
    | .error _ => (none, some "invalid key material", v)
    | .ok sk => register caps v name passphrase sk id

/-- Modelled from the spec: step 1 of section 4.6 for one account (wallet.go, not
among the sources): `Unlock` is tried with each supplied passphrase in the given
order and the first success is taken (a call that does not return without error
is a failed attempt); the result is the unlocked account, or nothing when no
passphrase unlocks it. -/
def unlockWithAny (caps : Capabilities SK PK Sig) (a : account SK PK Owner) :
    List Bytes → Option (account SK PK Owner)
  | [] => none
  | passphrase :: rest =>
    match (Unlock (env caps) a passphrase).completion with
    | .returned none => some (Unlock (env caps) a passphrase).account
    | _ => unlockWithAny caps (Unlock (env caps) a passphrase).account rest

/-- Modelled from the spec: step 1 of section 4.6 for every account of the wallet
(wallet.go, not among the sources): an account that no passphrase unlocks fails
the whole operation. -/
def unlockAll (caps : Capabilities SK PK Sig) :
    List (account SK PK Owner) → List Bytes → Option (List (account SK PK Owner))
  | [], _ => some []
  | a :: rest, passphrases =>
    match unlockWithAny caps a passphrases with
    | none => none
    | some b => (unlockAll caps rest passphrases).map fun bs => b :: bs

/-- Modelled from the spec: step 2 of section 4.6 (wallet.go, not among the
sources): the pairs of account id and decrypted secret bytes. -/
def secrets (caps : Capabilities SK PK Sig) (accounts : List (account SK PK Owner)) :
    List (UUID × Bytes) :=
  accounts.filterMap fun a => a.secretKey.map fun sk => (a.id, caps.secretBytes sk)

/-- Modelled from the spec: `BatchWallet` of section 4.6 (wallet.go, not among the
sources): every account is unlocked with one of the passphrases, the collected
secrets are encrypted as one unit with the batch passphrase, the descriptor
becomes the wallet's batch record and every account loses its own crypto
descriptor; when an account cannot be unlocked nothing is committed.  The result
is the error returned and the wallet afterwards. -/
def BatchWallet (caps : Capabilities SK PK Sig) (v : Wallet SK PK)
    (accountPassphrases : List Bytes) (batchPassphrase : Bytes) :
    Option String × Wallet SK PK :=
  match unlockAll caps v.accounts accountPassphrases with
  | none => (some "failed to unlock account", v)
  | some unlocked =>
    let descriptor := caps.encryptBatch (secrets caps unlocked) batchPassphrase
    (none, { v with
      batch := some descriptor
      accounts := unlocked.map fun a =>
        { a with crypto := none, wallet := some ⟨some descriptor⟩ } })

/-- Modelled from the spec: loading the wallet again (OpenWallet of wallet.go, not
among the sources): what is persisted is kept, and the transient state of
section 4.5, the lock states and the secrets, is reset to locked and absent. -/
def reopen (v : Wallet SK PK) : Wallet SK PK :=
  { v with
    unlocked := false
    accounts := v.accounts.map fun a => { a with unlocked := false, secretKey := none } }

/-- Modelled from the spec: the wallet of section 3 after `wallet.Unlock` of
section 4.1 (wallet.go, not among the sources). -/
def Wallet.unlock (v : Wallet SK PK) (passphrase : Option Bytes) : Wallet SK PK :=
  { towallet := (wallet.Unlock v.towallet passphrase).2, accounts := v.accounts,
    index := v.index, batch := v.batch }

/-- Modelled from the spec: what the batch scenario of section 8 takes for granted
of the capabilities of section 6 (their code is outside this repository): the
encryptor decrypts a descriptor with the passphrase it was encrypted with and
with no other, for a single secret and for a batch, and the store persists. -/
structure Capabilities.Sound (caps : Capabilities SK PK Sig) : Prop where
  opens : ∀ s p, caps.encryptor.Decrypt (caps.encrypt s p) p = .ok s
  shuts : ∀ s p q, q ≠ p → ∃ e, caps.encryptor.Decrypt (caps.encrypt s p) q = .error e
  opensBatch : ∀ entries p, caps.decryptBatch (caps.encryptBatch entries p) p = .ok entries
  shutsBatch : ∀ entries p q, q ≠ p →
    ∃ e, caps.decryptBatch (caps.encryptBatch entries p) q = .error e
  stores : ∀ a, caps.store a = none

/-- The locked account `a`, which holds no secret, opens with the passphrase `p`
and with no other: `Unlock` with `p` returns no error and leaves the account
unlocked with the secret `sk`, and `Unlock` with another passphrase returns an
error and leaves the account as it was. -/
def OpensWith (caps : Capabilities SK PK Sig) (a : account SK PK Owner) (p : Bytes)
    (sk : SK) : Prop :=
  a.unlocked = false ∧ a.secretKey = none ∧
  (Unlock (env caps) a p).completion = .returned none ∧
  (Unlock (env caps) a p).account = { a with secretKey := some sk, unlocked := true } ∧
  ∀ q, q ≠ p →
    (∃ e, (Unlock (env caps) a q).completion = .returned (some e)) ∧
    (Unlock (env caps) a q).account = a

/-- Modelled from the spec: a wallet as it is created, without accounts, with an
empty index and without batch record (CreateWallet of wallet.go, which is not
among the sources); `w` is the wallet with its lock gate. -/
def emptyWallet (w : wallet) : Wallet SK PK :=
  { towallet := w, accounts := [], index := [], batch := none }

/-- The inputs of the batch scenario of section 8: the names of the accounts A, B
and C, the identifiers and the private keys generated for them, the passphrase
`p1` of A and B, the batch passphrase `bp` and the passphrase `p2` of C. -/
structure Scenario (SK : Type) where
  nameA : String
  nameB : String
  nameC : String
  idA : UUID
  idB : UUID
  idC : UUID
  skA : SK
  skB : SK
  skC : SK
  p1 : Bytes
  bp : Bytes
  p2 : Bytes

/-- An account as it is loaded when its secret is in the batch `descriptor` of
its wallet: it has no crypto descriptor of its own, it is locked and holds no
secret. -/
def member (caps : Capabilities SK PK Sig) (descriptor : CryptoMap) (name : String)
    (sk : SK) (id : UUID) : account SK PK Owner :=
  { id := id, name := name, publicKey := some (caps.keys.PublicKey sk), crypto := none,
    unlocked := false, secretKey := none, version := 4, wallet := some ⟨some descriptor⟩,
    encryptor := some caps.encryptor }

/-- The batch scenario: the batch descriptor of A and B under the passphrase
`bp`. -/
def Scenario.descriptor (s : Scenario SK) (caps : Capabilities SK PK Sig) : CryptoMap :=
  caps.encryptBatch [(s.idA, caps.secretBytes s.skA), (s.idB, caps.secretBytes s.skB)] s.bp

/-- The batch scenario: the wallet after A and B were created in the empty
unlocked wallet, both with the passphrase `p1`. -/
def Scenario.created (s : Scenario SK) (caps : Capabilities SK PK Sig) (w : wallet) :
    Wallet SK PK :=
  (CreateAccount caps (CreateAccount caps (emptyWallet w) s.nameA s.p1 s.skA s.idA).2.2
    s.nameB s.p1 s.skB s.idB).2.2

/-- The batch scenario: the error of `BatchWallet([p1], bp)` after the creation
of A and B, and the wallet it leaves. -/
def Scenario.batched (s : Scenario SK) (caps : Capabilities SK PK Sig) (w : wallet) :
    Option String × Wallet SK PK :=
  BatchWallet caps (s.created caps w) [s.p1] s.bp

/-- The batch scenario: the wallet loaded again after `BatchWallet([p1], bp)`. -/
def Scenario.reloaded (s : Scenario SK) (caps : Capabilities SK PK Sig) (w : wallet) :
    Wallet SK PK :=
  reopen (s.batched caps w).2

/-- The batch scenario: the creation of C with the passphrase `p2` in the
reloaded wallet, once that is unlocked: the account and the error returned, and
the wallet afterwards. -/
def Scenario.extended (s : Scenario SK) (caps : Capabilities SK PK Sig) (w : wallet) :
    Option (account SK PK Owner) × Option String × Wallet SK PK :=
  CreateAccount caps ((s.reloaded caps w).unlock none) s.nameC s.p2 s.skC s.idC

end Spec

/-! ## A small concrete instance

Used to evaluate the definitions on concrete accounts. -/

namespace Demo

/-- A stand-in key algorithm: keys and signatures are byte lists, a private key
is any two bytes, the public key adds one to each byte of the private key, and a
signature is the private key followed by the message. -/
def keys : KeyAlgorithm Bytes Bytes Bytes where
  BLSPrivateKeyFromBytes := fun bs =>
    if bs.length = 2 then .ok bs else .error "private key must be 2 bytes"
  BLSPublicKeyFromBytes := fun bs =>
    if bs.length = 2 then .ok bs else .error "public key must be 2 bytes"
  PublicKey := fun sk => sk.map (· + 1)
  Marshal := fun pk => pk
  Sign := fun sk data => sk ++ data
  Verify := fun sig data pk => decide (sig = pk.map (· - 1) ++ data)

/-- A stand-in encryptor: passphrase `[1]` opens the descriptor to the key
`[10, 20]`, `[2]` to the key `[30, 40]`, `[3]` to the single byte `[5]`, and
every other passphrase fails. -/
def encryptor : Encryptor where
  toString := "keystorev4"
  Decrypt := fun _ passphrase =>
    match passphrase with
    | [1] => .ok [10, 20]
    | [2] => .ok [30, 40]
    | [3] => .ok [5]
    | _ => .error "invalid checksum"

/-- The collaborators of the demo accounts; the wallet has no batch. -/
def env : Env Bytes Bytes Bytes Unit where
  keys := keys
  batchDecrypt := fun _ _ a => (.returned (some "no batch"), a)

/-- A crypto descriptor (its content is not inspected by the stand-in encryptor). -/
def crypto : CryptoMap := [("checksum", .null)]

/-- A newly loaded, individually encrypted account whose public key `[11, 21]`
belongs to the private key `[10, 20]`. -/
def loaded : account Bytes Bytes Unit :=
  { id := [201, 149, 128, 97], name := "test account", publicKey := some [11, 21],
    crypto := some crypto, unlocked := false, secretKey := none, version := 4,
    wallet := none, encryptor := some encryptor }

/-- The demo account with the public key `[31, 41]`, which belongs to the private
key `[30, 40]`: passphrase `[1]` decrypts a key that does not match it. -/
def mismatched : account Bytes Bytes Unit :=
  { loaded with publicKey := some [31, 41] }

/-- The demo account after `Unlock([1])` (the right passphrase). -/
def opened : account Bytes Bytes Unit :=
  run env loaded [.Unlock [1]]

/-- The demo account after `Unlock([1])` (the right passphrase) and `Lock`. -/
def relocked : account Bytes Bytes Unit :=
  run env loaded [.Unlock [1], .Lock]

/-- The character of a hexadecimal digit, lower case. -/
def hexDigit (n : Nat) : Char :=
  if n < 10 then Char.ofNat (48 + n) else Char.ofNat (87 + n)

/-- The value of a hexadecimal digit. -/
def hexValue (c : Char) : Option Nat :=
  if 48 ≤ c.toNat ∧ c.toNat ≤ 57 then some (c.toNat - 48)
  else if 97 ≤ c.toNat ∧ c.toNat ≤ 102 then some (c.toNat - 87)
  else if 65 ≤ c.toNat ∧ c.toNat ≤ 70 then some (c.toNat - 55)
  else none

/-- Two hexadecimal digits per byte. -/
def hexEncode (bs : Bytes) : String :=
  String.mk (bs.flatMap fun b => [hexDigit (b / 16 % 16), hexDigit (b % 16)])

/-- The bytes of a list of hexadecimal digits. -/
def hexDecodeChars : List Char → Except String Bytes
  | [] => .ok []
  | [_] => .error "encoding/hex: odd length hex string"
  | c1 :: c2 :: rest =>
    match hexValue c1, hexValue c2 with
    | some hi, some lo =>
      match hexDecodeChars rest with
      | .ok bs => .ok ((16 * hi + lo) :: bs)
      | .error err => .error err
    | _, _ => .error "encoding/hex: invalid byte"

/-- A second stand-in encryptor, of a scheme the account decoder does not know. -/
def otherEncryptor : Encryptor where
  toString := "unencryptedv1"
  Decrypt := fun _ _ => .ok [10, 20]

/-- Stand-ins for the library functions: identifiers are written as plain
hexadecimal digits, `%q` adds the quotation marks without escaping, small
integers are read back exactly. -/
def codec : Codec where
  uuidString := hexEncode
  uuidParse := fun s =>
    match hexDecodeChars s.data with
    | .ok bs => .ok bs
    | .error _ => .error "invalid UUID format"
  hexEncode := hexEncode
  hexDecodeString := fun s => hexDecodeChars s.data
  quote := fun s => String.singleton (Char.ofNat 34) ++ s ++ String.singleton (Char.ofNat 34)
  keystorev4New := encryptor
  float64OfUint := fun n => n
  uintOutOfRange := fun _ => 0

/-- The record of the demo account as the decoder reads it, without an
`encryptor` entry. -/
def document : Document :=
  [("uuid", .string "c9958061"), ("name", .string "test account"),
    ("pubkey", .string "0b15"), ("crypto", .map crypto), ("version", .float64 4)]

/-- The demo account with its crypto descriptor cleared. -/
def batched : account Bytes Bytes Unit :=
  { loaded with crypto := none }

/-- A stand-in key algorithm with the key lengths of BLS: a private key is any
32 bytes, a public key any 48 bytes. -/
def keys48 : KeyAlgorithm Bytes Bytes Bytes where
  BLSPrivateKeyFromBytes := fun bs =>
    if bs.length = 32 then .ok bs else .error "private key must be 32 bytes"
  BLSPublicKeyFromBytes := fun bs =>
    if bs.length = 48 then .ok bs else .error "public key must be 48 bytes"
  PublicKey := fun sk => sk ++ List.replicate 16 0
  Marshal := fun pk => pk
  Sign := fun sk data => sk ++ data
  Verify := fun sig data pk => decide (sig = pk.take 32 ++ data)

/-- A wallet before decoding. -/
def newWallet : wallet :=
  { id := [], name := "", version := 0, unlocked := false, encryptor := none }


/-- The demo account with an encryptor of another scheme. -/
def foreign : account Bytes Bytes Unit :=
  { loaded with encryptor := some otherEncryptor }

/-- The demo account with version 3. -/
def version3 : account Bytes Bytes Unit :=
  { loaded with version := 3 }

/-- The record of the demo account with the version written `4.5`. -/
def fractionalDocument : Document :=
  [("uuid", .string "c9958061"), ("name", .string "test account"),
    ("pubkey", .string "0b15"), ("crypto", .map crypto), ("version", .float64 (9 / 2))]

/-- The record of the demo account with version 3 and an `encryptor` entry that
is not a string. -/
def version3Document : Document :=
  [("uuid", .string "c9958061"), ("name", .string "test account"),
    ("pubkey", .string "0b15"), ("crypto", .map crypto), ("version", .float64 3),
    ("encryptor", .bool true)]

/-- The record of the demo account without an identifier entry. -/
def anonymousDocument : Document :=
  [("name", .string "test account"), ("pubkey", .string "0b15"),
    ("crypto", .map crypto), ("version", .float64 4)]

/-- The record of the demo account with the identifier under the legacy key, and
with the `type` entry of a wallet record. -/
def legacyDocument : Document :=
  [("id", .string "c9958061"), ("name", .string "test account"),
    ("pubkey", .string "0b15"), ("crypto", .map crypto), ("version", .float64 4),
    ("type", .string "non-deterministic")]

/-- An account record with a public key of 48 bytes, for `keys48`. -/
def document48 : Document :=
  [("uuid", .string "c9958061"), ("name", .string "test account"),
    ("pubkey", .string
      "a99a76ed7796f7be22d5b7e85deeb7c5677e88e511e0b337618f8c4eb61349b4bf2d153f649f7b53359fe8b94a38e44c"),
    ("crypto", .map crypto), ("version", .float64 4)]

/-- A wallet with the stand-in keystore-v4 encryptor. -/
def someWallet : wallet :=
  { id := [7, 7, 7, 7], name := "test wallet", version := 1, unlocked := false,
    encryptor := some encryptor }

/-- The collaborators of accounts that belong to a wallet.  The stand-in for
`batchDecrypt` follows section 4.6 of the specification: the batch passphrase
`[8]` opens the batch, which holds the secret `[10, 20]` of the account with id
`[201, 149, 128, 97]` and of no other account; any other passphrase fails. -/
def walletEnv : Env Bytes Bytes Bytes wallet where
  keys := keys
  batchDecrypt := fun _ passphrase a =>
    if passphrase = [8] then
      (.returned none,
        if a.id = [201, 149, 128, 97] then { a with secretKey := some [10, 20] } else a)
    else
      (.returned (some "invalid checksum"), a)

/-- An account of `someWallet` without a crypto descriptor whose id the batch
covers. -/
def covered : account Bytes Bytes wallet :=
  { id := [201, 149, 128, 97], name := "test account", publicKey := some [11, 21],
    crypto := none, unlocked := false, secretKey := none, version := 4,
    wallet := some someWallet, encryptor := some encryptor }

/-- An encryptor that fails on every passphrase, with an error text of its own. -/
def corruptEncryptor : Encryptor where
  toString := "keystorev4"
  Decrypt := fun _ _ => .error "corrupt descriptor"

/-- The entries of a document that has a valid `type` and identifier and no
name. -/
def namelessDocument : Document :=
  [("type", .string "non-deterministic"), ("uuid", .string "c9958061")]

/-- The persisted state of a store: the account names of the index record and
the ids of the account records. -/
structure Disk where
  index : List String
  accounts : List UUID
deriving DecidableEq

/-- A store on which the index record can be written and an account record
cannot: the index write persists the name of the new account, the account write
fails and writes nothing. -/
def fullDisk : Persistence Disk wallet where
  jsonMarshal := fun _ => none
  storeAccountsIndex := fun _ s => (none, { s with index := "test account" :: s.index })
  StoreAccount := fun _ _ _ s => (some "no space left on device", s)
  AccountByName := fun _ name s => if name ∈ s.index then none else some "not found"
  AccountByID := fun _ id s => if id ∈ s.accounts then none else some "not found"

/-- A store on which both records can be written. -/
def goodDisk : Persistence Disk wallet where
  jsonMarshal := fun _ => none
  storeAccountsIndex := fun _ s => (none, { s with index := "test account" :: s.index })
  StoreAccount := fun _ id _ s => (none, { s with accounts := id :: s.accounts })
  AccountByName := fun _ name s => if name ∈ s.index then none else some "not found"
  AccountByID := fun _ id s => if id ∈ s.accounts then none else some "not found"

/-- A store on which both records can be written and the account record cannot
be read back. -/
def unreadableDisk : Persistence Disk wallet where
  jsonMarshal := fun _ => none
  storeAccountsIndex := fun _ s => (none, { s with index := "test account" :: s.index })
  StoreAccount := fun _ id _ s => (none, { s with accounts := id :: s.accounts })
  AccountByName := fun _ name s => if name ∈ s.index then none else some "not found"
  AccountByID := fun _ _ _ => some "permission denied"

/-- The demo account as an account of `someWallet`. -/
def owned : account Bytes Bytes wallet :=
  { covered with crypto := some crypto }

/-- The record of the demo account with a well-formed `uuid` and an `id` that is
not a string, and with the `type` entry of a wallet record. -/
def twoKeysDocument : Document :=
  ("id", .float64 1) :: ("uuid", .string "c9958061") ::
    [("name", .string "test account"), ("pubkey", .string "0b15"),
      ("crypto", .map crypto), ("version", .float64 4),
      ("type", .string "non-deterministic")]

/-- A wallet configured with an encryptor of another scheme. -/
def foreignWallet : wallet :=
  { someWallet with encryptor := some otherEncryptor }

/-- The bytes as a slice of numbers, the form in which the stand-in cipher
writes them into a descriptor. -/
def bytesAny (bs : Bytes) : any :=
  .slice (bs.map fun (b : Nat) => any.float64 (b : Rat))

/-- The number a descriptor value stands for. -/
def anyNat : any → Nat
  | .float64 x => x.num.toNat
  | _ => 0

/-- The bytes a descriptor value stands for. -/
def anyBytes : any → Bytes
  | .slice xs => xs.map anyNat
  | _ => []

/-- The stand-in cipher's `encrypt`: the descriptor holds the secret and the
passphrase. -/
def encipher (secret passphrase : Bytes) : CryptoMap :=
  [("message", bytesAny secret), ("key", bytesAny passphrase)]

/-- A stand-in encryptor that opens the descriptors of `encipher` with the
passphrase they were made with, and with no other. -/
def cipher : Encryptor where
  toString := "keystorev4"
  Decrypt := fun crypto passphrase =>
    match lookup crypto "key", lookup crypto "message" with
    | some k, some m =>
      if anyBytes k = passphrase then .ok (anyBytes m) else .error "invalid checksum"
    | _, _ => .error "invalid descriptor"

/-- One entry of a batch in a descriptor. -/
def entryAny (e : UUID × Bytes) : any :=
  .slice [bytesAny e.1, bytesAny e.2]

/-- The entry of a batch a descriptor value stands for. -/
def anyEntry : any → UUID × Bytes
  | .slice [i, s] => (anyBytes i, anyBytes s)
  | _ => ([], [])

/-- The stand-in cipher's encryption of a batch. -/
def encipherBatch (entries : List (UUID × Bytes)) (passphrase : Bytes) : CryptoMap :=
  [("message", .slice (entries.map entryAny)), ("key", bytesAny passphrase)]

/-- The stand-in cipher's decryption of a batch. -/
def decipherBatch (crypto : CryptoMap) (passphrase : Bytes) :
    Except String (List (UUID × Bytes)) :=
  match lookup crypto "key", lookup crypto "message" with
  | some k, some (.slice es) =>
    if anyBytes k = passphrase then .ok (es.map anyEntry) else .error "invalid checksum"
  | _, _ => .error "invalid descriptor"

/-- The capabilities of the demo wallets: the stand-in key algorithm and cipher,
a store that does not fail, and the underscore as reserved leading character. -/
def caps : Spec.Capabilities Bytes Bytes Bytes where
  keys := keys
  secretBytes := fun sk => sk
  encryptor := cipher
  encrypt := encipher
  encryptBatch := encipherBatch
  decryptBatch := decipherBatch
  store := fun _ => none
  reserved := fun c => c = '_'
  quote := codec.quote

/-- A locked wallet without accounts. -/
def lockedVault : Spec.Wallet Bytes Bytes :=
  { towallet := someWallet, accounts := [], index := [], batch := none }

/-- The wallet without accounts, unlocked. -/
def vault : Spec.Wallet Bytes Bytes :=
  lockedVault.unlock none

/-- The batch scenario of batch_test.go, with short passphrases: "account 1" and
"account 2" with the passphrase `[112]`, the batch passphrase `[98, 112]`, and
"account 3" with the passphrase `[112, 50]`. -/
def scenario : Spec.Scenario Bytes :=
  { nameA := "account 1", nameB := "account 2", nameC := "account 3",
    idA := [1, 1, 1, 1], idB := [2, 2, 2, 2], idC := [3, 3, 3, 3],
    skA := [10, 20], skB := [30, 40], skC := [50, 60],
    p1 := [112], bp := [98, 112], p2 := [112, 50] }

/-- The unlocked wallet after the account "test" was created in it. -/
def vaultWithTest : Spec.Wallet Bytes Bytes :=
  (Spec.CreateAccount caps vault "test" [116] [10, 20] [1, 1, 1, 1]).2.2

end Demo

/-! ## Theorems -/

/-- C1 (as amended): a LOCKED account that holds no secret key and has an
individual crypto descriptor answers a passphrase its encryptor cannot decrypt
with the error "incorrect passphrase", and is left exactly as it was (so
LOCKED). -/
theorem C1_unlock_incorrect_passphrase (env : Env SK PK Sig W) (a : account SK PK W)
    (p : Bytes) (crypto : CryptoMap) (enc : Encryptor) (e : String)
    (hlocked : a.unlocked = false) (hkey : a.secretKey = none)
    (hcrypto : a.crypto = some crypto) (henc : a.encryptor = some enc)
    (hfail : enc.Decrypt crypto p = .error e) :
    (Unlock env a p).completion = .returned (some "incorrect passphrase") ∧
      (Unlock env a p).account = a ∧ (Unlock env a p).account.unlocked = false := by
  simp [Unlock, hlocked, hkey, hcrypto, henc, hfail]

/-- Witness for C1: the newly loaded demo account and the passphrase `[9]`. -/
theorem C1_unlock_incorrect_passphrase_witness :
    (Unlock Demo.env Demo.loaded [9]).completion = .returned (some "incorrect passphrase") ∧
      (Unlock Demo.env Demo.loaded [9]).account = Demo.loaded ∧
      (Unlock Demo.env Demo.loaded [9]).account.unlocked = false :=
  C1_unlock_incorrect_passphrase Demo.env Demo.loaded [9] Demo.crypto Demo.encryptor
    "invalid checksum" rfl rfl rfl rfl rfl

/-- C1 (counterexample to the claim as stated): after a successful `Unlock`
followed by `Lock` the demo account is LOCKED and has its crypto descriptor, the
encryptor fails on passphrase `[9]`, and yet `Unlock([9])` returns no error and
leaves the account UNLOCKED, without calling the encryptor. -/
theorem C1_counterexample :
    Demo.relocked.unlocked = false ∧
      Demo.relocked.crypto = some Demo.crypto ∧
      Demo.relocked.encryptor = some Demo.encryptor ∧
      Demo.encryptor.Decrypt Demo.crypto [9] = .error "invalid checksum" ∧
      (Unlock Demo.env Demo.relocked [9]).completion = .returned none ∧
      (Unlock Demo.env Demo.relocked [9]).account.unlocked = true ∧
      (Unlock Demo.env Demo.relocked [9]).calls.length = 0 :=
  ⟨rfl, rfl, rfl, rfl, rfl, rfl, rfl⟩

/-- C2 (counterexample to the claim as stated): the demo account is newly
loaded; after `Unlock([1])` succeeds and `Lock` returns (with no error) the
account is LOCKED and still holds the secret key `[10, 20]`. -/
theorem C2_counterexample :
    NewlyLoaded Demo.loaded ∧
      (Unlock Demo.env Demo.loaded [1]).completion = .returned none ∧
      (Lock (run Demo.env Demo.loaded [.Unlock [1]])).1 = none ∧
      run Demo.env Demo.loaded [.Unlock [1], .Lock] = Demo.relocked ∧
      Demo.relocked.unlocked = false ∧
      Demo.relocked.secretKey = some [10, 20] :=
  ⟨⟨rfl, rfl, rfl, rfl⟩, rfl, rfl, rfl, rfl, rfl⟩

/-- C2 (as amended): in every state reached by any sequence of `Unlock`, `Lock`
and `Sign` calls, `Lock` returns no error, leaves the account LOCKED and leaves
the `secretKey` field as it was (a held key is kept, not discarded); on a LOCKED
account, and so on the account after `Lock`, `PrivateKey` returns no key and the
error "cannot provide private key when account is locked", and `Sign` returns no
signature and the error "cannot sign when account is locked". -/
theorem C2_lock_keeps_key_unusable (env : Env SK PK Sig W) (a0 : account SK PK W)
    (ops : List Op) :
    (Lock (run env a0 ops)).1 = none ∧
      (Lock (run env a0 ops)).2.unlocked = false ∧
      (Lock (run env a0 ops)).2.secretKey = (run env a0 ops).secretKey ∧
      PrivateKey (Lock (run env a0 ops)).2 =
        (none, some "cannot provide private key when account is locked") ∧
      (∀ m, Sign env (Lock (run env a0 ops)).2 m =
        (none, some "cannot sign when account is locked")) ∧
      ((run env a0 ops).unlocked = false →
        PrivateKey (run env a0 ops) =
            (none, some "cannot provide private key when account is locked") ∧
          ∀ m, Sign env (run env a0 ops) m =
            (none, some "cannot sign when account is locked")) := by
  refine ⟨rfl, rfl, rfl, rfl, fun m => rfl, fun h => ⟨?_, fun m => ?_⟩⟩
  · simp [PrivateKey, h]
  · simp [Sign, IsUnlocked, h]

/-- C3: `PrivateKey` on a locked account returns an error and no key; on an
unlocked account it returns the held secret key and no error. -/
theorem C3_private_key_only_when_unlocked (a : account SK PK W) :
    (a.unlocked = false →
        PrivateKey a = (none, some "cannot provide private key when account is locked")) ∧
      (a.unlocked = true → PrivateKey a = (a.secretKey, none)) := by
  constructor <;> intro h <;> simp [PrivateKey, h]

/-- C4: if `Unlock` on an account with an individual crypto descriptor returns
an error, the error is one of the three of the individual path (decryption
failure, invalid private key bytes, public-key mismatch), and afterwards the
account is LOCKED, holds no secret key, and has the id, name, public key, crypto
and version it had before. -/
theorem C4_failed_unlock_leaves_locked (env : Env SK PK Sig W) (a : account SK PK W)
    (p : Bytes) (crypto : CryptoMap) (e : String)
    (hcrypto : a.crypto = some crypto)
    (herr : (Unlock env a p).completion = .returned (some e)) :
    (e = "incorrect passphrase" ∨ (∃ err, e = "failed to obtain private key: " ++ err) ∨
        e = "private key does not correspond to public key") ∧
      (Unlock env a p).account.unlocked = false ∧
      (Unlock env a p).account.secretKey = none ∧
      (Unlock env a p).account.id = a.id ∧
      (Unlock env a p).account.name = a.name ∧
      (Unlock env a p).account.publicKey = a.publicKey ∧
      (Unlock env a p).account.crypto = a.crypto ∧
      (Unlock env a p).account.version = a.version := by
  rcases a with ⟨id, name, pk, cr, unlocked, sk, ver, w, enc⟩
  simp only at hcrypto
  subst hcrypto
  cases unlocked <;> cases sk <;> cases enc <;> simp [Unlock] at herr ⊢
  rename_i enc
  cases hd : enc.Decrypt crypto p with
  | error err => simp [hd] at herr ⊢; exact Or.inl herr.symm
  | ok bytes =>
    simp only [hd] at herr ⊢
    cases hk : env.keys.BLSPrivateKeyFromBytes bytes with
    | error err => simp [hk] at herr ⊢; exact Or.inr (Or.inl ⟨err, herr.symm⟩)
    | ok key =>
      simp only [hk] at herr ⊢
      cases pk with
      | none => simp [ensureKey] at herr
      | some pk =>
        by_cases hm : env.keys.Marshal (env.keys.PublicKey key) = env.keys.Marshal pk
        · simp [ensureKey, hm] at herr
        · simp [ensureKey, hm] at herr ⊢
          exact Or.inr (Or.inr herr.symm)

/-- Witness for C4: the newly loaded demo account and the passphrase `[9]`, on
which the encryptor fails. -/
theorem C4_failed_unlock_leaves_locked_witness :
    ("incorrect passphrase" = "incorrect passphrase" ∨
        (∃ err, "incorrect passphrase" = "failed to obtain private key: " ++ err) ∨
        "incorrect passphrase" = "private key does not correspond to public key") ∧
      (Unlock Demo.env Demo.loaded [9]).account.unlocked = false ∧
      (Unlock Demo.env Demo.loaded [9]).account.secretKey = none ∧
      (Unlock Demo.env Demo.loaded [9]).account.id = Demo.loaded.id ∧
      (Unlock Demo.env Demo.loaded [9]).account.name = Demo.loaded.name ∧
      (Unlock Demo.env Demo.loaded [9]).account.publicKey = Demo.loaded.publicKey ∧
      (Unlock Demo.env Demo.loaded [9]).account.crypto = Demo.loaded.crypto ∧
      (Unlock Demo.env Demo.loaded [9]).account.version = Demo.loaded.version :=
  C4_failed_unlock_leaves_locked Demo.env Demo.loaded [9] Demo.crypto
    "incorrect passphrase" rfl rfl

/-- C5: on a LOCKED account that holds no secret key and has an individual
crypto descriptor, a passphrase that decrypts the descriptor to a valid private
key whose public key bytes differ from those of the stored public key makes
`Unlock` return the error "private key does not correspond to public key", which
is not "incorrect passphrase"; afterwards the account holds no secret key and is
LOCKED (it is exactly the account it was). -/
theorem C5_key_mismatch_rejected (env : Env SK PK Sig W) (a : account SK PK W)
    (p : Bytes) (crypto : CryptoMap) (enc : Encryptor) (bytes : Bytes) (sk : SK) (pk : PK)
    (hlocked : a.unlocked = false) (hkey : a.secretKey = none)
    (hcrypto : a.crypto = some crypto) (henc : a.encryptor = some enc)
    (hdec : enc.Decrypt crypto p = .ok bytes)
    (hsk : env.keys.BLSPrivateKeyFromBytes bytes = .ok sk)
    (hpk : a.publicKey = some pk)
    (hne : env.keys.Marshal (env.keys.PublicKey sk) ≠ env.keys.Marshal pk) :
    (Unlock env a p).completion =
        .returned (some "private key does not correspond to public key") ∧
      "private key does not correspond to public key" ≠ "incorrect passphrase" ∧
      (Unlock env a p).account.secretKey = none ∧
      (Unlock env a p).account.unlocked = false ∧
      (Unlock env a p).account = a := by
  rcases a with ⟨id, name, pk0, cr, unlocked, sk0, ver, w, enc0⟩
  simp only at hlocked hkey hcrypto henc hpk
  subst hlocked hkey hcrypto henc hpk
  simp [Unlock, ensureKey, hdec, hsk, hne]

/-- Witness for C5: the demo account with the public key of another key, and the
passphrase `[1]`. -/
theorem C5_key_mismatch_rejected_witness :
    (Unlock Demo.env Demo.mismatched [1]).completion =
        .returned (some "private key does not correspond to public key") ∧
      "private key does not correspond to public key" ≠ "incorrect passphrase" ∧
      (Unlock Demo.env Demo.mismatched [1]).account.secretKey = none ∧
      (Unlock Demo.env Demo.mismatched [1]).account.unlocked = false ∧
      (Unlock Demo.env Demo.mismatched [1]).account = Demo.mismatched :=
  C5_key_mismatch_rejected Demo.env Demo.mismatched [1] Demo.crypto Demo.encryptor
    [10, 20] [10, 20] [31, 41] rfl rfl rfl rfl rfl rfl rfl (by decide)

/-! ### The invariant of the locking state machine -/

/-- A successful key check leaves the account unlocked with a matching key. -/
theorem ensureKey_returned_none (env : Env SK PK Sig W) (a : account SK PK W)
    (calls : List Call) (hok : (ensureKey env a calls).completion = .returned none) :
    (ensureKey env a calls).account.unlocked = true ∧
      ∃ sk pk, (ensureKey env a calls).account.secretKey = some sk ∧
        (ensureKey env a calls).account.publicKey = some pk ∧
        env.keys.Marshal (env.keys.PublicKey sk) = env.keys.Marshal pk := by
  rcases a with ⟨id, name, pk, cr, unlocked, sk, ver, w, enc⟩
  cases sk with
  | none => simp [ensureKey] at hok
  | some sk =>
    cases pk with
    | none => simp [ensureKey] at hok
    | some pk =>
      by_cases hm : env.keys.Marshal (env.keys.PublicKey sk) = env.keys.Marshal pk
      · simp [ensureKey, hm]
      · simp [ensureKey, hm] at hok

/-- From a consistent account, a successful `Unlock` ends UNLOCKED with a secret
key that matches the stored public key. -/
theorem Unlock_returned_none (env : Env SK PK Sig W) (a : account SK PK W) (p : Bytes)
    (hc : Consistent env a) (hok : (Unlock env a p).completion = .returned none) :
    (Unlock env a p).account.unlocked = true ∧
      ∃ sk pk, (Unlock env a p).account.secretKey = some sk ∧
        (Unlock env a p).account.publicKey = some pk ∧
        env.keys.Marshal (env.keys.PublicKey sk) = env.keys.Marshal pk := by
  obtain ⟨hu, hm⟩ := hc
  rcases a with ⟨id, name, pk, cr, unlocked, sk, ver, w, enc⟩
  cases unlocked with
  | true =>
    cases sk with
    | none => simp at hu
    | some sk =>
      obtain ⟨pk1, h1, h2⟩ := hm sk rfl
      simp only at h1
      subst h1
      simpa [Unlock] using h2
  | false =>
    cases sk with
    | some sk =>
      obtain ⟨pk1, h1, h2⟩ := hm sk rfl
      simp only at h1
      subst h1
      simpa [Unlock] using h2
    | none =>
      cases cr with
      | none =>
        cases w with
        | none => simp [Unlock] at hok
        | some w =>
          generalize hr : Unlock env _ p = r at hok ⊢
          simp only [Unlock, Bool.false_eq_true, if_false] at hr
          generalize env.batchDecrypt w p _ = b at hr
          rcases b with ⟨c, a1⟩
          cases c with
          | panicked => subst hr; simp at hok
          | returned err =>
            cases err with
            | some err => subst hr; simp at hok
            | none => subst hr; exact ensureKey_returned_none env a1 _ hok
      | some cr =>
        cases enc with
        | none => simp [Unlock] at hok
        | some enc =>
          generalize hr : Unlock env _ p = r at hok ⊢
          simp only [Unlock, Bool.false_eq_true, if_false] at hr
          cases hd : enc.Decrypt cr p with
          | error err => simp only [hd] at hr; subst hr; simp at hok
          | ok bytes =>
            simp only [hd] at hr
            cases hk : env.keys.BLSPrivateKeyFromBytes bytes with
            | error err => simp only [hk] at hr; subst hr; simp at hok
            | ok key =>
              simp only [hk] at hr
              subst hr
              exact ensureKey_returned_none env _ _ hok

/-- `Unlock` keeps the invariant of an individually encrypted account, and does
not touch its public key. -/
theorem Unlock_individualInv (env : Env SK PK Sig W) (a : account SK PK W) (p : Bytes)
    (h : IndividualInv env a) :
    IndividualInv env (Unlock env a p).account ∧
      (Unlock env a p).account.publicKey = a.publicKey := by
  obtain ⟨hcr, hpk, hu, hm⟩ := h
  rcases a with ⟨id, name, pk, cr, unlocked, sk, ver, w, enc⟩
  cases cr with
  | none => simp at hcr
  | some cr =>
    cases pk with
    | none => simp at hpk
    | some pk =>
      cases unlocked with
      | true => exact ⟨⟨rfl, rfl, hu, hm⟩, rfl⟩
      | false =>
        cases sk with
        | some sk =>
          refine ⟨⟨rfl, rfl, fun _ => rfl, ?_⟩, rfl⟩
          intro sk1 h1
          exact hm sk1 h1
        | none =>
          cases enc with
          | none => exact ⟨⟨rfl, rfl, hu, hm⟩, rfl⟩
          | some enc =>
            generalize hr : Unlock env _ p = r
            simp only [Unlock, Bool.false_eq_true, if_false] at hr
            cases hd : enc.Decrypt cr p with
            | error err => simp only [hd] at hr; subst hr; exact ⟨⟨rfl, rfl, hu, hm⟩, rfl⟩
            | ok bytes =>
              simp only [hd] at hr
              cases hk : env.keys.BLSPrivateKeyFromBytes bytes with
              | error err => simp only [hk] at hr; subst hr; exact ⟨⟨rfl, rfl, hu, hm⟩, rfl⟩
              | ok key =>
                simp only [hk] at hr
                subst hr
                by_cases hmm : env.keys.Marshal (env.keys.PublicKey key) = env.keys.Marshal pk
                · simp [ensureKey, hmm, IndividualInv, Consistent, KeyMatches]
                · simp [ensureKey, hmm, IndividualInv, Consistent, KeyMatches]

/-- Every call keeps the invariant of an individually encrypted account and its
public key. -/
theorem step_individualInv (env : Env SK PK Sig W) (a : account SK PK W) (op : Op)
    (h : IndividualInv env a) :
    IndividualInv env (step env a op) ∧ (step env a op).publicKey = a.publicKey := by
  cases op with
  | Unlock p => exact Unlock_individualInv env a p h
  | Lock =>
    obtain ⟨hcr, hpk, _, hm⟩ := h
    exact ⟨⟨hcr, hpk, fun hu => by simp [step, Lock] at hu, hm⟩, rfl⟩
  | Sign m => exact ⟨h, rfl⟩

/-- Every sequence of calls keeps the invariant of an individually encrypted
account and its public key. -/
theorem run_individualInv (env : Env SK PK Sig W) (ops : List Op) :
    ∀ a : account SK PK W, IndividualInv env a →
      IndividualInv env (run env a ops) ∧ (run env a ops).publicKey = a.publicKey := by
  induction ops with
  | nil => intro a h; exact ⟨h, rfl⟩
  | cons op ops ih =>
    intro a h
    obtain ⟨h1, h2⟩ := step_individualInv env a op h
    obtain ⟨h3, h4⟩ := ih (step env a op) h1
    exact ⟨h3, h4.trans h2⟩

/-- A newly loaded account with a crypto descriptor satisfies the invariant. -/
theorem NewlyLoaded.individualInv (env : Env SK PK Sig W) (a : account SK PK W)
    (h : NewlyLoaded a) (hcr : a.crypto.isSome = true) : IndividualInv env a := by
  obtain ⟨hu, hk, hpk, _⟩ := h
  refine ⟨hcr, hpk, fun h1 => ?_, fun sk h1 => ?_⟩
  · rw [hu] at h1; cases h1
  · rw [hk] at h1; cases h1

/-! ### Claims about the state machine -/

/-- C6: in every state reached from a newly loaded account with an individual
crypto descriptor by any sequence of `Unlock`, `Lock` and `Sign` calls, the
stored public key is the one the account was loaded with, a held secret key
derives a public key with the same bytes as the stored one, and a successful
`Unlock` leaves the account UNLOCKED and holding such a key. -/
theorem C6_held_key_matches_public_key (env : Env SK PK Sig W) (a0 : account SK PK W)
    (ops : List Op) (hload : NewlyLoaded a0) (hcrypto : a0.crypto.isSome = true) :
    (run env a0 ops).publicKey = a0.publicKey ∧
      (∀ sk, (run env a0 ops).secretKey = some sk →
        ∃ pk, a0.publicKey = some pk ∧
          env.keys.Marshal (env.keys.PublicKey sk) = env.keys.Marshal pk) ∧
      ∀ p, (Unlock env (run env a0 ops) p).completion = .returned none →
        (Unlock env (run env a0 ops) p).account.unlocked = true ∧
          ∃ sk pk, (Unlock env (run env a0 ops) p).account.secretKey = some sk ∧
            a0.publicKey = some pk ∧
            env.keys.Marshal (env.keys.PublicKey sk) = env.keys.Marshal pk := by
  obtain ⟨hinv, hpk⟩ := run_individualInv env ops a0 (NewlyLoaded.individualInv env a0 hload hcrypto)
  refine ⟨hpk, ?_, ?_⟩
  · intro sk hsk
    obtain ⟨pk, h1, h2⟩ := hinv.2.2.2 sk hsk
    exact ⟨pk, hpk ▸ h1, h2⟩
  · intro p hok
    obtain ⟨hu, sk, pk, h1, h2, h3⟩ := Unlock_returned_none env _ p hinv.2.2 hok
    refine ⟨hu, sk, pk, h1, ?_, h3⟩
    rw [← hpk, ← (Unlock_individualInv env _ p hinv).2]
    exact h2

/-- Witness for C6: the demo account after `Unlock([1])` and `Lock`. -/
theorem C6_held_key_matches_public_key_witness :
    (run Demo.env Demo.loaded [.Unlock [1], .Lock]).publicKey = Demo.loaded.publicKey ∧
      (∀ sk, (run Demo.env Demo.loaded [.Unlock [1], .Lock]).secretKey = some sk →
        ∃ pk, Demo.loaded.publicKey = some pk ∧
          Demo.env.keys.Marshal (Demo.env.keys.PublicKey sk) = Demo.env.keys.Marshal pk) ∧
      ∀ p, (Unlock Demo.env (run Demo.env Demo.loaded [.Unlock [1], .Lock]) p).completion =
          .returned none →
        (Unlock Demo.env (run Demo.env Demo.loaded [.Unlock [1], .Lock]) p).account.unlocked
            = true ∧
          ∃ sk pk,
            (Unlock Demo.env (run Demo.env Demo.loaded [.Unlock [1], .Lock]) p).account.secretKey
                = some sk ∧
              Demo.loaded.publicKey = some pk ∧
              Demo.env.keys.Marshal (Demo.env.keys.PublicKey sk) = Demo.env.keys.Marshal pk :=
  C6_held_key_matches_public_key Demo.env Demo.loaded [.Unlock [1], .Lock]
    ⟨rfl, rfl, rfl, rfl⟩ rfl

/-- C7: `Sign` returns no error exactly when the account is UNLOCKED and holds a
secret key, and then returns the key's signature of the message; on a LOCKED
account it fails with "cannot sign when account is locked"; on an UNLOCKED
account without a secret key it fails with "missing private key for unlocked
account", a different error. -/
theorem C7_sign_succeeds_iff_unlocked_with_key (env : Env SK PK Sig W)
    (a : account SK PK W) (m : Bytes) :
    ((Sign env a m).2 = none ↔ (a.unlocked = true ∧ a.secretKey.isSome = true)) ∧
      (∀ sk, a.unlocked = true → a.secretKey = some sk →
        Sign env a m = (some (env.keys.Sign sk m), none)) ∧
      (a.unlocked = false → Sign env a m = (none, some "cannot sign when account is locked")) ∧
      (a.unlocked = true → a.secretKey = none →
        Sign env a m = (none, some "missing private key for unlocked account")) ∧
      "missing private key for unlocked account" ≠ "cannot sign when account is locked" := by
  rcases a with ⟨id, name, pk, cr, unlocked, sk, ver, w, enc⟩
  cases unlocked <;> cases sk <;> simp [Sign, IsUnlocked]

/-- C8: assume the key algorithm's signatures verify against the public key
derived from the signing key, and a public key is determined by its bytes.  For
every consistent account (an unlocked account holds a key; a held key matches
the stored public key) and every message: if `Unlock` succeeds, `Sign` called
next returns a signature and no error, the signature verifies for the message
against the stored public key, and after a following `Lock` `Sign` fails with
"cannot sign when account is locked". -/
theorem C8_sign_after_unlock_verifies (env : Env SK PK Sig W) (a : account SK PK W)
    (p m : Bytes)
    (hverify : ∀ sk data, env.keys.Verify (env.keys.Sign sk data) data (env.keys.PublicKey sk)
      = true)
    (hbytes : Function.Injective env.keys.Marshal)
    (hc : Consistent env a)
    (hok : (Unlock env a p).completion = .returned none) :
    ∃ sig pk, Sign env (Unlock env a p).account m = (some sig, none) ∧
      (Unlock env a p).account.publicKey = some pk ∧
      env.keys.Verify sig m pk = true ∧
      Sign env (Lock (Unlock env a p).account).2 m =
        (none, some "cannot sign when account is locked") := by
  obtain ⟨hu, sk, pk, h1, h2, h3⟩ := Unlock_returned_none env a p hc hok
  refine ⟨env.keys.Sign sk m, pk, ?_, h2, ?_, ?_⟩
  · simp [Sign, IsUnlocked, hu, h1]
  · rw [← hbytes h3]
    exact hverify sk m
  · simp [Sign, IsUnlocked, Lock]

/-- Witness for C8: the newly loaded demo account, the passphrase `[1]` and the
message `[7]`. -/
theorem C8_sign_after_unlock_verifies_witness :
    ∃ sig pk, Sign Demo.env (Unlock Demo.env Demo.loaded [1]).account [7] = (some sig, none) ∧
      (Unlock Demo.env Demo.loaded [1]).account.publicKey = some pk ∧
      Demo.env.keys.Verify sig [7] pk = true ∧
      Sign Demo.env (Lock (Unlock Demo.env Demo.loaded [1]).account).2 [7] =
        (none, some "cannot sign when account is locked") :=
  C8_sign_after_unlock_verifies Demo.env Demo.loaded [1] [7]
    (fun sk data => by simp [Demo.env, Demo.keys, Function.comp_def])
    (fun _ _ h => h)
    ⟨fun h => (by cases h), fun sk h => (by cases h)⟩
    rfl

/-- C9: on an UNLOCKED account `Unlock` returns no error for every passphrase,
makes no call to the encryptor (nor to the wallet's batch decryption), and
leaves the account, every field of it, as it was. -/
theorem C9_unlock_when_unlocked_is_noop (env : Env SK PK Sig W) (a : account SK PK W)
    (p : Bytes) (hu : a.unlocked = true) :
    (Unlock env a p).completion = .returned none ∧
      (Unlock env a p).calls = [] ∧
      (Unlock env a p).account = a := by
  simp [Unlock, hu]

/-- Witness for C9: the unlocked demo account and the passphrase `[9]`, on which
the encryptor fails. -/
theorem C9_unlock_when_unlocked_is_noop_witness :
    (Unlock Demo.env Demo.opened [9]).completion = .returned none ∧
      (Unlock Demo.env Demo.opened [9]).calls = [] ∧
      (Unlock Demo.env Demo.opened [9]).account = Demo.opened :=
  C9_unlock_when_unlocked_is_noop Demo.env Demo.opened [9] rfl

/-- C10: in either lock state `Lock` returns no error and `IsUnlocked` then
reports false with no error; `Lock` after `Lock` returns the same and leaves the
same account as a single `Lock`. -/
theorem C10_lock_idempotent (a : account SK PK W) :
    (Lock a).1 = none ∧
      IsUnlocked (Lock a).2 = (false, none) ∧
      Lock (Lock a).2 = Lock a :=
  ⟨rfl, rfl, rfl⟩

/-! ### The decoders step by step -/

/-- The identifier step of the account decoder returns the identifier fault of
the specification, leaving the receiver as it was, or else sets the id. -/
theorem account.unmarshalID_spec (codec : Codec) (a : account SK PK W) (v : Document) :
    (∀ e, Spec.identifierFault codec "account" v = some e →
        account.unmarshalID codec a v = .error (e, a)) ∧
      (Spec.identifierFault codec "account" v = none →
        ∃ idStr id, Spec.identifierField v = some (.string idStr) ∧
          codec.uuidParse idStr = .ok id ∧
          account.unmarshalID codec a v = .ok { a with id := id }) := by
  unfold Spec.identifierFault Spec.identifierField account.unmarshalID
  cases h1 : lookup v "uuid" with
  | some val =>
    cases val with
    | string idStr => cases h : codec.uuidParse idStr <;> simp [h]
    | _ => simp
  | none =>
    cases h2 : lookup v "id" with
    | some val =>
      cases val with
      | string idStr => cases h : codec.uuidParse idStr <;> simp [h]
      | _ => simp
    | none => simp

/-- The name step of the account decoder against the specification. -/
theorem account.unmarshalName_spec (a : account SK PK W) (v : Document) :
    (∀ e, Spec.nameFault "account" v = some e →
        account.unmarshalName a v = .error (e, a)) ∧
      (Spec.nameFault "account" v = none →
        ∃ name, lookup v "name" = some (.string name) ∧
          account.unmarshalName a v = .ok { a with name := name }) := by
  unfold Spec.nameFault account.unmarshalName
  cases h1 : lookup v "name" with
  | some val => cases val <;> simp
  | none => simp

/-- The public key step of the account decoder against the specification. -/
theorem account.unmarshalPubkey_spec (codec : Codec) (keys : KeyAlgorithm SK PK Sig)
    (a : account SK PK W) (v : Document) :
    (∀ e, Spec.pubkeyFault codec keys v = some e →
        ∃ a1, account.unmarshalPubkey codec keys a v = .error (e, a1)) ∧
      (Spec.pubkeyFault codec keys v = none →
        ∃ s bytes pk, lookup v "pubkey" = some (.string s) ∧
          codec.hexDecodeString s = .ok bytes ∧
          keys.BLSPublicKeyFromBytes bytes = .ok pk ∧
          account.unmarshalPubkey codec keys a v = .ok { a with publicKey := some pk }) := by
  unfold Spec.pubkeyFault account.unmarshalPubkey
  cases h1 : lookup v "pubkey" with
  | some val =>
    cases val with
    | string s =>
      cases h2 : codec.hexDecodeString s with
      | error err => simp [h2]
      | ok bytes => cases h3 : keys.BLSPublicKeyFromBytes bytes <;> simp [h2, h3]
    | _ => simp
  | none => simp

/-- The crypto step of the account decoder against the specification. -/
theorem account.unmarshalCrypto_spec (a : account SK PK W) (v : Document) :
    (∀ e, Spec.cryptoFault v = some e → account.unmarshalCrypto a v = .error (e, a)) ∧
      (Spec.cryptoFault v = none →
        ∃ crypto, lookup v "crypto" = some (.map crypto) ∧
          account.unmarshalCrypto a v = .ok { a with crypto := some crypto }) := by
  unfold Spec.cryptoFault account.unmarshalCrypto
  cases h1 : lookup v "crypto" with
  | some val => cases val <;> simp
  | none => simp

/-- The version step of the account decoder against the specification. -/
theorem account.unmarshalVersion_spec (codec : Codec) (a : account SK PK W) (v : Document) :
    (∀ e, Spec.accountVersionFault codec v = some e →
        ∃ a1, account.unmarshalVersion codec a v = .error (e, a1)) ∧
      (Spec.accountVersionFault codec v = none →
        ∃ x, lookup v "version" = some (.float64 x) ∧ uint codec x = 4 ∧
          account.unmarshalVersion codec a v = .ok { a with version := 4 }) := by
  unfold Spec.accountVersionFault account.unmarshalVersion
  cases h1 : lookup v "version" with
  | some val =>
    cases val with
    | float64 x => by_cases h2 : uint codec x = 4 <;> simp [h2]
    | _ => simp
  | none => simp

/-- The encryptor step of the account decoder against the specification. -/
theorem account.unmarshalEncryptor_spec (codec : Codec) (a : account SK PK W) (v : Document) :
    (∀ e, Spec.encryptorFault codec v = some e →
        account.unmarshalEncryptor codec a v = .error (e, a)) ∧
      (Spec.encryptorFault codec v = none →
        account.unmarshalEncryptor codec a v =
          .ok { a with encryptor := some codec.keystorev4New }) := by
  unfold Spec.encryptorFault account.unmarshalEncryptor
  cases h1 : lookup v "encryptor" with
  | some val =>
    cases val with
    | string s => by_cases h2 : s = "keystore" ∨ s = "keystorev4" <;> simp [h2]
    | _ => simp
  | none => simp

/-- The account decoder returns the error of the specification: the fault of the
earliest faulty field. -/
theorem account.UnmarshalJSON_error (codec : Codec) (keys : KeyAlgorithm SK PK Sig)
    (a : account SK PK W) (v : Document) :
    (account.UnmarshalJSON codec keys a (.ok v)).1 = Spec.accountError codec keys v := by
  simp only [account.UnmarshalJSON, account.unmarshalFields, Spec.accountError, bind,
    Except.bind]
  cases h1 : Spec.identifierFault codec "account" v with
  | some e => simp [(account.unmarshalID_spec codec a v).1 e h1, Spec.firstFault]
  | none =>
    obtain ⟨idStr, id, -, -, e1⟩ := (account.unmarshalID_spec codec a v).2 h1
    simp only [e1, Spec.firstFault]
    cases h2 : Spec.nameFault "account" v with
    | some e => simp [(account.unmarshalName_spec _ v).1 e h2, Spec.firstFault]
    | none =>
      obtain ⟨name, -, e2⟩ := (account.unmarshalName_spec { a with id := id } v).2 h2
      simp only [e2]
      cases h3 : Spec.pubkeyFault codec keys v with
      | some e =>
        obtain ⟨a1, e3⟩ := (account.unmarshalPubkey_spec codec keys
          { a with id := id, name := name } v).1 e h3
        simp [e3, Spec.firstFault]
      | none =>
        obtain ⟨s, bytes, pk, -, -, -, e3⟩ := (account.unmarshalPubkey_spec codec keys
          { a with id := id, name := name } v).2 h3
        simp only [e3]
        cases h4 : Spec.cryptoFault v with
        | some e => simp [(account.unmarshalCrypto_spec _ v).1 e h4, Spec.firstFault]
        | none =>
          obtain ⟨crypto, -, e4⟩ := (account.unmarshalCrypto_spec
            { a with id := id, name := name, publicKey := some pk } v).2 h4
          simp only [e4]
          cases h5 : Spec.accountVersionFault codec v with
          | some e =>
            obtain ⟨a1, e5⟩ := (account.unmarshalVersion_spec codec
              { a with id := id, name := name, publicKey := some pk, crypto := some crypto }
              v).1 e h5
            simp [e5, Spec.firstFault]
          | none =>
            obtain ⟨x, -, -, e5⟩ := (account.unmarshalVersion_spec codec
              { a with id := id, name := name, publicKey := some pk, crypto := some crypto }
              v).2 h5
            simp only [e5]
            cases h6 : Spec.encryptorFault codec v with
            | some e => simp [(account.unmarshalEncryptor_spec codec _ v).1 e h6, Spec.firstFault]
            | none => simp [(account.unmarshalEncryptor_spec codec _ v).2 h6, Spec.firstFault]

/-- What the account decoder leaves in the receiver when it returns no error:
the entries of the document, decoded, and the keystore-v4 encryptor. -/
theorem account.UnmarshalJSON_ok (codec : Codec) (keys : KeyAlgorithm SK PK Sig)
    (a : account SK PK W) (v : Document)
    (hok : (account.UnmarshalJSON codec keys a (.ok v)).1 = none) :
    ∃ idStr id name s bytes pk crypto x,
      Spec.identifierField v = some (.string idStr) ∧ codec.uuidParse idStr = .ok id ∧
      lookup v "name" = some (.string name) ∧
      lookup v "pubkey" = some (.string s) ∧ codec.hexDecodeString s = .ok bytes ∧
      keys.BLSPublicKeyFromBytes bytes = .ok pk ∧
      lookup v "crypto" = some (.map crypto) ∧
      lookup v "version" = some (.float64 x) ∧ uint codec x = 4 ∧
      Spec.encryptorFault codec v = none ∧
      (account.UnmarshalJSON codec keys a (.ok v)).2 =
        { a with id := id, name := name, publicKey := some pk, crypto := some crypto,
                 version := 4, encryptor := some codec.keystorev4New } := by
  rw [account.UnmarshalJSON_error] at hok
  simp only [Spec.accountError] at hok
  cases h1 : Spec.identifierFault codec "account" v with
  | some e => simp [h1, Spec.firstFault] at hok
  | none =>
    cases h2 : Spec.nameFault "account" v with
    | some e => simp [h1, h2, Spec.firstFault] at hok
    | none =>
      cases h3 : Spec.pubkeyFault codec keys v with
      | some e => simp [h1, h2, h3, Spec.firstFault] at hok
      | none =>
        cases h4 : Spec.cryptoFault v with
        | some e => simp [h1, h2, h3, h4, Spec.firstFault] at hok
        | none =>
          cases h5 : Spec.accountVersionFault codec v with
          | some e => simp [h1, h2, h3, h4, h5, Spec.firstFault] at hok
          | none =>
            cases h6 : Spec.encryptorFault codec v with
            | some e => simp [h1, h2, h3, h4, h5, h6, Spec.firstFault] at hok
            | none =>
              obtain ⟨idStr, id, f1, f2, e1⟩ := (account.unmarshalID_spec codec a v).2 h1
              obtain ⟨name, g1, e2⟩ := (account.unmarshalName_spec { a with id := id } v).2 h2
              obtain ⟨s, bytes, pk, k1, k2, k3, e3⟩ := (account.unmarshalPubkey_spec codec keys
                { a with id := id, name := name } v).2 h3
              obtain ⟨crypto, c1, e4⟩ := (account.unmarshalCrypto_spec
                { a with id := id, name := name, publicKey := some pk } v).2 h4
              obtain ⟨x, v1, v2, e5⟩ := (account.unmarshalVersion_spec codec
                { a with id := id, name := name, publicKey := some pk, crypto := some crypto }
                v).2 h5
              have e6 := (account.unmarshalEncryptor_spec codec
                { a with id := id, name := name, publicKey := some pk, crypto := some crypto,
                         version := 4 } v).2 h6
              refine ⟨idStr, id, name, s, bytes, pk, crypto, x, f1, f2, g1, k1, k2, k3, c1, v1,
                v2, rfl, ?_⟩
              simp [account.UnmarshalJSON, account.unmarshalFields, bind, Except.bind, e1, e2,
                e3, e4, e5, e6]

/-- The type step of the wallet decoder against the specification. -/
theorem wallet.unmarshalType_spec (codec : Codec) (w : wallet) (v : Document) :
    (∀ e, Spec.typeFault codec v = some e → wallet.unmarshalType codec w v = .error (e, w)) ∧
      (Spec.typeFault codec v = none →
        lookup v "type" = some (.string walletType) ∧
          wallet.unmarshalType codec w v = .ok w) := by
  unfold Spec.typeFault wallet.unmarshalType
  cases h1 : lookup v "type" with
  | some val =>
    cases val with
    | string s => by_cases h2 : s = walletType <;> simp [h2]
    | _ => simp
  | none => simp

/-- The identifier step of the wallet decoder against the specification. -/
theorem wallet.unmarshalID_identifierFault (codec : Codec) (w : wallet) (v : Document) :
    (∀ e, Spec.identifierFault codec "wallet" v = some e →
        wallet.unmarshalID codec w v = .error (e, w)) ∧
      (Spec.identifierFault codec "wallet" v = none →
        ∃ idStr id, Spec.identifierField v = some (.string idStr) ∧
          codec.uuidParse idStr = .ok id ∧
          wallet.unmarshalID codec w v = .ok { w with id := id }) := by
  unfold Spec.identifierFault Spec.identifierField wallet.unmarshalID
  cases h1 : lookup v "uuid" with
  | some val =>
    cases val with
    | string idStr => cases h : codec.uuidParse idStr <;> simp [h]
    | _ => simp
  | none =>
    cases h2 : lookup v "id" with
    | some val =>
      cases val with
      | string idStr => cases h : codec.uuidParse idStr <;> simp [h]
      | _ => simp
    | none => simp

/-- The name step of the wallet decoder against the specification. -/
theorem wallet.unmarshalName_nameFault (w : wallet) (v : Document) :
    (∀ e, Spec.nameFault "wallet" v = some e → wallet.unmarshalName w v = .error (e, w)) ∧
      (Spec.nameFault "wallet" v = none →
        ∃ name, lookup v "name" = some (.string name) ∧
          wallet.unmarshalName w v = .ok { w with name := name }) := by
  unfold Spec.nameFault wallet.unmarshalName
  cases h1 : lookup v "name" with
  | some val => cases val <;> simp
  | none => simp

/-- The version step of the wallet decoder against the specification. -/
theorem wallet.unmarshalVersion_versionFault (codec : Codec) (w : wallet) (v : Document) :
    (∀ e, Spec.walletVersionFault v = some e →
        wallet.unmarshalVersion codec w v = .error (e, w)) ∧
      (Spec.walletVersionFault v = none →
        ∃ x, lookup v "version" = some (.float64 x) ∧
          wallet.unmarshalVersion codec w v = .ok { w with version := uint codec x }) := by
  unfold Spec.walletVersionFault wallet.unmarshalVersion
  cases h1 : lookup v "version" with
  | some val => cases val <;> simp
  | none => simp

/-- The wallet decoder returns the error of the specification: the fault of the
earliest faulty field. -/
theorem wallet.UnmarshalJSON_walletError (codec : Codec) (w : wallet) (v : Document) :
    (wallet.UnmarshalJSON codec w (.ok v)).1 = Spec.walletError codec v := by
  simp only [wallet.UnmarshalJSON, wallet.unmarshalFields, Spec.walletError, bind,
    Except.bind]
  cases h1 : Spec.typeFault codec v with
  | some e => simp [(wallet.unmarshalType_spec codec w v).1 e h1, Spec.firstFault]
  | none =>
    simp only [((wallet.unmarshalType_spec codec w v).2 h1).2, Spec.firstFault]
    cases h2 : Spec.identifierFault codec "wallet" v with
    | some e => simp [(wallet.unmarshalID_identifierFault codec w v).1 e h2, Spec.firstFault]
    | none =>
      obtain ⟨idStr, id, -, -, e2⟩ := (wallet.unmarshalID_identifierFault codec w v).2 h2
      simp only [e2]
      cases h3 : Spec.nameFault "wallet" v with
      | some e => simp [(wallet.unmarshalName_nameFault _ v).1 e h3, Spec.firstFault]
      | none =>
        obtain ⟨name, -, e3⟩ := (wallet.unmarshalName_nameFault { w with id := id } v).2 h3
        simp only [e3]
        cases h4 : Spec.walletVersionFault v with
        | some e => simp [(wallet.unmarshalVersion_versionFault codec _ v).1 e h4, Spec.firstFault]
        | none =>
          obtain ⟨x, -, e4⟩ := (wallet.unmarshalVersion_versionFault codec
            { w with id := id, name := name } v).2 h4
          simp [e4, Spec.firstFault]

/-- After the renaming, `uuid` holds what `id` held, in a document without `uuid`. -/
theorem lookup_renameIDToUUID_uuid (v : Document) (h : lookup v "uuid" = none) :
    lookup (renameIDToUUID v) "uuid" = lookup v "id" := by
  induction v with
  | nil => rfl
  | cons kv rest ih =>
    obtain ⟨k, val⟩ := kv
    by_cases hk : k = "uuid"
    · simp [lookup, hk] at h
    · have hr : lookup rest "uuid" = none := by simpa [lookup, hk] using h
      by_cases hid : k = "id"
      · simp [renameIDToUUID, lookup, hid]
      · have := ih hr
        simp only [renameIDToUUID] at this
        simp [renameIDToUUID, lookup, hid, hk, this]

/-- After the renaming no entry has the key `id`. -/
theorem lookup_renameIDToUUID_id (v : Document) : lookup (renameIDToUUID v) "id" = none := by
  induction v with
  | nil => rfl
  | cons kv rest ih =>
    obtain ⟨k, val⟩ := kv
    simp only [renameIDToUUID] at ih
    by_cases hid : k = "id"
    · simp [renameIDToUUID, lookup, hid, ih]
    · simp [renameIDToUUID, lookup, hid, ih]

/-- The renaming does not change the entries of the other keys. -/
theorem lookup_renameIDToUUID_other (v : Document) (key : String) (h1 : key ≠ "id")
    (h2 : key ≠ "uuid") : lookup (renameIDToUUID v) key = lookup v key := by
  induction v with
  | nil => rfl
  | cons kv rest ih =>
    obtain ⟨k, val⟩ := kv
    simp only [renameIDToUUID] at ih
    by_cases hid : k = "id"
    · have : ¬ ("id" = key) := fun h => h1 h.symm
      have h3 : ¬ ("uuid" = key) := fun h => h2 h.symm
      simp [renameIDToUUID, lookup, hid, ih, this, h3]
    · simp [renameIDToUUID, lookup, hid, ih]

/-- In its range the conversion `uint` gives back a natural number. -/
theorem uint_natCast (codec : Codec) (n : Nat) (h : n < 2 ^ 64) : uint codec (n : Rat) = n := by
  have h1 : (-1 : Rat) < (n : Rat) := by
    have : (0 : Rat) ≤ (n : Rat) := Nat.cast_nonneg n
    linarith
  have h2 : (n : Rat) < 2 ^ 64 := by exact_mod_cast h
  simp [uint, h1, h2, Rat.floor_def']

/-! ### Claims about the JSON codecs -/

/-- C11 (counterexample to the claim as stated): three accounts with a public
key and an encryptor set whose marshalled record is rejected when it is
unmarshalled into a fresh account: one with an encryptor of another scheme, one
with version 3, one without a crypto descriptor. -/
theorem C11_counterexample :
    Demo.foreign.publicKey.isSome = true ∧ Demo.foreign.encryptor.isSome = true ∧
      (account.reloaded Demo.codec Demo.keys Demo.foreign).map (·.1) =
        some (some ("unsupported encryptor " ++ Demo.codec.quote "unencryptedv1")) ∧
      Demo.version3.publicKey.isSome = true ∧ Demo.version3.encryptor.isSome = true ∧
      (account.reloaded Demo.codec Demo.keys Demo.version3).map (·.1) =
        some (some "unsupported keystore version") ∧
      Demo.batched.publicKey.isSome = true ∧ Demo.batched.encryptor.isSome = true ∧
      (account.reloaded Demo.codec Demo.keys Demo.batched).map (·.1) =
        some (some "account crypto invalid") :=
  ⟨rfl, rfl, rfl, rfl, rfl, rfl, rfl, rfl, rfl⟩

/-- C11 (as amended): for every account with a public key, an individual crypto
descriptor, version 4 and the keystore-v4 encryptor, unmarshalling the output of
`MarshalJSON` into a fresh account succeeds and gives an account with the same
id, name, publicKey, crypto, version and encryptor.  The hypotheses on the
libraries: the identifier, the public key bytes and the public key are read back
from what was written, the number 4 is read back as 4, and the keystore-v4
encryptor calls itself "keystorev4". -/
theorem C11_account_round_trip (codec : Codec) (keys : KeyAlgorithm SK PK Sig)
    (a : account SK PK W) (pk : PK) (crypto : CryptoMap)
    (hpk : a.publicKey = some pk) (hcrypto : a.crypto = some crypto)
    (hversion : a.version = 4) (henc : a.encryptor = some codec.keystorev4New)
    (huuid : codec.uuidParse (codec.uuidString a.id) = .ok a.id)
    (hhex : codec.hexDecodeString (codec.hexEncode (keys.Marshal pk)) = .ok (keys.Marshal pk))
    (hkey : keys.BLSPublicKeyFromBytes (keys.Marshal pk) = .ok pk)
    (hfour : uint codec (codec.float64OfUint 4) = 4)
    (hname : codec.keystorev4New.toString = "keystorev4") :
    ∃ b, account.reloaded codec keys a = some (none, b) ∧
      b.id = a.id ∧ b.name = a.name ∧ b.publicKey = a.publicKey ∧ b.crypto = a.crypto ∧
      b.version = a.version ∧ b.encryptor = a.encryptor := by
  rcases a with ⟨id, name, pk0, cr, unlocked, sk, ver, w, enc⟩
  simp only at hpk hcrypto hversion henc huuid
  subst hpk hcrypto hversion henc
  simp [account.reloaded, account.MarshalJSON, reload, jsonRoundTrip, account.UnmarshalJSON,
    account.unmarshalFields, account.unmarshalID, account.unmarshalName,
    account.unmarshalPubkey, account.unmarshalCrypto, account.unmarshalVersion,
    account.unmarshalEncryptor, lookup, bind, Except.bind, huuid, hhex, hkey, hfour, hname,
    newAccount]

/-- Witness for C11: the newly loaded demo account. -/
theorem C11_account_round_trip_witness :
    ∃ b, account.reloaded Demo.codec Demo.keys Demo.loaded = some (none, b) ∧
      b.id = Demo.loaded.id ∧ b.name = Demo.loaded.name ∧
      b.publicKey = Demo.loaded.publicKey ∧ b.crypto = Demo.loaded.crypto ∧
      b.version = Demo.loaded.version ∧ b.encryptor = Demo.loaded.encryptor :=
  C11_account_round_trip Demo.codec Demo.keys Demo.loaded [11, 21] Demo.crypto
    rfl rfl rfl rfl rfl rfl rfl rfl rfl

/-- C12 (counterexample to the claim as stated): the demo account with its
crypto descriptor cleared is marshalled (the `crypto` entry of the record reads
back as JSON null), and unmarshalling the record into a fresh account fails with
"account crypto invalid". -/
theorem C12_counterexample :
    Demo.batched.crypto = none ∧
      (account.MarshalJSON Demo.codec Demo.keys Demo.batched).map
          (fun data => lookup (reload Demo.codec data) "crypto") = some (some .null) ∧
      (account.reloaded Demo.codec Demo.keys Demo.batched).map (·.1) =
        some (some "account crypto invalid") :=
  ⟨rfl, rfl, rfl⟩

/-- C12 (as amended): for every account whose crypto descriptor is absent (and
whose public key and encryptor are set), `MarshalJSON` writes a record whose
`crypto` entry reads back as JSON null, and `UnmarshalJSON` on that record
returns an error, whatever the receiver: "account crypto invalid" when the
identifier and the public key of the record are read back.  Whenever
`UnmarshalJSON` returns no error the account it leaves has a crypto
descriptor. -/
theorem C12_cleared_crypto_record_rejected (codec : Codec) (keys : KeyAlgorithm SK PK Sig)
    (a : account SK PK W) (pk : PK) (enc : Encryptor)
    (hcrypto : a.crypto = none) (hpk : a.publicKey = some pk)
    (henc : a.encryptor = some enc) :
    ∃ data, account.MarshalJSON codec keys a = some data ∧
      lookup (reload codec data) "crypto" = some .null ∧
      (∀ b : account SK PK W,
        (account.UnmarshalJSON codec keys b (.ok (reload codec data))).1 ≠ none) ∧
      (∀ b : account SK PK W, codec.uuidParse (codec.uuidString a.id) = .ok a.id →
        codec.hexDecodeString (codec.hexEncode (keys.Marshal pk)) = .ok (keys.Marshal pk) →
        keys.BLSPublicKeyFromBytes (keys.Marshal pk) = .ok pk →
        (account.UnmarshalJSON codec keys b (.ok (reload codec data))).1 =
          some "account crypto invalid") ∧
      (∀ (b : account SK PK W) (v : Document),
        (account.UnmarshalJSON codec keys b (.ok v)).1 = none →
        (account.UnmarshalJSON codec keys b (.ok v)).2.crypto.isSome = true) := by
  rcases a with ⟨id, name, pk0, cr, unlocked, sk, ver, w, enc0⟩
  simp only at hpk hcrypto henc
  subst hpk hcrypto henc
  refine ⟨_, rfl, ?_, ?_, ?_, ?_⟩
  · simp [reload, jsonRoundTrip, lookup]
  · intro b hnone
    obtain ⟨_, _, _, _, _, _, crypto, _, _, _, _, _, _, _, hc, _⟩ :=
      account.UnmarshalJSON_ok codec keys b _ hnone
    simp [reload, jsonRoundTrip, lookup] at hc
  · intro b huuid hhex hkey
    simp only at huuid
    simp [reload, jsonRoundTrip, account.UnmarshalJSON,
      account.unmarshalFields, account.unmarshalID, account.unmarshalName,
      account.unmarshalPubkey, account.unmarshalCrypto, lookup, bind, Except.bind,
      huuid, hhex, hkey]
  · intro b v hnone
    obtain ⟨_, _, _, _, _, _, crypto, _, _, _, _, _, _, _, _, _, _, _, hb⟩ :=
      account.UnmarshalJSON_ok codec keys b v hnone
    rw [hb]
    rfl

/-- Witness for C12: the demo account with its crypto descriptor cleared. -/
theorem C12_cleared_crypto_record_rejected_witness :
    ∃ data, account.MarshalJSON Demo.codec Demo.keys Demo.batched = some data ∧
      lookup (reload Demo.codec data) "crypto" = some .null ∧
      (∀ b : account Bytes Bytes Unit,
        (account.UnmarshalJSON Demo.codec Demo.keys b (.ok (reload Demo.codec data))).1
          ≠ none) ∧
      (∀ b : account Bytes Bytes Unit,
        Demo.codec.uuidParse (Demo.codec.uuidString Demo.batched.id) = .ok Demo.batched.id →
        Demo.codec.hexDecodeString (Demo.codec.hexEncode (Demo.keys.Marshal [11, 21])) =
          .ok (Demo.keys.Marshal [11, 21]) →
        Demo.keys.BLSPublicKeyFromBytes (Demo.keys.Marshal [11, 21]) = .ok [11, 21] →
        (account.UnmarshalJSON Demo.codec Demo.keys b (.ok (reload Demo.codec data))).1 =
          some "account crypto invalid") ∧
      (∀ (b : account Bytes Bytes Unit) (v : Document),
        (account.UnmarshalJSON Demo.codec Demo.keys b (.ok v)).1 = none →
        (account.UnmarshalJSON Demo.codec Demo.keys b (.ok v)).2.crypto.isSome = true) :=
  C12_cleared_crypto_record_rejected Demo.codec Demo.keys Demo.batched [11, 21]
    Demo.encryptor rfl rfl rfl

/-- C13: on a document with neither a `uuid` entry nor an `id` entry
`UnmarshalJSON` returns "account ID missing", whatever the other entries, and
leaves the receiver as it was. -/
theorem C13_account_id_missing (codec : Codec) (keys : KeyAlgorithm SK PK Sig)
    (a : account SK PK W) (v : Document)
    (huuid : lookup v "uuid" = none) (hid : lookup v "id" = none) :
    account.UnmarshalJSON codec keys a (.ok v) = (some "account ID missing", a) := by
  simp [account.UnmarshalJSON, account.unmarshalFields, account.unmarshalID, huuid, hid,
    bind, Except.bind]

/-- Witness for C13: the record of the demo account without its identifier. -/
theorem C13_account_id_missing_witness :
    account.UnmarshalJSON Demo.codec Demo.keys (newAccount : account Bytes Bytes Unit)
        (.ok Demo.anonymousDocument) = (some "account ID missing", newAccount) :=
  C13_account_id_missing Demo.codec Demo.keys newAccount Demo.anonymousDocument rfl rfl

/-- C14 (counterexample to the claim as stated): the record of the demo account
with the version `4.5`, a number other than 4, has valid identifier, name,
pubkey and crypto entries and is accepted; the account gets version 4. -/
theorem C14_counterexample :
    lookup Demo.fractionalDocument "version" = some (.float64 (9 / 2)) ∧
      (9 / 2 : Rat) ≠ 4 ∧
      (account.UnmarshalJSON Demo.codec Demo.keys (newAccount : account Bytes Bytes Unit)
        (.ok Demo.fractionalDocument)).1 = none ∧
      (account.UnmarshalJSON Demo.codec Demo.keys (newAccount : account Bytes Bytes Unit)
        (.ok Demo.fractionalDocument)).2.version = 4 := by
  have hu : uint Demo.codec (9 / 2) = 4 := by
    have h : (9 / 2 : Rat).floor = 4 := by
      show ⌊(9 / 2 : Rat)⌋ = 4
      rw [Int.floor_eq_iff]
      norm_num
    have hr : (-1 : Rat) < 9 / 2 ∧ (9 / 2 : Rat) < 2 ^ 64 := by norm_num
    rw [uint, if_pos hr, h]
    rfl
  have hversion : Spec.accountVersionFault Demo.codec Demo.fractionalDocument = none := by
    have hl : lookup Demo.fractionalDocument "version" = some (.float64 (9 / 2)) := rfl
    simp [Spec.accountVersionFault, hl, hu]
  have h1 : Spec.identifierFault Demo.codec "account" Demo.fractionalDocument = none := rfl
  have h2 : Spec.nameFault "account" Demo.fractionalDocument = none := rfl
  have h3 : Spec.pubkeyFault Demo.codec Demo.keys Demo.fractionalDocument = none := rfl
  have h4 : Spec.cryptoFault Demo.fractionalDocument = none := rfl
  have h6 : Spec.encryptorFault Demo.codec Demo.fractionalDocument = none := rfl
  have hok : (account.UnmarshalJSON Demo.codec Demo.keys (newAccount : account Bytes Bytes Unit)
      (.ok Demo.fractionalDocument)).1 = none := by
    rw [account.UnmarshalJSON_error]
    simp [Spec.accountError, Spec.firstFault, h1, h2, h3, h4, hversion, h6]
  refine ⟨rfl, by norm_num, hok, ?_⟩
  obtain ⟨_, _, _, _, _, _, _, _, _, _, _, _, _, _, _, _, _, _, hb⟩ :=
    account.UnmarshalJSON_ok Demo.codec Demo.keys _ _ hok
  rw [hb]

/-- C14 (as amended): on a document whose identifier, name, pubkey and crypto
entries are valid and whose `version` entry is a number, let `x` be the `float64`
value that `json.Unmarshal` decoded it to, and let `x` be in the range of `uint`.
When `x` is outside the interval from 4 (included) to 5 (excluded),
`UnmarshalJSON` returns "unsupported keystore version", whatever the `encryptor`
entry.  When `x` is inside that interval the version check passes: the error
returned is the fault of the `encryptor` entry, if it has one, and never
"unsupported keystore version". -/
theorem C14_unsupported_version (codec : Codec) (keys : KeyAlgorithm SK PK Sig)
    (a : account SK PK W) (v : Document) (x : Rat)
    (hid : Spec.identifierFault codec "account" v = none)
    (hname : Spec.nameFault "account" v = none)
    (hpubkey : Spec.pubkeyFault codec keys v = none)
    (hcrypto : Spec.cryptoFault v = none)
    (hversion : lookup v "version" = some (.float64 x))
    (hrange : -1 < x ∧ x < 2 ^ 64) :
    (¬ (4 ≤ x ∧ x < 5) →
      (account.UnmarshalJSON codec keys a (.ok v)).1 = some "unsupported keystore version") ∧
    (4 ≤ x ∧ x < 5 →
      (account.UnmarshalJSON codec keys a (.ok v)).1 = Spec.encryptorFault codec v ∧
      (account.UnmarshalJSON codec keys a (.ok v)).1 ≠ some "unsupported keystore version" ∧
      (Spec.encryptorFault codec v = none →
        (account.UnmarshalJSON codec keys a (.ok v)).2.version = 4)) := by
  have hfloor : uint codec x = 4 ↔ (4 ≤ x ∧ x < 5) := by
    simp only [uint, hrange, and_self, if_true]
    constructor
    · intro h
      have hf : x.floor = 4 := by
        have h0 : 0 ≤ x.floor := by
          by_contra hneg
          rw [Int.toNat_of_nonpos (le_of_lt (not_le.mp hneg))] at h
          exact absurd h (by decide)
        have := Int.toNat_of_nonneg h0
        omega
      have hfl : ⌊x⌋ = 4 := hf
      rw [Int.floor_eq_iff] at hfl
      exact ⟨by exact_mod_cast hfl.1, by
        have := hfl.2
        norm_num at this
        exact this⟩
    · intro h
      have hfl : ⌊x⌋ = 4 := by
        rw [Int.floor_eq_iff]
        exact ⟨by exact_mod_cast h.1, by
          norm_num
          exact h.2⟩
      have hf : x.floor = 4 := hfl
      rw [hf]
      rfl
  refine ⟨fun hx => ?_, fun hx => ?_⟩
  · have hu : uint codec x ≠ 4 := fun h => hx (hfloor.mp h)
    rw [account.UnmarshalJSON_error]
    simp [Spec.accountError, Spec.firstFault, hid, hname, hpubkey, hcrypto,
      Spec.accountVersionFault, hversion, hu]
  · have hu : uint codec x = 4 := hfloor.mpr hx
    have herr : (account.UnmarshalJSON codec keys a (.ok v)).1 = Spec.encryptorFault codec v := by
      rw [account.UnmarshalJSON_error]
      cases h6 : Spec.encryptorFault codec v <;>
        simp [Spec.accountError, Spec.firstFault, hid, hname, hpubkey, hcrypto,
          Spec.accountVersionFault, hversion, hu, h6]
    refine ⟨herr, ?_, fun h6 => ?_⟩
    · rw [herr]
      unfold Spec.encryptorFault
      cases h1 : lookup v "encryptor" with
      | none => simp
      | some val =>
        cases val with
        | string s =>
          by_cases h2 : s = "keystore" ∨ s = "keystorev4"
          · simp [h2]
          · simp only [h2, if_false]
            intro h
            have hd := congrArg String.data (Option.some.inj h)
            simp only [String.data_append] at hd
            simp at hd
        | _ => simp
    · obtain ⟨_, _, _, _, _, _, _, _, _, _, _, _, _, _, _, _, _, _, hb⟩ :=
        account.UnmarshalJSON_ok codec keys a v (by rw [herr, h6])
      rw [hb]

/-- Witness for C14: the record of the demo account with version 3 and an
`encryptor` entry that is not a string. -/
theorem C14_unsupported_version_witness :
    (account.UnmarshalJSON Demo.codec Demo.keys (newAccount : account Bytes Bytes Unit)
      (.ok Demo.version3Document)).1 = some "unsupported keystore version" :=
  (C14_unsupported_version Demo.codec Demo.keys newAccount Demo.version3Document 3
    rfl rfl rfl rfl rfl (by norm_num)).1 (by norm_num)

/-- C15: the error `UnmarshalJSON` returns for a document is the error of the
specification's ordered validation: the fault of the earliest faulty field in the
order identifier (`uuid`, else `id`), name, pubkey, crypto, version (presence
and type, then support), encryptor, and none when no field is faulty. -/
theorem C15_account_first_fault_wins (codec : Codec) (keys : KeyAlgorithm SK PK Sig)
    (a : account SK PK W) (v : Document) :
    (account.UnmarshalJSON codec keys a (.ok v)).1 =
      Spec.firstFault [Spec.identifierFault codec "account" v, Spec.nameFault "account" v,
        Spec.pubkeyFault codec keys v, Spec.cryptoFault v, Spec.accountVersionFault codec v,
        Spec.encryptorFault codec v] :=
  account.UnmarshalJSON_error codec keys a v

/-- C16: on a wallet document without a `type` entry `UnmarshalJSON` returns
"wallet type missing"; with a `type` that is not a string, "wallet type
invalid"; with a string other than "non-deterministic", the error that quotes
it as unexpected; each time the receiver is left as it was.  It returns no error
only if `type` is the string "non-deterministic". -/
theorem C16_wallet_type_checked (codec : Codec) (w : wallet) (v : Document) :
    (lookup v "type" = none →
        wallet.UnmarshalJSON codec w (.ok v) = (some "wallet type missing", w)) ∧
      (∀ val, lookup v "type" = some val → (∀ s, val ≠ .string s) →
        wallet.UnmarshalJSON codec w (.ok v) = (some "wallet type invalid", w)) ∧
      (∀ s, lookup v "type" = some (.string s) → s ≠ "non-deterministic" →
        wallet.UnmarshalJSON codec w (.ok v) =
          (some ("wallet type " ++ codec.quote s ++ " unexpected"), w)) ∧
      ((wallet.UnmarshalJSON codec w (.ok v)).1 = none →
        lookup v "type" = some (.string "non-deterministic")) := by
  refine ⟨fun h => ?_, fun val h hs => ?_, fun s h hs => ?_, fun hok => ?_⟩
  · simp [wallet.UnmarshalJSON, wallet.unmarshalFields, wallet.unmarshalType, h, bind,
      Except.bind]
  · cases val with
    | string s => exact absurd rfl (hs s)
    | _ =>
      simp [wallet.UnmarshalJSON, wallet.unmarshalFields, wallet.unmarshalType, h, bind,
        Except.bind]
  · simp [wallet.UnmarshalJSON, wallet.unmarshalFields, wallet.unmarshalType, h, bind,
      Except.bind, walletType, hs]
  · rw [wallet.UnmarshalJSON_walletError] at hok
    cases h1 : Spec.typeFault codec v with
    | some e => simp [Spec.walletError, Spec.firstFault, h1] at hok
    | none => exact ((wallet.unmarshalType_spec codec w v).2 h1).1

/-- C17: the error the wallet's `UnmarshalJSON` returns for a document is the
error of the specification's ordered validation: the fault of the earliest
faulty field in the order type, identifier (`uuid`, else `id`), name, version,
and none when no field is faulty. -/
theorem C17_wallet_first_fault_wins (codec : Codec) (w : wallet) (v : Document) :
    (wallet.UnmarshalJSON codec w (.ok v)).1 =
      Spec.firstFault [Spec.typeFault codec v, Spec.identifierFault codec "wallet" v,
        Spec.nameFault "wallet" v, Spec.walletVersionFault v] :=
  wallet.UnmarshalJSON_walletError codec w v

/-- C18: for a document without a `uuid` entry, the account decoder and the
wallet decoder give the same result (the error and the decoded entity) on the
document as on the document with the key `id` written `uuid`. -/
theorem C18_legacy_id_alias (codec : Codec) (keys : KeyAlgorithm SK PK Sig)
    (a : account SK PK W) (w : wallet) (v : Document) (huuid : lookup v "uuid" = none) :
    account.UnmarshalJSON codec keys a (.ok v) =
        account.UnmarshalJSON codec keys a (.ok (renameIDToUUID v)) ∧
      wallet.UnmarshalJSON codec w (.ok v) =
        wallet.UnmarshalJSON codec w (.ok (renameIDToUUID v)) := by
  have h1 := lookup_renameIDToUUID_uuid v huuid
  have h2 := lookup_renameIDToUUID_id v
  have hname := lookup_renameIDToUUID_other v "name" (by decide) (by decide)
  have hpubkey := lookup_renameIDToUUID_other v "pubkey" (by decide) (by decide)
  have hcrypto := lookup_renameIDToUUID_other v "crypto" (by decide) (by decide)
  have hversion := lookup_renameIDToUUID_other v "version" (by decide) (by decide)
  have henc := lookup_renameIDToUUID_other v "encryptor" (by decide) (by decide)
  have htype := lookup_renameIDToUUID_other v "type" (by decide) (by decide)
  have haid : ∀ b : account SK PK W,
      account.unmarshalID codec b (renameIDToUUID v) = account.unmarshalID codec b v := by
    intro b
    simp only [account.unmarshalID, h1, h2, huuid]
  have hwid : ∀ b : wallet,
      wallet.unmarshalID codec b (renameIDToUUID v) = wallet.unmarshalID codec b v := by
    intro b
    simp only [wallet.unmarshalID, h1, h2, huuid]
  constructor
  · simp only [account.UnmarshalJSON, account.unmarshalFields, haid, account.unmarshalName,
      account.unmarshalPubkey, account.unmarshalCrypto, account.unmarshalVersion,
      account.unmarshalEncryptor, hname, hpubkey, hcrypto, hversion, henc]
  · simp only [wallet.UnmarshalJSON, wallet.unmarshalFields, hwid, wallet.unmarshalType,
      wallet.unmarshalName, wallet.unmarshalVersion, hname, hversion, htype]

/-- Witness for C18: the records of the demo account and of a wallet with the
identifier under `id`. -/
theorem C18_legacy_id_alias_witness :
    account.UnmarshalJSON Demo.codec Demo.keys (newAccount : account Bytes Bytes Unit)
          (.ok Demo.legacyDocument) =
        account.UnmarshalJSON Demo.codec Demo.keys newAccount
          (.ok (renameIDToUUID Demo.legacyDocument)) ∧
      wallet.UnmarshalJSON Demo.codec Demo.newWallet (.ok Demo.legacyDocument) =
        wallet.UnmarshalJSON Demo.codec Demo.newWallet
          (.ok (renameIDToUUID Demo.legacyDocument)) :=
  C18_legacy_id_alias Demo.codec Demo.keys newAccount Demo.newWallet Demo.legacyDocument rfl

/-- C19: on a document whose identifier, name, pubkey, crypto and version
entries are valid, `UnmarshalJSON` returns no error and sets the keystore-v4
encryptor when `encryptor` is absent or is the string "keystore" or
"keystorev4"; it returns the "unsupported encryptor" error quoting the string
when `encryptor` is another string, and "encryptor invalid" when `encryptor` is
not a string. -/
theorem C19_encryptor_checked (codec : Codec) (keys : KeyAlgorithm SK PK Sig)
    (a : account SK PK W) (v : Document)
    (hid : Spec.identifierFault codec "account" v = none)
    (hname : Spec.nameFault "account" v = none)
    (hpubkey : Spec.pubkeyFault codec keys v = none)
    (hcrypto : Spec.cryptoFault v = none)
    (hversion : Spec.accountVersionFault codec v = none) :
    (lookup v "encryptor" = none →
        (account.UnmarshalJSON codec keys a (.ok v)).1 = none ∧
          (account.UnmarshalJSON codec keys a (.ok v)).2.encryptor =
            some codec.keystorev4New) ∧
      (∀ s, lookup v "encryptor" = some (.string s) → s = "keystore" ∨ s = "keystorev4" →
        (account.UnmarshalJSON codec keys a (.ok v)).1 = none ∧
          (account.UnmarshalJSON codec keys a (.ok v)).2.encryptor =
            some codec.keystorev4New) ∧
      (∀ s, lookup v "encryptor" = some (.string s) → s ≠ "keystore" → s ≠ "keystorev4" →
        (account.UnmarshalJSON codec keys a (.ok v)).1 =
          some ("unsupported encryptor " ++ codec.quote s)) ∧
      (∀ val, lookup v "encryptor" = some val → (∀ s, val ≠ .string s) →
        (account.UnmarshalJSON codec keys a (.ok v)).1 = some "encryptor invalid") := by
  have herr : (account.UnmarshalJSON codec keys a (.ok v)).1 = Spec.encryptorFault codec v := by
    rw [account.UnmarshalJSON_error]
    simp [Spec.accountError, Spec.firstFault, hid, hname, hpubkey, hcrypto, hversion]
    cases Spec.encryptorFault codec v <;> rfl
  have hset : Spec.encryptorFault codec v = none →
      (account.UnmarshalJSON codec keys a (.ok v)).1 = none ∧
        (account.UnmarshalJSON codec keys a (.ok v)).2.encryptor =
          some codec.keystorev4New := by
    intro h
    have hok : (account.UnmarshalJSON codec keys a (.ok v)).1 = none := herr.trans h
    obtain ⟨_, _, _, _, _, _, _, _, _, _, _, _, _, _, _, _, _, _, hb⟩ :=
      account.UnmarshalJSON_ok codec keys a v hok
    exact ⟨hok, by rw [hb]⟩
  refine ⟨fun h => hset ?_, fun s h hs => hset ?_, fun s h h1 h2 => ?_, fun val h hs => ?_⟩
  · simp [Spec.encryptorFault, h]
  · simp [Spec.encryptorFault, h, hs]
  · rw [herr]
    simp [Spec.encryptorFault, h, h1, h2]
  · rw [herr]
    cases val with
    | string s => exact absurd rfl (hs s)
    | _ => simp [Spec.encryptorFault, h]

/-- Witness for C19: the record of the demo account, which has no `encryptor`
entry. -/
theorem C19_encryptor_checked_witness :
    (account.UnmarshalJSON Demo.codec Demo.keys (newAccount : account Bytes Bytes Unit)
        (.ok Demo.document)).1 = none ∧
      (account.UnmarshalJSON Demo.codec Demo.keys (newAccount : account Bytes Bytes Unit)
        (.ok Demo.document)).2.encryptor = some Demo.codec.keystorev4New :=
  (C19_encryptor_checked Demo.codec Demo.keys newAccount Demo.document
    rfl rfl rfl rfl rfl).1 rfl

/-- C20: assume the key algorithm rejects every byte string whose length is not
48 and gives a public key whose bytes are the bytes it was made from.  On a
document with a valid identifier and name, `UnmarshalJSON` returns an error when
`pubkey` is absent, is not a string, is not hexadecimal, or decodes to bytes the
key algorithm rejects (so for every length other than 48); when it returns no
error, the bytes of the account's public key are the bytes decoded from the
`pubkey` string. -/
theorem C20_pubkey_checked (codec : Codec) (keys : KeyAlgorithm SK PK Sig)
    (a : account SK PK W) (v : Document)
    (hlen : ∀ bytes, bytes.length ≠ 48 → ∃ e, keys.BLSPublicKeyFromBytes bytes = .error e)
    (hbytes : ∀ bytes pk, keys.BLSPublicKeyFromBytes bytes = .ok pk → keys.Marshal pk = bytes)
    (hid : Spec.identifierFault codec "account" v = none)
    (hname : Spec.nameFault "account" v = none) :
    (lookup v "pubkey" = none →
        (account.UnmarshalJSON codec keys a (.ok v)).1 = some "account pubkey missing") ∧
      (∀ val, lookup v "pubkey" = some val → (∀ s, val ≠ .string s) →
        (account.UnmarshalJSON codec keys a (.ok v)).1 = some "account pubkey invalid") ∧
      (∀ s e, lookup v "pubkey" = some (.string s) → codec.hexDecodeString s = .error e →
        (account.UnmarshalJSON codec keys a (.ok v)).1 =
          some ("failed to decode public key: " ++ e)) ∧
      (∀ s bytes e, lookup v "pubkey" = some (.string s) →
        codec.hexDecodeString s = .ok bytes → keys.BLSPublicKeyFromBytes bytes = .error e →
        (account.UnmarshalJSON codec keys a (.ok v)).1 = some ("invalid public key: " ++ e)) ∧
      (∀ s bytes, lookup v "pubkey" = some (.string s) →
        codec.hexDecodeString s = .ok bytes → bytes.length ≠ 48 →
        (account.UnmarshalJSON codec keys a (.ok v)).1 ≠ none) ∧
      ((account.UnmarshalJSON codec keys a (.ok v)).1 = none →
        ∃ s bytes pk, lookup v "pubkey" = some (.string s) ∧
          codec.hexDecodeString s = .ok bytes ∧
          (account.UnmarshalJSON codec keys a (.ok v)).2.publicKey = some pk ∧
          keys.Marshal pk = bytes) := by
  have herr : ∀ e, Spec.pubkeyFault codec keys v = some e →
      (account.UnmarshalJSON codec keys a (.ok v)).1 = some e := by
    intro e h
    rw [account.UnmarshalJSON_error]
    simp [Spec.accountError, Spec.firstFault, hid, hname, h]
  have hinvalid : ∀ s bytes e, lookup v "pubkey" = some (.string s) →
      codec.hexDecodeString s = .ok bytes → keys.BLSPublicKeyFromBytes bytes = .error e →
      (account.UnmarshalJSON codec keys a (.ok v)).1 = some ("invalid public key: " ++ e) := by
    intro s bytes e h h1 h2
    exact herr _ (by simp [Spec.pubkeyFault, h, h1, h2])
  refine ⟨fun h => herr _ ?_, fun val h hs => herr _ ?_, fun s e h h1 => herr _ ?_, hinvalid,
    fun s bytes h h1 h2 => ?_, fun hok => ?_⟩
  · simp [Spec.pubkeyFault, h]
  · cases val with
    | string s => exact absurd rfl (hs s)
    | _ => simp [Spec.pubkeyFault, h]
  · simp [Spec.pubkeyFault, h, h1]
  · obtain ⟨e, he⟩ := hlen bytes h2
    rw [hinvalid s bytes e h h1 he]
    simp
  · obtain ⟨_, _, _, s, bytes, pk, _, _, _, _, _, k1, k2, k3, _, _, _, _, hb⟩ :=
      account.UnmarshalJSON_ok codec keys a v hok
    exact ⟨s, bytes, pk, k1, k2, by rw [hb], hbytes bytes pk k3⟩

/-- Witness for C20: a record with a public key of 48 bytes, and the stand-in key
algorithm with the key lengths of BLS. -/
theorem C20_pubkey_checked_witness :
    ∃ s bytes pk, lookup Demo.document48 "pubkey" = some (.string s) ∧
      Demo.codec.hexDecodeString s = .ok bytes ∧
      (account.UnmarshalJSON Demo.codec Demo.keys48 (newAccount : account Bytes Bytes Unit)
        (.ok Demo.document48)).2.publicKey = some pk ∧
      Demo.keys48.Marshal pk = bytes :=
  (C20_pubkey_checked Demo.codec Demo.keys48 newAccount Demo.document48
    (fun bytes h => by simp [Demo.keys48, h])
    (fun bytes pk h => by
      simp only [Demo.keys48] at h ⊢
      split at h
      · cases h; rfl
      · cases h)
    rfl rfl).2.2.2.2.2 rfl

/-! ### Claims about marshalling and loading -/

/-- C21: for an account with a public key and an encryptor set, `MarshalJSON`
gives a record with exactly the six keys uuid, name, pubkey, crypto, encryptor
and version: uuid is the string form of the id, name the account name, pubkey
the `%x` (lower-case hexadecimal) form of the public key bytes, crypto the
crypto descriptor, encryptor the encryptor's `String()` and version the
account's version. -/
theorem C21_marshal_six_keys (codec : Codec) (keys : KeyAlgorithm SK PK Sig)
    (a : account SK PK W) (pk : PK) (enc : Encryptor)
    (hpk : a.publicKey = some pk) (henc : a.encryptor = some enc) :
    ∃ data, account.MarshalJSON codec keys a = some data ∧
      data.map Prod.fst = ["uuid", "name", "pubkey", "crypto", "encryptor", "version"] ∧
      data.lookup "uuid" = some (.string (codec.uuidString a.id)) ∧
      data.lookup "name" = some (.string a.name) ∧
      data.lookup "pubkey" = some (.string (codec.hexEncode (keys.Marshal pk))) ∧
      data.lookup "crypto" = some (.map a.crypto) ∧
      data.lookup "encryptor" = some (.string enc.toString) ∧
      data.lookup "version" = some (.uint a.version) := by
  simp [account.MarshalJSON, hpk, henc, List.lookup]

/-- Witness for C21: the newly loaded demo account. -/
theorem C21_marshal_six_keys_witness :
    ∃ data, account.MarshalJSON Demo.codec Demo.keys Demo.loaded = some data ∧
      data.map Prod.fst = ["uuid", "name", "pubkey", "crypto", "encryptor", "version"] ∧
      data.lookup "uuid" = some (.string (Demo.codec.uuidString Demo.loaded.id)) ∧
      data.lookup "name" = some (.string Demo.loaded.name) ∧
      data.lookup "pubkey" =
        some (.string (Demo.codec.hexEncode (Demo.keys.Marshal [11, 21]))) ∧
      data.lookup "crypto" = some (.map Demo.loaded.crypto) ∧
      data.lookup "encryptor" = some (.string Demo.encryptor.toString) ∧
      data.lookup "version" = some (.uint Demo.loaded.version) :=
  C21_marshal_six_keys Demo.codec Demo.keys Demo.loaded [11, 21] Demo.encryptor rfl rfl

/-- C22: two accounts that agree on id, name, publicKey, crypto, encryptor and
version have the same `MarshalJSON` result, whatever their unlocked flag, secret
key and wallet. -/
theorem C22_marshal_ignores_transient_state (codec : Codec) (keys : KeyAlgorithm SK PK Sig)
    (a b : account SK PK W)
    (hid : a.id = b.id) (hname : a.name = b.name) (hpk : a.publicKey = b.publicKey)
    (hcrypto : a.crypto = b.crypto) (henc : a.encryptor = b.encryptor)
    (hversion : a.version = b.version) :
    account.MarshalJSON codec keys a = account.MarshalJSON codec keys b := by
  simp [account.MarshalJSON, hid, hname, hpk, hcrypto, henc, hversion]

/-- Witness for C22: the demo account newly loaded (locked, no secret key) and
after a successful `Unlock` (unlocked, holding the secret key). -/
theorem C22_marshal_ignores_transient_state_witness :
    account.MarshalJSON Demo.codec Demo.keys Demo.loaded =
      account.MarshalJSON Demo.codec Demo.keys Demo.opened :=
  C22_marshal_ignores_transient_state Demo.codec Demo.keys Demo.loaded Demo.opened
    rfl rfl rfl rfl rfl rfl

/-! ### What the decoders keep of the receiver -/

/-- The identifier step keeps the lock state, secret key, wallet and encryptor. -/
theorem account.unmarshalID_untouched (codec : Codec) (a : account SK PK W) (v : Document) :
    account.Untouched a (Decoded.receiver (account.unmarshalID codec a v)) := by
  unfold account.unmarshalID
  repeat' split
  all_goals simp [Decoded.receiver, account.Untouched]

/-- The name step keeps the lock state, secret key, wallet and encryptor. -/
theorem account.unmarshalName_untouched (a : account SK PK W) (v : Document) :
    account.Untouched a (Decoded.receiver (account.unmarshalName a v)) := by
  unfold account.unmarshalName
  repeat' split
  all_goals simp [Decoded.receiver, account.Untouched]

/-- The public key step keeps the lock state, secret key, wallet and encryptor. -/
theorem account.unmarshalPubkey_untouched (codec : Codec) (keys : KeyAlgorithm SK PK Sig)
    (a : account SK PK W) (v : Document) :
    account.Untouched a (Decoded.receiver (account.unmarshalPubkey codec keys a v)) := by
  unfold account.unmarshalPubkey
  repeat' split
  all_goals simp [Decoded.receiver, account.Untouched]

/-- The crypto step keeps the lock state, secret key, wallet and encryptor. -/
theorem account.unmarshalCrypto_untouched (a : account SK PK W) (v : Document) :
    account.Untouched a (Decoded.receiver (account.unmarshalCrypto a v)) := by
  unfold account.unmarshalCrypto
  repeat' split
  all_goals simp [Decoded.receiver, account.Untouched]

/-- The version step keeps the lock state, secret key, wallet and encryptor. -/
theorem account.unmarshalVersion_untouched (codec : Codec) (a : account SK PK W)
    (v : Document) :
    account.Untouched a (Decoded.receiver (account.unmarshalVersion codec a v)) := by
  unfold account.unmarshalVersion
  repeat' split
  all_goals simp [Decoded.receiver, account.Untouched]

/-- The encryptor step keeps the lock state, secret key and wallet, and the
encryptor too when it fails. -/
theorem account.unmarshalEncryptor_framed (codec : Codec) (a : account SK PK W)
    (v : Document) : account.Framed a (account.unmarshalEncryptor codec a v) := by
  unfold account.unmarshalEncryptor
  repeat' split
  all_goals simp [account.Framed, account.Untouched]

/-- Being untouched is transitive. -/
theorem account.Untouched.trans {a b c : account SK PK W} (h1 : account.Untouched a b)
    (h2 : account.Untouched b c) : account.Untouched a c :=
  ⟨h2.1.trans h1.1, h2.2.1.trans h1.2.1, h2.2.2.1.trans h1.2.2.1, h2.2.2.2.trans h1.2.2.2⟩

/-- What a decoder run keeps of `b` it keeps of `a`, when `b` is `a` untouched. -/
theorem account.Framed.of_untouched {a b : account SK PK W}
    {r : Except (String × account SK PK W) (account SK PK W)}
    (h1 : account.Untouched a b) (h2 : account.Framed b r) : account.Framed a r := by
  cases r with
  | ok c => exact ⟨h2.1.trans h1.1, h2.2.1.trans h1.2.1, h2.2.2.trans h1.2.2.1⟩
  | error ec => exact account.Untouched.trans h1 h2

/-- A step that leaves the receiver untouched, followed by steps that keep the
frame, keeps the frame. -/
theorem account.Framed.bind {a : account SK PK W}
    (r : Except (String × account SK PK W) (account SK PK W))
    (f : account SK PK W → Except (String × account SK PK W) (account SK PK W))
    (h1 : account.Untouched a (Decoded.receiver r))
    (h2 : ∀ b, account.Framed b (f b)) : account.Framed a (r >>= f) := by
  cases r with
  | ok b => exact account.Framed.of_untouched h1 (h2 b)
  | error eb => exact h1

/-- The field steps of the account decoder keep the frame of the receiver. -/
theorem account.unmarshalFields_framed (codec : Codec) (keys : KeyAlgorithm SK PK Sig)
    (a : account SK PK W) (v : Document) :
    account.Framed a (account.unmarshalFields codec keys a v) := by
  unfold account.unmarshalFields
  refine account.Framed.bind _ _ (account.unmarshalID_untouched codec a v) fun a1 => ?_
  refine account.Framed.bind _ _ (account.unmarshalName_untouched a1 v) fun a2 => ?_
  refine account.Framed.bind _ _ (account.unmarshalPubkey_untouched codec keys a2 v) fun a3 => ?_
  refine account.Framed.bind _ _ (account.unmarshalCrypto_untouched a3 v) fun a4 => ?_
  refine account.Framed.bind _ _ (account.unmarshalVersion_untouched codec a4 v) fun a5 => ?_
  exact account.unmarshalEncryptor_framed codec a5 v

/-- The account decoder never changes the lock state, the secret key or the
wallet of the receiver, and does not change the encryptor when it fails. -/
theorem account.UnmarshalJSON_framed (codec : Codec) (keys : KeyAlgorithm SK PK Sig)
    (a : account SK PK W) (parsed : Except String Document) :
    (account.UnmarshalJSON codec keys a parsed).2.unlocked = a.unlocked ∧
      (account.UnmarshalJSON codec keys a parsed).2.secretKey = a.secretKey ∧
      (account.UnmarshalJSON codec keys a parsed).2.wallet = a.wallet ∧
      ((account.UnmarshalJSON codec keys a parsed).1 ≠ none →
        (account.UnmarshalJSON codec keys a parsed).2.encryptor = a.encryptor) := by
  cases parsed with
  | error err => simp [account.UnmarshalJSON]
  | ok v =>
    have h := account.unmarshalFields_framed codec keys a v
    simp only [account.UnmarshalJSON]
    cases hr : account.unmarshalFields codec keys a v with
    | ok b =>
      rw [hr] at h
      exact ⟨h.1, h.2.1, h.2.2, fun hne => absurd rfl hne⟩
    | error eb =>
      rw [hr] at h
      obtain ⟨e, b⟩ := eb
      exact ⟨h.1, h.2.1, h.2.2.1, fun _ => h.2.2.2⟩

/-- What the wallet decoder leaves in the receiver when it returns no error. -/
theorem wallet.UnmarshalJSON_decoded (codec : Codec) (w : wallet) (v : Document)
    (hok : (wallet.UnmarshalJSON codec w (.ok v)).1 = none) :
    ∃ idStr id name x,
      lookup v "type" = some (.string walletType) ∧
      Spec.identifierField v = some (.string idStr) ∧ codec.uuidParse idStr = .ok id ∧
      lookup v "name" = some (.string name) ∧
      lookup v "version" = some (.float64 x) ∧
      (wallet.UnmarshalJSON codec w (.ok v)).2 =
        { w with id := id, name := name, version := uint codec x } := by
  rw [wallet.UnmarshalJSON_walletError] at hok
  simp only [Spec.walletError] at hok
  cases h1 : Spec.typeFault codec v with
  | some e => simp [h1, Spec.firstFault] at hok
  | none =>
    cases h2 : Spec.identifierFault codec "wallet" v with
    | some e => simp [h1, h2, Spec.firstFault] at hok
    | none =>
      cases h3 : Spec.nameFault "wallet" v with
      | some e => simp [h1, h2, h3, Spec.firstFault] at hok
      | none =>
        cases h4 : Spec.walletVersionFault v with
        | some e => simp [h1, h2, h3, h4, Spec.firstFault] at hok
        | none =>
          obtain ⟨t1, e1⟩ := (wallet.unmarshalType_spec codec w v).2 h1
          obtain ⟨idStr, id, f1, f2, e2⟩ := (wallet.unmarshalID_identifierFault codec w v).2 h2
          obtain ⟨name, g1, e3⟩ := (wallet.unmarshalName_nameFault { w with id := id } v).2 h3
          obtain ⟨x, v1, e4⟩ := (wallet.unmarshalVersion_versionFault codec
            { w with id := id, name := name } v).2 h4
          refine ⟨idStr, id, name, x, t1, f1, f2, g1, v1, ?_⟩
          simp [wallet.UnmarshalJSON, wallet.unmarshalFields, bind, Except.bind, e1, e2, e3, e4]

/-! ### Claims about loading, wallet records and the stores -/

/-- C23: an account that `deserializeAccount` returns for a wallet `w` is LOCKED
(`IsUnlocked` reports false with no error), holds no secret key (`PrivateKey`
and `Sign` return an error and no key or signature), and has `w` as its
wallet. -/
theorem C23_deserialized_account_locked (codec : Codec) (env : Env SK PK Sig wallet)
    (w : wallet) (data : JSONData) (a : account SK PK wallet)
    (hok : deserializeAccount codec env.keys w data = (some a, none)) :
    IsUnlocked a = (false, none) ∧ a.secretKey = none ∧
      PrivateKey a = (none, some "cannot provide private key when account is locked") ∧
      (∀ m, Sign env a m = (none, some "cannot sign when account is locked")) ∧
      a.wallet = some w := by
  cases data with
  | invalid err => simp [deserializeAccount] at hok
  | valid parsed =>
    have h := account.UnmarshalJSON_framed codec env.keys
      { (newAccount : account SK PK wallet) with wallet := some w, encryptor := w.encryptor }
      parsed
    simp only [deserializeAccount] at hok
    generalize account.UnmarshalJSON codec env.keys
      { (newAccount : account SK PK wallet) with wallet := some w, encryptor := w.encryptor }
      parsed = r at h hok
    obtain ⟨e, b⟩ := r
    cases e with
    | some err => simp at hok
    | none =>
      simp only [Prod.mk.injEq, Option.some.injEq, and_true] at hok
      subst hok
      obtain ⟨h1, h2, h3, -⟩ := h
      simp only [newAccount] at h1 h2 h3
      refine ⟨?_, h2, ?_, fun m => ?_, h3⟩
      · simp [IsUnlocked, h1]
      · simp [PrivateKey, h1]
      · simp [Sign, IsUnlocked, h1]

/-- Witness for C23: the record of the demo account loaded for the demo wallet. -/
theorem C23_deserialized_account_locked_witness :
    IsUnlocked Demo.owned = (false, none) ∧ Demo.owned.secretKey = none ∧
      PrivateKey Demo.owned =
        (none, some "cannot provide private key when account is locked") ∧
      (∀ m, Sign Demo.walletEnv Demo.owned m =
        (none, some "cannot sign when account is locked")) ∧
      Demo.owned.wallet = some Demo.someWallet :=
  C23_deserialized_account_locked Demo.codec Demo.walletEnv Demo.someWallet
    (.valid (.ok Demo.document)) Demo.owned rfl

/-- C24: for a wallet whose version is below 2^53, unmarshalling the output of
`MarshalJSON` into a fresh wallet returns no error and gives a wallet with the
same id, name and version; the marshalled record has exactly the keys uuid,
name, version and type, and its type is the fixed discriminator.  The
hypotheses on the libraries: an unsigned integer below 2^53 is read back as
itself, and the identifier is read back from its string form. -/
theorem C24_wallet_round_trip (codec : Codec) (w : wallet)
    (hversion : w.version < 2 ^ 53)
    (hexact : ∀ n : Nat, n < 2 ^ 53 → codec.float64OfUint n = (n : Rat))
    (huuid : codec.uuidParse (codec.uuidString w.id) = .ok w.id) :
    (wallet.reloaded codec w).1 = none ∧
      (wallet.reloaded codec w).2.id = w.id ∧
      (wallet.reloaded codec w).2.name = w.name ∧
      (wallet.reloaded codec w).2.version = w.version ∧
      (wallet.MarshalJSON codec w).map Prod.fst = ["uuid", "name", "version", "type"] ∧
      (wallet.MarshalJSON codec w).lookup "type" = some (.string "non-deterministic") := by
  have hu : uint codec (codec.float64OfUint w.version) = w.version := by
    rw [hexact w.version hversion]
    exact uint_natCast codec w.version (lt_trans hversion (by norm_num))
  simp [wallet.reloaded, wallet.MarshalJSON, reload, jsonRoundTrip, wallet.UnmarshalJSON,
    wallet.unmarshalFields, wallet.unmarshalType, wallet.unmarshalID, wallet.unmarshalName,
    wallet.unmarshalVersion, lookup, bind, Except.bind, huuid, hu, walletType, newWallet,
    List.lookup]

/-- Witness for C24: the demo wallet. -/
theorem C24_wallet_round_trip_witness :
    (wallet.reloaded Demo.codec Demo.someWallet).1 = none ∧
      (wallet.reloaded Demo.codec Demo.someWallet).2.id = Demo.someWallet.id ∧
      (wallet.reloaded Demo.codec Demo.someWallet).2.name = Demo.someWallet.name ∧
      (wallet.reloaded Demo.codec Demo.someWallet).2.version = Demo.someWallet.version ∧
      (wallet.MarshalJSON Demo.codec Demo.someWallet).map Prod.fst =
        ["uuid", "name", "version", "type"] ∧
      (wallet.MarshalJSON Demo.codec Demo.someWallet).lookup "type" =
        some (.string "non-deterministic") :=
  C24_wallet_round_trip Demo.codec Demo.someWallet (by decide) (fun _ _ => rfl) rfl

/-- C25: on a wallet document with a valid type, identifier and name whose
`version` is a number, `UnmarshalJSON` returns no error, whatever the number,
and sets the version to its conversion to `uint`; for a non-negative integer
below 2^53 the version is that integer. -/
theorem C25_wallet_version_not_checked (codec : Codec) (w : wallet) (v : Document) (x : Rat)
    (htype : Spec.typeFault codec v = none)
    (hid : Spec.identifierFault codec "wallet" v = none)
    (hname : Spec.nameFault "wallet" v = none)
    (hversion : lookup v "version" = some (.float64 x)) :
    (wallet.UnmarshalJSON codec w (.ok v)).1 = none ∧
      (wallet.UnmarshalJSON codec w (.ok v)).2.version = uint codec x ∧
      (∀ n : Nat, x = (n : Rat) → n < 2 ^ 53 →
        (wallet.UnmarshalJSON codec w (.ok v)).2.version = n) := by
  have hok : (wallet.UnmarshalJSON codec w (.ok v)).1 = none := by
    rw [wallet.UnmarshalJSON_walletError]
    simp [Spec.walletError, Spec.firstFault, htype, hid, hname, Spec.walletVersionFault,
      hversion]
  obtain ⟨idStr, id, name, y, -, -, -, -, hy, hw⟩ := wallet.UnmarshalJSON_decoded codec w v hok
  have hxy : y = x := by
    rw [hversion] at hy
    simpa using hy.symm
  subst hxy
  refine ⟨hok, by rw [hw], fun n hn hlt => ?_⟩
  rw [hw, hn]
  exact uint_natCast codec n (lt_trans hlt (by norm_num))

/-- Witness for C25: the wallet entries of the legacy demo document, with
version 4. -/
theorem C25_wallet_version_not_checked_witness :
    (wallet.UnmarshalJSON Demo.codec newWallet (.ok Demo.legacyDocument)).1 = none ∧
      (wallet.UnmarshalJSON Demo.codec newWallet (.ok Demo.legacyDocument)).2.version =
        uint Demo.codec 4 ∧
      (∀ n : Nat, (4 : Rat) = (n : Rat) → n < 2 ^ 53 →
        (wallet.UnmarshalJSON Demo.codec newWallet (.ok Demo.legacyDocument)).2.version = n) :=
  C25_wallet_version_not_checked Demo.codec newWallet Demo.legacyDocument 4 rfl rfl rfl rfl

/-- The batch branch of `Unlock` does not look at what `batchDecrypt` left: on a
LOCKED account that holds no secret key and has no crypto descriptor, when the
wallet's batch decryption returns no error and leaves the account without a
secret key, `Unlock` does not return: it panics on the nil secret key at "Ensure
the private key is correct" (account.go 116). -/
theorem Unlock_panics_on_missing_key (env : Env SK PK Sig W) (a a1 : account SK PK W)
    (p : Bytes) (w : W)
    (hlocked : a.unlocked = false) (hkey : a.secretKey = none) (hcrypto : a.crypto = none)
    (hwallet : a.wallet = some w)
    (hbatch : env.batchDecrypt w p a = (.returned none, a1))
    (hnone : a1.secretKey = none) :
    (Unlock env a p).completion = .panicked ∧ (Unlock env a p).account = a1 ∧
      ∀ e, (Unlock env a p).completion ≠ .returned (some e) := by
  simp [Unlock, hlocked, hkey, hcrypto, hwallet, hbatch, ensureKey, hnone]

/-- The batch branch of `Unlock` hands on the error of `batchDecrypt`: on a
LOCKED account that holds no secret key and has no crypto descriptor, when the
wallet's batch decryption returns an error, `Unlock` returns it wrapped in
"failed to decrypt batch", which is not the error "incorrect passphrase" of the
individual branch, and the account is as `batchDecrypt` left it. -/
theorem Unlock_batch_error (env : Env SK PK Sig W) (a a1 : account SK PK W)
    (p : Bytes) (w : W) (err : String)
    (hlocked : a.unlocked = false) (hkey : a.secretKey = none) (hcrypto : a.crypto = none)
    (hwallet : a.wallet = some w)
    (hbatch : env.batchDecrypt w p a = (.returned (some err), a1)) :
    (Unlock env a p).completion = .returned (some ("failed to decrypt batch: " ++ err)) ∧
      (Unlock env a p).account = a1 ∧
      "failed to decrypt batch: " ++ err ≠ "incorrect passphrase" := by
  refine ⟨by simp [Unlock, hlocked, hkey, hcrypto, hwallet, hbatch],
    by simp [Unlock, hlocked, hkey, hcrypto, hwallet, hbatch], fun h => ?_⟩
  have hd := congrArg String.data h
  simp only [String.data_append] at hd
  simp at hd

/-- C27: `storeAccount` is not all-or-nothing.  A failing marshal step returns
"failed to marshal account" before anything is written.  After that nothing is
undone: when the index write succeeds and the account write fails, the call
returns "failed to store account" and the persisted state is what the index
write and the failed account write left, and when a read-back fails after both
writes, the call returns the read-back error and both writes stay persisted.  So
whenever a write that ran changed the persisted state, the call returns an error
and the persisted state is not the one before the call. -/
theorem C27_store_account_keeps_writes {S : Type} (codec : Codec)
    (keys : KeyAlgorithm SK PK Sig) (ops : Persistence S W) (a : account SK PK W) (s : S)
    (w : W) (data : List (String × GoValue))
    (hdata : account.MarshalJSON codec keys a = some data) (hwallet : a.wallet = some w) :
    (∀ e, ops.jsonMarshal data = some e →
        storeAccount codec keys ops a s =
          (.returned (some ("failed to marshal account: " ++ e)), s)) ∧
      (ops.jsonMarshal data = none →
        (∀ e s1, ops.storeAccountsIndex w s = (some e, s1) →
          storeAccount codec keys ops a s =
            (.returned (some ("failed to store account index: " ++ e)), s1)) ∧
        (∀ s1 e s2, ops.storeAccountsIndex w s = (none, s1) →
          ops.StoreAccount w a.id data s1 = (some e, s2) →
          storeAccount codec keys ops a s =
              (.returned (some ("failed to store account: " ++ e)), s2) ∧
            (s2 = s1 → s1 ≠ s → (storeAccount codec keys ops a s).2 ≠ s)) ∧
        (∀ s1 s2 e, ops.storeAccountsIndex w s = (none, s1) →
          ops.StoreAccount w a.id data s1 = (none, s2) →
          ops.AccountByName w a.name s2 = some e ∨
            (ops.AccountByName w a.name s2 = none ∧ ops.AccountByID w a.id s2 = some e) →
          (∃ err, (storeAccount codec keys ops a s).1 = .returned (some err)) ∧
            (storeAccount codec keys ops a s).2 = s2 ∧
            (s2 ≠ s → (storeAccount codec keys ops a s).2 ≠ s))) := by
  refine ⟨fun e h0 => ?_, fun h0 => ⟨fun e s1 h1 => ?_, fun s1 e s2 h1 h2 => ?_,
    fun s1 s2 e h1 h2 h3 => ?_⟩⟩
  · simp [storeAccount, hdata, h0]
  · simp [storeAccount, hdata, hwallet, h0, h1]
  · have h : storeAccount codec keys ops a s =
        (.returned (some ("failed to store account: " ++ e)), s2) := by
      simp [storeAccount, hdata, hwallet, h0, h1, h2]
    refine ⟨h, fun h21 hne => ?_⟩
    rw [h, h21]
    exact hne
  · rcases h3 with h3 | ⟨h3, h4⟩
    · have h : storeAccount codec keys ops a s =
          (.returned (some ("failed to confirm account when retrieving by name: " ++ e)),
            s2) := by
        simp [storeAccount, hdata, hwallet, h0, h1, h2, h3]
      rw [h]
      exact ⟨⟨_, rfl⟩, rfl, fun hne => hne⟩
    · have h : storeAccount codec keys ops a s =
          (.returned (some ("failed to confirm account when retrieveing by ID: " ++ e)),
            s2) := by
        simp [storeAccount, hdata, hwallet, h0, h1, h2, h3, h4]
      rw [h]
      exact ⟨⟨_, rfl⟩, rfl, fun hne => hne⟩

/-- Witness for C27: on a store where the index record can be written and the
account record cannot, `storeAccount` of the demo account on an empty store
returns an error and leaves the index record written: the persisted index names
"test account", whose record was not stored.  On a store where the written
account cannot be read back, the call returns an error and both records stay
persisted; on a store without failure, the call returns no error. -/
theorem C27_store_account_keeps_writes_witness :
    storeAccount Demo.codec Demo.keys Demo.fullDisk Demo.owned
        ({ index := [], accounts := [] } : Demo.Disk) =
      (.returned (some "failed to store account: no space left on device"),
        { index := ["test account"], accounts := [] }) ∧
      (storeAccount Demo.codec Demo.keys Demo.fullDisk Demo.owned
        ({ index := [], accounts := [] } : Demo.Disk)).2 ≠ { index := [], accounts := [] } ∧
      storeAccount Demo.codec Demo.keys Demo.unreadableDisk Demo.owned
          ({ index := [], accounts := [] } : Demo.Disk) =
        (.returned
          (some "failed to confirm account when retrieveing by ID: permission denied"),
          { index := ["test account"], accounts := [[201, 149, 128, 97]] }) ∧
      storeAccount Demo.codec Demo.keys Demo.goodDisk Demo.owned
          ({ index := [], accounts := [] } : Demo.Disk) =
        (.returned none, { index := ["test account"], accounts := [[201, 149, 128, 97]] }) :=
  ⟨((C27_store_account_keeps_writes Demo.codec Demo.keys Demo.fullDisk Demo.owned
      ({ index := [], accounts := [] } : Demo.Disk) Demo.someWallet _ rfl rfl).2 rfl).2.1
      { index := ["test account"], accounts := [] } "no space left on device"
      { index := ["test account"], accounts := [] } rfl rfl |>.1,
    ((C27_store_account_keeps_writes Demo.codec Demo.keys Demo.fullDisk Demo.owned
      ({ index := [], accounts := [] } : Demo.Disk) Demo.someWallet _ rfl rfl).2 rfl).2.1
      { index := ["test account"], accounts := [] } "no space left on device"
      { index := ["test account"], accounts := [] } rfl rfl |>.2 rfl (by decide),
    rfl, rfl⟩

/-- C28: for a LOCKED account that holds no secret key and has an individual
crypto descriptor, take any two encryptors and passphrases whose `Decrypt`
fails, with any error texts: `Unlock` returns the same error, "incorrect
passphrase", in both runs, and each run leaves the account exactly as it was. -/
theorem C28_decrypt_failures_indistinguishable (env : Env SK PK Sig W)
    (a : account SK PK W) (crypto : CryptoMap) (enc1 enc2 : Encryptor) (p1 p2 : Bytes)
    (e1 e2 : String)
    (hlocked : a.unlocked = false) (hkey : a.secretKey = none)
    (hcrypto : a.crypto = some crypto)
    (h1 : enc1.Decrypt crypto p1 = .error e1) (h2 : enc2.Decrypt crypto p2 = .error e2) :
    (Unlock env { a with encryptor := some enc1 } p1).completion =
        (Unlock env { a with encryptor := some enc2 } p2).completion ∧
      (Unlock env { a with encryptor := some enc1 } p1).completion =
        .returned (some "incorrect passphrase") ∧
      (Unlock env { a with encryptor := some enc1 } p1).account =
        { a with encryptor := some enc1 } ∧
      (Unlock env { a with encryptor := some enc2 } p2).account =
        { a with encryptor := some enc2 } := by
  simp [Unlock, hlocked, hkey, hcrypto, h1, h2]

/-- Witness for C28: the demo account with the stand-in encryptor, which fails on
passphrase `[9]` with "invalid checksum", and with an encryptor that fails with
"corrupt descriptor". -/
theorem C28_decrypt_failures_indistinguishable_witness :
    (Unlock Demo.env { Demo.loaded with encryptor := some Demo.encryptor } [9]).completion =
        (Unlock Demo.env { Demo.loaded with encryptor := some Demo.corruptEncryptor }
          [1]).completion ∧
      (Unlock Demo.env { Demo.loaded with encryptor := some Demo.encryptor } [9]).completion =
        .returned (some "incorrect passphrase") ∧
      (Unlock Demo.env { Demo.loaded with encryptor := some Demo.encryptor } [9]).account =
        { Demo.loaded with encryptor := some Demo.encryptor } ∧
      (Unlock Demo.env { Demo.loaded with encryptor := some Demo.corruptEncryptor }
          [1]).account =
        { Demo.loaded with encryptor := some Demo.corruptEncryptor } :=
  C28_decrypt_failures_indistinguishable Demo.env Demo.loaded Demo.crypto Demo.encryptor
    Demo.corruptEncryptor [9] [1] "invalid checksum" "corrupt descriptor" rfl rfl rfl rfl rfl

/-- When the wallet decoder fails, the version, lock state and encryptor of the
receiver are as they were, and the whole receiver is when the failing check is
the type or the identifier. -/
theorem wallet.UnmarshalJSON_rejected (codec : Codec) (w : wallet) (v : Document) :
    (∀ e, Spec.typeFault codec v = some e →
        wallet.UnmarshalJSON codec w (.ok v) = (some e, w)) ∧
      (Spec.typeFault codec v = none → ∀ e, Spec.identifierFault codec "wallet" v = some e →
        wallet.UnmarshalJSON codec w (.ok v) = (some e, w)) ∧
      ((wallet.UnmarshalJSON codec w (.ok v)).1 ≠ none →
        (wallet.UnmarshalJSON codec w (.ok v)).2.version = w.version ∧
          (wallet.UnmarshalJSON codec w (.ok v)).2.unlocked = w.unlocked ∧
          (wallet.UnmarshalJSON codec w (.ok v)).2.encryptor = w.encryptor) := by
  simp only [wallet.UnmarshalJSON, wallet.unmarshalFields, bind, Except.bind]
  cases h1 : Spec.typeFault codec v with
  | some e => simp [(wallet.unmarshalType_spec codec w v).1 e h1]
  | none =>
    simp only [((wallet.unmarshalType_spec codec w v).2 h1).2]
    cases h2 : Spec.identifierFault codec "wallet" v with
    | some e => simp [(wallet.unmarshalID_identifierFault codec w v).1 e h2]
    | none =>
      obtain ⟨idStr, id, -, -, e2⟩ := (wallet.unmarshalID_identifierFault codec w v).2 h2
      simp only [e2]
      cases h3 : Spec.nameFault "wallet" v with
      | some e => simp [(wallet.unmarshalName_nameFault _ v).1 e h3]
      | none =>
        obtain ⟨name, -, e3⟩ := (wallet.unmarshalName_nameFault { w with id := id } v).2 h3
        simp only [e3]
        cases h4 : Spec.walletVersionFault v with
        | some e => simp [(wallet.unmarshalVersion_versionFault codec _ v).1 e h4]
        | none =>
          obtain ⟨x, -, e4⟩ := (wallet.unmarshalVersion_versionFault codec
            { w with id := id, name := name } v).2 h4
          simp [e4]

/-- C29 (counterexample to the claim as stated): a document with a valid
identifier and no name is rejected by the account decoder with "account name
missing" and by the wallet decoder (it also has a valid type) with "wallet name
missing", and in both cases the id of the receiver has been changed to the
identifier of the rejected document. -/
theorem C29_counterexample :
    account.UnmarshalJSON Demo.codec Demo.keys (newAccount : account Bytes Bytes Unit)
        (.ok Demo.namelessDocument) =
      (some "account name missing", { newAccount with id := [201, 149, 128, 97] }) ∧
      (newAccount : account Bytes Bytes Unit).id ≠ [201, 149, 128, 97] ∧
      wallet.UnmarshalJSON Demo.codec newWallet (.ok Demo.namelessDocument) =
        (some "wallet name missing", { newWallet with id := [201, 149, 128, 97] }) ∧
      newWallet.id ≠ [201, 149, 128, 97] :=
  ⟨rfl, by decide, rfl, by decide⟩

/-- The identifier step of the account decoder assigns the identifier the
document gives, and fails without assigning when the document gives none. -/
theorem account.unmarshalID_decoded (codec : Codec) (a : account SK PK W) (v : Document) :
    (∀ id, Spec.decodedID codec v = some id →
        Spec.identifierFault codec "account" v = none ∧
          account.unmarshalID codec a v = .ok { a with id := id }) ∧
      (Spec.decodedID codec v = none →
        ∃ e, Spec.identifierFault codec "account" v = some e ∧
          account.unmarshalID codec a v = .error (e, a)) := by
  unfold Spec.decodedID Spec.identifierFault Spec.identifierField account.unmarshalID
  cases h1 : lookup v "uuid" with
  | some val =>
    cases val with
    | string s => cases h2 : codec.uuidParse s <;> simp [h2]
    | _ => simp
  | none =>
    cases h3 : lookup v "id" with
    | some val =>
      cases val with
      | string s => cases h2 : codec.uuidParse s <;> simp [h2]
      | _ => simp
    | none => simp

/-- The name step of the account decoder assigns the name the document gives,
and fails without assigning when the document gives none. -/
theorem account.unmarshalName_decoded (a : account SK PK W) (v : Document) :
    (∀ name, Spec.decodedName v = some name →
        Spec.nameFault "account" v = none ∧
          account.unmarshalName a v = .ok { a with name := name }) ∧
      (Spec.decodedName v = none →
        ∃ e, Spec.nameFault "account" v = some e ∧
          account.unmarshalName a v = .error (e, a)) := by
  unfold Spec.decodedName Spec.nameFault account.unmarshalName
  cases h1 : lookup v "name" with
  | some val => cases val <;> simp
  | none => simp

/-- The public key step of the account decoder assigns the key the document
gives; it fails with the field set to nil when the key algorithm rejects the
decoded bytes, and fails without assigning when nothing decodes. -/
theorem account.unmarshalPubkey_decoded (codec : Codec) (keys : KeyAlgorithm SK PK Sig)
    (a : account SK PK W) (v : Document) :
    (∀ pk, Spec.decodedPubkey codec keys v = some (some pk) →
        Spec.pubkeyFault codec keys v = none ∧
          account.unmarshalPubkey codec keys a v = .ok { a with publicKey := some pk }) ∧
      (Spec.decodedPubkey codec keys v = some none →
        ∃ e, Spec.pubkeyFault codec keys v = some e ∧
          account.unmarshalPubkey codec keys a v = .error (e, { a with publicKey := none })) ∧
      (Spec.decodedPubkey codec keys v = none →
        ∃ e, Spec.pubkeyFault codec keys v = some e ∧
          account.unmarshalPubkey codec keys a v = .error (e, a)) := by
  unfold Spec.decodedPubkey Spec.pubkeyFault account.unmarshalPubkey
  cases h1 : lookup v "pubkey" with
  | some val =>
    cases val with
    | string s =>
      cases h2 : codec.hexDecodeString s with
      | error e => simp [h2]
      | ok bytes => cases h3 : keys.BLSPublicKeyFromBytes bytes <;> simp [h2, h3]
    | _ => simp
  | none => simp

/-- The crypto step of the account decoder assigns the descriptor the document
gives, and fails without assigning when the document gives none. -/
theorem account.unmarshalCrypto_decoded (a : account SK PK W) (v : Document) :
    (∀ crypto, Spec.decodedCrypto v = some crypto →
        Spec.cryptoFault v = none ∧
          account.unmarshalCrypto a v = .ok { a with crypto := crypto }) ∧
      (Spec.decodedCrypto v = none →
        ∃ e, Spec.cryptoFault v = some e ∧ account.unmarshalCrypto a v = .error (e, a)) := by
  unfold Spec.decodedCrypto Spec.cryptoFault account.unmarshalCrypto
  cases h1 : lookup v "crypto" with
  | some val => cases val <;> simp
  | none => simp

/-- The version step of the account decoder assigns the version the document
gives, also when it then rejects it as unsupported, and fails without assigning
when the document gives none. -/
theorem account.unmarshalVersion_decoded (codec : Codec) (a : account SK PK W) (v : Document) :
    (∀ n, Spec.decodedVersion codec v = some n →
        (n = 4 → Spec.accountVersionFault codec v = none ∧
          account.unmarshalVersion codec a v = .ok { a with version := n }) ∧
        (n ≠ 4 → Spec.accountVersionFault codec v = some "unsupported keystore version" ∧
          account.unmarshalVersion codec a v =
            .error ("unsupported keystore version", { a with version := n }))) ∧
      (Spec.decodedVersion codec v = none →
        ∃ e, Spec.accountVersionFault codec v = some e ∧
          account.unmarshalVersion codec a v = .error (e, a)) := by
  unfold Spec.decodedVersion Spec.accountVersionFault account.unmarshalVersion
  cases h1 : lookup v "version" with
  | some val =>
    cases val with
    | float64 x => by_cases h2 : uint codec x = 4 <;> simp [h2]
    | _ => simp
  | none => simp

/-- The fields of the receiver after the account decoder, whether it returns an
error or not: a field has the value the document gives when every check before
it passed and the document gives a value, and is as it was otherwise. -/
theorem account.UnmarshalJSON_assigned (codec : Codec) (keys : KeyAlgorithm SK PK Sig)
    (a : account SK PK W) (v : Document) :
    (account.UnmarshalJSON codec keys a (.ok v)).2.id = (Spec.decodedID codec v).getD a.id ∧
    (account.UnmarshalJSON codec keys a (.ok v)).2.name =
      (if Spec.identifierFault codec "account" v = none then (Spec.decodedName v).getD a.name
        else a.name) ∧
    (account.UnmarshalJSON codec keys a (.ok v)).2.publicKey =
      (if Spec.identifierFault codec "account" v = none ∧ Spec.nameFault "account" v = none then
        (Spec.decodedPubkey codec keys v).getD a.publicKey
        else a.publicKey) ∧
    (account.UnmarshalJSON codec keys a (.ok v)).2.crypto =
      (if Spec.identifierFault codec "account" v = none ∧ Spec.nameFault "account" v = none ∧
          Spec.pubkeyFault codec keys v = none then
        (Spec.decodedCrypto v).getD a.crypto
        else a.crypto) ∧
    (account.UnmarshalJSON codec keys a (.ok v)).2.version =
      (if Spec.identifierFault codec "account" v = none ∧ Spec.nameFault "account" v = none ∧
          Spec.pubkeyFault codec keys v = none ∧ Spec.cryptoFault v = none then
        (Spec.decodedVersion codec v).getD a.version
        else a.version) := by
  simp only [account.UnmarshalJSON, account.unmarshalFields, bind, Except.bind]
  cases d1 : Spec.decodedID codec v with
  | none =>
    obtain ⟨e, f1, s1⟩ := (account.unmarshalID_decoded codec a v).2 d1
    simp [s1, f1]
  | some id =>
    obtain ⟨f1, s1⟩ := (account.unmarshalID_decoded codec a v).1 id d1
    simp only [s1, f1]
    cases d2 : Spec.decodedName v with
    | none =>
      obtain ⟨e, f2, s2⟩ := (account.unmarshalName_decoded { a with id := id } v).2 d2
      simp [s2, f2]
    | some name =>
      obtain ⟨f2, s2⟩ := (account.unmarshalName_decoded { a with id := id } v).1 name d2
      simp only [s2, f2]
      cases d3 : Spec.decodedPubkey codec keys v with
      | none =>
        obtain ⟨e, f3, s3⟩ := (account.unmarshalPubkey_decoded codec keys
          { a with id := id, name := name } v).2.2 d3
        simp [s3, f3]
      | some opk =>
        cases opk with
        | none =>
          obtain ⟨e, f3, s3⟩ := (account.unmarshalPubkey_decoded codec keys
            { a with id := id, name := name } v).2.1 d3
          simp [s3, f3]
        | some pk =>
          obtain ⟨f3, s3⟩ := (account.unmarshalPubkey_decoded codec keys
            { a with id := id, name := name } v).1 pk d3
          simp only [s3, f3]
          cases d4 : Spec.decodedCrypto v with
          | none =>
            obtain ⟨e, f4, s4⟩ := (account.unmarshalCrypto_decoded
              { a with id := id, name := name, publicKey := some pk } v).2 d4
            simp [s4, f4]
          | some crypto =>
            obtain ⟨f4, s4⟩ := (account.unmarshalCrypto_decoded
              { a with id := id, name := name, publicKey := some pk } v).1 crypto d4
            simp only [s4, f4]
            cases d5 : Spec.decodedVersion codec v with
            | none =>
              obtain ⟨e, f5, s5⟩ := (account.unmarshalVersion_decoded codec
                { a with id := id, name := name, publicKey := some pk, crypto := crypto } v).2 d5
              simp [s5, f5]
            | some n =>
              by_cases hn : n = 4
              · obtain ⟨f5, s5⟩ := ((account.unmarshalVersion_decoded codec
                  { a with id := id, name := name, publicKey := some pk, crypto := crypto }
                  v).1 n d5).1 hn
                simp only [s5]
                cases h6 : Spec.encryptorFault codec v with
                | some e => simp [(account.unmarshalEncryptor_spec codec _ v).1 e h6]
                | none => simp [(account.unmarshalEncryptor_spec codec _ v).2 h6]
              · obtain ⟨f5, s5⟩ := ((account.unmarshalVersion_decoded codec
                  { a with id := id, name := name, publicKey := some pk, crypto := crypto }
                  v).1 n d5).2 hn
                simp [s5]

/-- The identifier step of the wallet decoder assigns the identifier the document
gives, and fails without assigning when the document gives none. -/
theorem wallet.unmarshalID_gives (codec : Codec) (w : wallet) (v : Document) :
    (∀ id, Spec.decodedID codec v = some id →
        Spec.identifierFault codec "wallet" v = none ∧
          wallet.unmarshalID codec w v = .ok { w with id := id }) ∧
      (Spec.decodedID codec v = none →
        ∃ e, Spec.identifierFault codec "wallet" v = some e ∧
          wallet.unmarshalID codec w v = .error (e, w)) := by
  unfold Spec.decodedID Spec.identifierFault Spec.identifierField wallet.unmarshalID
  cases h1 : lookup v "uuid" with
  | some val =>
    cases val with
    | string s => cases h2 : codec.uuidParse s <;> simp [h2]
    | _ => simp
  | none =>
    cases h3 : lookup v "id" with
    | some val =>
      cases val with
      | string s => cases h2 : codec.uuidParse s <;> simp [h2]
      | _ => simp
    | none => simp

/-- The name step of the wallet decoder assigns the name the document gives, and
fails without assigning when the document gives none. -/
theorem wallet.unmarshalName_gives (w : wallet) (v : Document) :
    (∀ name, Spec.decodedName v = some name →
        Spec.nameFault "wallet" v = none ∧
          wallet.unmarshalName w v = .ok { w with name := name }) ∧
      (Spec.decodedName v = none →
        ∃ e, Spec.nameFault "wallet" v = some e ∧ wallet.unmarshalName w v = .error (e, w)) := by
  unfold Spec.decodedName Spec.nameFault wallet.unmarshalName
  cases h1 : lookup v "name" with
  | some val => cases val <;> simp
  | none => simp

/-- The version step of the wallet decoder assigns the version the document
gives, and fails without assigning when the document gives none. -/
theorem wallet.unmarshalVersion_gives (codec : Codec) (w : wallet) (v : Document) :
    (∀ n, Spec.decodedVersion codec v = some n →
        wallet.unmarshalVersion codec w v = .ok { w with version := n }) ∧
      (Spec.decodedVersion codec v = none →
        ∃ e, wallet.unmarshalVersion codec w v = .error (e, w)) := by
  unfold Spec.decodedVersion wallet.unmarshalVersion
  cases h1 : lookup v "version" with
  | some val => cases val <;> simp
  | none => simp

/-- The fields of the receiver after the wallet decoder, whether it returns an
error or not: a field has the value the document gives when every check before
it passed and the document gives a value, and is as it was otherwise. -/
theorem wallet.UnmarshalJSON_fields (codec : Codec) (w : wallet) (v : Document) :
    (wallet.UnmarshalJSON codec w (.ok v)).2.id =
      (if Spec.typeFault codec v = none then (Spec.decodedID codec v).getD w.id else w.id) ∧
    (wallet.UnmarshalJSON codec w (.ok v)).2.name =
      (if Spec.typeFault codec v = none ∧ Spec.identifierFault codec "wallet" v = none then
        (Spec.decodedName v).getD w.name
        else w.name) ∧
    (wallet.UnmarshalJSON codec w (.ok v)).2.version =
      (if Spec.typeFault codec v = none ∧ Spec.identifierFault codec "wallet" v = none ∧
          Spec.nameFault "wallet" v = none then
        (Spec.decodedVersion codec v).getD w.version
        else w.version) := by
  simp only [wallet.UnmarshalJSON, wallet.unmarshalFields, bind, Except.bind]
  cases h0 : Spec.typeFault codec v with
  | some e => simp [(wallet.unmarshalType_spec codec w v).1 e h0]
  | none =>
    simp only [((wallet.unmarshalType_spec codec w v).2 h0).2]
    cases d1 : Spec.decodedID codec v with
    | none =>
      obtain ⟨e, f1, s1⟩ := (wallet.unmarshalID_gives codec w v).2 d1
      simp [s1, f1]
    | some id =>
      obtain ⟨f1, s1⟩ := (wallet.unmarshalID_gives codec w v).1 id d1
      simp only [s1, f1]
      cases d2 : Spec.decodedName v with
      | none =>
        obtain ⟨e, f2, s2⟩ := (wallet.unmarshalName_gives { w with id := id } v).2 d2
        simp [s2, f2]
      | some name =>
        obtain ⟨f2, s2⟩ := (wallet.unmarshalName_gives { w with id := id } v).1 name d2
        simp only [s2, f2]
        cases d3 : Spec.decodedVersion codec v with
        | none =>
          obtain ⟨e, s3⟩ := (wallet.unmarshalVersion_gives codec
            { w with id := id, name := name } v).2 d3
          simp [s3]
        | some n =>
          simp [(wallet.unmarshalVersion_gives codec { w with id := id, name := name } v).1
            n d3]

/-- C29 (as amended): when the first check fails (the identifier of an account;
the type or the identifier of a wallet) the decoder returns the error and no
field of the receiver has been changed.  When a later check fails, the fields
checked before it have been assigned from the rejected document and the fields
checked after it are as they were: a document with an identifier and a faulty
name is rejected with the receiver's id set to that identifier, and in general
each of id, name, public key, crypto descriptor and version of an account (id,
name and version of a wallet) has the value the document gives when every check
before it passed and the document gives a value, and is as it was otherwise (the
public key is nil when the key algorithm rejects the decoded bytes; the version
of an account is assigned before it is compared with 4).  When the account
decoder returns an error, the encryptor, lock state, secret key and wallet of
the receiver are as they were; when the wallet decoder returns an error, the
version, lock state and encryptor of the receiver are as they were. -/
theorem C29_rejected_document_effects (codec : Codec) (keys : KeyAlgorithm SK PK Sig)
    (a : account SK PK W) (w : wallet) (v : Document) :
    (∀ e, Spec.identifierFault codec "account" v = some e →
        account.UnmarshalJSON codec keys a (.ok v) = (some e, a)) ∧
      (∀ id e, Spec.decodedID codec v = some id → Spec.nameFault "account" v = some e →
        account.UnmarshalJSON codec keys a (.ok v) = (some e, { a with id := id })) ∧
      ((account.UnmarshalJSON codec keys a (.ok v)).2.id =
          (Spec.decodedID codec v).getD a.id ∧
        (account.UnmarshalJSON codec keys a (.ok v)).2.name =
          (if Spec.identifierFault codec "account" v = none then
            (Spec.decodedName v).getD a.name
            else a.name) ∧
        (account.UnmarshalJSON codec keys a (.ok v)).2.publicKey =
          (if Spec.identifierFault codec "account" v = none ∧
              Spec.nameFault "account" v = none then
            (Spec.decodedPubkey codec keys v).getD a.publicKey
            else a.publicKey) ∧
        (account.UnmarshalJSON codec keys a (.ok v)).2.crypto =
          (if Spec.identifierFault codec "account" v = none ∧
              Spec.nameFault "account" v = none ∧ Spec.pubkeyFault codec keys v = none then
            (Spec.decodedCrypto v).getD a.crypto
            else a.crypto) ∧
        (account.UnmarshalJSON codec keys a (.ok v)).2.version =
          (if Spec.identifierFault codec "account" v = none ∧
              Spec.nameFault "account" v = none ∧ Spec.pubkeyFault codec keys v = none ∧
              Spec.cryptoFault v = none then
            (Spec.decodedVersion codec v).getD a.version
            else a.version)) ∧
      ((account.UnmarshalJSON codec keys a (.ok v)).1 ≠ none →
        (account.UnmarshalJSON codec keys a (.ok v)).2.encryptor = a.encryptor ∧
          (account.UnmarshalJSON codec keys a (.ok v)).2.unlocked = a.unlocked ∧
          (account.UnmarshalJSON codec keys a (.ok v)).2.secretKey = a.secretKey ∧
          (account.UnmarshalJSON codec keys a (.ok v)).2.wallet = a.wallet) ∧
      (∀ e, Spec.typeFault codec v = some e →
        wallet.UnmarshalJSON codec w (.ok v) = (some e, w)) ∧
      (Spec.typeFault codec v = none → ∀ e, Spec.identifierFault codec "wallet" v = some e →
        wallet.UnmarshalJSON codec w (.ok v) = (some e, w)) ∧
      (Spec.typeFault codec v = none → ∀ id e, Spec.decodedID codec v = some id →
        Spec.nameFault "wallet" v = some e →
        wallet.UnmarshalJSON codec w (.ok v) = (some e, { w with id := id })) ∧
      ((wallet.UnmarshalJSON codec w (.ok v)).2.id =
          (if Spec.typeFault codec v = none then (Spec.decodedID codec v).getD w.id
            else w.id) ∧
        (wallet.UnmarshalJSON codec w (.ok v)).2.name =
          (if Spec.typeFault codec v = none ∧ Spec.identifierFault codec "wallet" v = none then
            (Spec.decodedName v).getD w.name
            else w.name)) ∧
      ((wallet.UnmarshalJSON codec w (.ok v)).1 ≠ none →
        (wallet.UnmarshalJSON codec w (.ok v)).2.version = w.version ∧
          (wallet.UnmarshalJSON codec w (.ok v)).2.unlocked = w.unlocked ∧
          (wallet.UnmarshalJSON codec w (.ok v)).2.encryptor = w.encryptor) := by
  obtain ⟨w1, w2, w3⟩ := wallet.UnmarshalJSON_rejected codec w v
  obtain ⟨f1, f2, f3, f4⟩ := account.UnmarshalJSON_framed codec keys a (.ok v)
  obtain ⟨g1, g2, _⟩ := wallet.UnmarshalJSON_fields codec w v
  refine ⟨fun e h => ?_, fun id e hid h => ?_, account.UnmarshalJSON_assigned codec keys a v,
    fun hne => ⟨f4 hne, f1, f2, f3⟩, w1, w2, fun h0 id e hid h => ?_, ⟨g1, g2⟩, w3⟩
  · simp [account.UnmarshalJSON, account.unmarshalFields, bind, Except.bind,
      (account.unmarshalID_spec codec a v).1 e h]
  · simp [account.UnmarshalJSON, account.unmarshalFields, bind, Except.bind,
      ((account.unmarshalID_decoded codec a v).1 id hid).2,
      (account.unmarshalName_spec { a with id := id } v).1 e h]
  · simp [wallet.UnmarshalJSON, wallet.unmarshalFields, bind, Except.bind,
      ((wallet.unmarshalType_spec codec w v).2 h0).2,
      ((wallet.unmarshalID_gives codec w v).1 id hid).2,
      (wallet.unmarshalName_nameFault { w with id := id } v).1 e h]

/-- C30: the wallet lock gate of the specification is a two-state machine: a new
wallet is locked; `Unlock` returns no error for every passphrase, the nil one
included, and leaves the wallet unlocked, also when it was unlocked; `Lock`
returns no error and leaves the wallet locked, also when it was locked;
`IsUnlocked` reports the lock state with no error; and after any sequence of
calls the lock state is the one set by the last call, the other fields being as
they were. -/
theorem C30_wallet_lock_gate (w : wallet) (passphrase : Option Bytes) (ops : List WalletOp) :
    wallet.IsUnlocked newWallet = (false, none) ∧
      wallet.IsUnlocked w = (w.unlocked, none) ∧
      (wallet.Unlock w passphrase).1 = none ∧
      wallet.IsUnlocked (wallet.Unlock w passphrase).2 = (true, none) ∧
      wallet.Unlock (wallet.Unlock w passphrase).2 passphrase = wallet.Unlock w passphrase ∧
      (wallet.Lock w).1 = none ∧
      wallet.IsUnlocked (wallet.Lock w).2 = (false, none) ∧
      wallet.Lock (wallet.Lock w).2 = wallet.Lock w ∧
      wallet.IsUnlocked (wallet.run w (ops ++ [.Unlock passphrase])) = (true, none) ∧
      wallet.IsUnlocked (wallet.run w (ops ++ [.Lock])) = (false, none) ∧
      (wallet.run w ops).id = w.id ∧ (wallet.run w ops).name = w.name ∧
      (wallet.run w ops).version = w.version := by
  have hrun : ∀ (ops : List WalletOp) (w : wallet),
      (wallet.run w ops).id = w.id ∧ (wallet.run w ops).name = w.name ∧
        (wallet.run w ops).version = w.version := by
    intro ops
    induction ops with
    | nil => intro w; exact ⟨rfl, rfl, rfl⟩
    | cons op ops ih =>
      intro w
      obtain ⟨h1, h2, h3⟩ := ih (wallet.step w op)
      cases op <;> exact ⟨h1, h2, h3⟩
  refine ⟨rfl, rfl, rfl, rfl, rfl, rfl, rfl, rfl, ?_, ?_, hrun ops w⟩
  · simp [wallet.run, List.foldl_append, wallet.step, wallet.Unlock, wallet.IsUnlocked]
  · simp [wallet.run, List.foldl_append, wallet.step, wallet.Lock, wallet.IsUnlocked]

/-! ### Claims about the round trip, the two identifier keys and the cached key -/

/-- C35: for an account with a public key, an individual crypto descriptor,
version 4 and an encryptor of the keystore-v4 scheme, unmarshalling the output
of `MarshalJSON` into a fresh account returns no error and reproduces id, name,
publicKey, crypto and version, and `MarshalJSON` of the decoded account gives
the same record as the first `MarshalJSON`.  The hypotheses on the libraries are
those of the round trip: the identifier, the public key bytes and the public key
are read back from what was written, the number 4 is read back as 4, and the
keystore-v4 encryptor calls itself "keystorev4". -/
theorem C35_round_trip_then_marshal_again (codec : Codec) (keys : KeyAlgorithm SK PK Sig)
    (a : account SK PK W) (pk : PK) (crypto : CryptoMap) (enc : Encryptor)
    (hpk : a.publicKey = some pk) (hcrypto : a.crypto = some crypto)
    (hversion : a.version = 4) (henc : a.encryptor = some enc)
    (hscheme : enc.toString = "keystorev4")
    (huuid : codec.uuidParse (codec.uuidString a.id) = .ok a.id)
    (hhex : codec.hexDecodeString (codec.hexEncode (keys.Marshal pk)) = .ok (keys.Marshal pk))
    (hkey : keys.BLSPublicKeyFromBytes (keys.Marshal pk) = .ok pk)
    (hfour : uint codec (codec.float64OfUint 4) = 4)
    (hname : codec.keystorev4New.toString = "keystorev4") :
    ∃ b, account.reloaded codec keys a = some (none, b) ∧
      b.id = a.id ∧ b.name = a.name ∧ b.publicKey = a.publicKey ∧ b.crypto = a.crypto ∧
      b.version = a.version ∧
      account.MarshalJSON codec keys b = account.MarshalJSON codec keys a := by
  rcases a with ⟨id, name, pk0, cr, unlocked, sk, ver, w, enc0⟩
  simp only at hpk hcrypto hversion henc huuid
  subst hpk hcrypto hversion henc
  simp [account.reloaded, account.MarshalJSON, reload, jsonRoundTrip, account.UnmarshalJSON,
    account.unmarshalFields, account.unmarshalID, account.unmarshalName,
    account.unmarshalPubkey, account.unmarshalCrypto, account.unmarshalVersion,
    account.unmarshalEncryptor, lookup, bind, Except.bind, huuid, hhex, hkey, hfour, hname,
    hscheme, newAccount]

/-- Witness for C35: the demo account after a successful `Unlock`. -/
theorem C35_round_trip_then_marshal_again_witness :
    ∃ b, account.reloaded Demo.codec Demo.keys Demo.opened = some (none, b) ∧
      b.id = Demo.opened.id ∧ b.name = Demo.opened.name ∧
      b.publicKey = Demo.opened.publicKey ∧ b.crypto = Demo.opened.crypto ∧
      b.version = Demo.opened.version ∧
      account.MarshalJSON Demo.codec Demo.keys b =
        account.MarshalJSON Demo.codec Demo.keys Demo.opened :=
  C35_round_trip_then_marshal_again Demo.codec Demo.keys Demo.opened [11, 21] Demo.crypto
    Demo.encryptor rfl rfl rfl rfl rfl rfl rfl rfl rfl rfl

/-- Removing the entries of key `id` does not change the entry of another key. -/
theorem lookup_removeID (v : Document) (key : String) (h : key ≠ "id") :
    lookup (removeID v) key = lookup v key := by
  induction v with
  | nil => rfl
  | cons kv rest ih =>
    obtain ⟨k, val⟩ := kv
    have ih1 : lookup (List.filter (fun kv => !decide (kv.1 = "id")) rest) key =
        lookup rest key := by simpa [removeID] using ih
    by_cases hid : k = "id"
    · have hk : ¬ ("id" = key) := fun h1 => h h1.symm
      simp [removeID, lookup, hid, hk, ih1]
    · simp [removeID, lookup, hid, ih1]

/-- C36: on a document that has a `uuid` entry, the account decoder and the
wallet decoder give the same result (the error and the decoded entity) as on the
document with its `id` entries removed: `id` is not consulted. -/
theorem C36_uuid_shadows_id (codec : Codec) (keys : KeyAlgorithm SK PK Sig)
    (a : account SK PK W) (w : wallet) (v : Document) (val : any)
    (huuid : lookup v "uuid" = some val) :
    account.UnmarshalJSON codec keys a (.ok v) =
        account.UnmarshalJSON codec keys a (.ok (removeID v)) ∧
      wallet.UnmarshalJSON codec w (.ok v) =
        wallet.UnmarshalJSON codec w (.ok (removeID v)) := by
  have h1 : lookup (removeID v) "uuid" = some val := by
    rw [lookup_removeID v "uuid" (by decide)]; exact huuid
  have hname := lookup_removeID v "name" (by decide)
  have hpubkey := lookup_removeID v "pubkey" (by decide)
  have hcrypto := lookup_removeID v "crypto" (by decide)
  have hversion := lookup_removeID v "version" (by decide)
  have henc := lookup_removeID v "encryptor" (by decide)
  have htype := lookup_removeID v "type" (by decide)
  have haid : ∀ b : account SK PK W,
      account.unmarshalID codec b (removeID v) = account.unmarshalID codec b v := by
    intro b
    simp only [account.unmarshalID, h1, huuid]
  have hwid : ∀ b : wallet,
      wallet.unmarshalID codec b (removeID v) = wallet.unmarshalID codec b v := by
    intro b
    simp only [wallet.unmarshalID, h1, huuid]
  constructor
  · simp only [account.UnmarshalJSON, account.unmarshalFields, haid, account.unmarshalName,
      account.unmarshalPubkey, account.unmarshalCrypto, account.unmarshalVersion,
      account.unmarshalEncryptor, hname, hpubkey, hcrypto, hversion, henc]
  · simp only [wallet.UnmarshalJSON, wallet.unmarshalFields, hwid, wallet.unmarshalType,
      wallet.unmarshalName, wallet.unmarshalVersion, hname, hversion, htype]

/-- Witness for C36: a record with a well-formed `uuid` and a malformed `id`;
both decoders accept it. -/
theorem C36_uuid_shadows_id_witness :
    (account.UnmarshalJSON Demo.codec Demo.keys (newAccount : account Bytes Bytes Unit)
          (.ok Demo.twoKeysDocument) =
        account.UnmarshalJSON Demo.codec Demo.keys newAccount
          (.ok (removeID Demo.twoKeysDocument)) ∧
      wallet.UnmarshalJSON Demo.codec newWallet (.ok Demo.twoKeysDocument) =
        wallet.UnmarshalJSON Demo.codec newWallet (.ok (removeID Demo.twoKeysDocument))) ∧
      (account.UnmarshalJSON Demo.codec Demo.keys (newAccount : account Bytes Bytes Unit)
          (.ok Demo.twoKeysDocument)).1 = none ∧
      (wallet.UnmarshalJSON Demo.codec newWallet (.ok Demo.twoKeysDocument)).1 = none :=
  ⟨C36_uuid_shadows_id Demo.codec Demo.keys newAccount newWallet Demo.twoKeysDocument
    (.string "c9958061") rfl, rfl, rfl⟩

/-- C37: an account that `deserializeAccount` returns has the keystore-v4
encryptor, set by the encryptor step of the decoder for a record whose
`encryptor` entry is absent or names the keystore scheme, whatever the encryptor
of the wallet: the same record gives the same result for a wallet with any other
encryptor. -/
theorem C37_deserialized_encryptor_is_keystore (codec : Codec)
    (keys : KeyAlgorithm SK PK Sig) (w : wallet) (data : JSONData)
    (a : account SK PK wallet)
    (hok : deserializeAccount codec keys w data = (some a, none)) :
    a.encryptor = some codec.keystorev4New ∧
      (∃ v, data = .valid (.ok v) ∧ Spec.encryptorFault codec v = none) ∧
      ∀ other : Option Encryptor,
        ∃ b, deserializeAccount codec keys { w with encryptor := other } data = (some b, none) ∧
          b.encryptor = some codec.keystorev4New := by
  cases data with
  | invalid err => simp [deserializeAccount] at hok
  | valid parsed =>
    cases parsed with
    | error err => simp [deserializeAccount, account.UnmarshalJSON] at hok
    | ok v =>
      have hnone : ∀ b : account SK PK wallet,
          (account.UnmarshalJSON codec keys b (.ok v)).1 = none := by
        intro b
        rw [account.UnmarshalJSON_error]
        have h0 : (account.UnmarshalJSON codec keys
            { (newAccount : account SK PK wallet) with
              wallet := some w, encryptor := w.encryptor } (.ok v)).1 = none := by
          simp only [deserializeAccount] at hok
          generalize account.UnmarshalJSON codec keys _ (.ok v) = r at hok
          obtain ⟨e, c⟩ := r
          cases e with
          | some err => simp at hok
          | none => rfl
        rw [account.UnmarshalJSON_error] at h0
        exact h0
      have hstate : ∀ b : account SK PK wallet,
          (account.UnmarshalJSON codec keys b (.ok v)).2.encryptor = some codec.keystorev4New ∧
            Spec.encryptorFault codec v = none := by
        intro b
        obtain ⟨_, _, _, _, _, _, _, _, _, _, _, _, _, _, _, _, _, hf, hb⟩ :=
          account.UnmarshalJSON_ok codec keys b v (hnone b)
        exact ⟨by rw [hb], hf⟩
      have hdes : ∀ w1 : wallet, ∃ b,
          deserializeAccount codec keys w1 (.valid (.ok v)) = (some b, none) ∧
            b.encryptor = some codec.keystorev4New := by
        intro w1
        have h1 := hnone { (newAccount : account SK PK wallet) with
          wallet := some w1, encryptor := w1.encryptor }
        have h2 := (hstate { (newAccount : account SK PK wallet) with
          wallet := some w1, encryptor := w1.encryptor }).1
        simp only [deserializeAccount]
        generalize account.UnmarshalJSON codec keys _ (.ok v) = r at h1 h2
        obtain ⟨e, c⟩ := r
        simp only at h1 h2
        subst h1
        exact ⟨c, rfl, h2⟩
      obtain ⟨b, hb1, hb2⟩ := hdes w
      rw [hok] at hb1
      simp only [Prod.mk.injEq, Option.some.injEq, and_true] at hb1
      subst hb1
      exact ⟨hb2, ⟨v, rfl, (hstate newAccount).2⟩, fun other => hdes _⟩

/-- Witness for C37: the record of the demo account loaded for a wallet that is
configured with an encryptor of another scheme. -/
theorem C37_deserialized_encryptor_is_keystore_witness :
    (deserializeAccount Demo.codec Demo.keys Demo.foreignWallet
        (.valid (.ok Demo.document))).1.map (·.encryptor) =
      some (some Demo.codec.keystorev4New) ∧
      Demo.foreignWallet.encryptor = some Demo.otherEncryptor :=
  ⟨by
    have h := (C37_deserialized_encryptor_is_keystore Demo.codec Demo.keys Demo.foreignWallet
      (.valid (.ok Demo.document))
      { Demo.owned with wallet := some Demo.foreignWallet } rfl).1
    exact congrArg (fun e => some e) h, rfl⟩

/-- C38: after a successful `Unlock` (on an account that holds a key whenever it
is unlocked) and a `Lock`, the account is LOCKED and holds a secret key; then,
for every passphrase, `Unlock` returns no error without any call to the
encryptor or to the wallet, whatever the stored public key is, and `Sign`
returns the signature of the held key. -/
theorem C38_cached_key_unlocks_with_any_passphrase (env : Env SK PK Sig W)
    (a : account SK PK W) (p : Bytes)
    (hheld : a.unlocked = true → a.secretKey.isSome = true)
    (hok : (Unlock env a p).completion = .returned none) :
    ∃ sk, (Lock (Unlock env a p).account).2.unlocked = false ∧
      (Lock (Unlock env a p).account).2.secretKey = some sk ∧
      ∀ (q : Bytes) (pk : Option PK),
        (Unlock env { (Lock (Unlock env a p).account).2 with publicKey := pk } q).completion =
            .returned none ∧
          (Unlock env { (Lock (Unlock env a p).account).2 with publicKey := pk } q).calls = [] ∧
          ∀ m, Sign env
              (Unlock env { (Lock (Unlock env a p).account).2 with publicKey := pk } q).account
              m = (some (env.keys.Sign sk m), none) := by
  have hkey : ∃ sk, (Unlock env a p).account.secretKey = some sk := by
    by_cases hu : a.unlocked = true
    · have h1 := hheld hu
      cases hs : a.secretKey with
      | none => rw [hs] at h1; cases h1
      | some sk => exact ⟨sk, by simp [Unlock, hu, hs]⟩
    · have hu1 : a.unlocked = false := by simpa using hu
      cases hs : a.secretKey with
      | some sk => exact ⟨sk, by simp [Unlock, hu1, hs]⟩
      | none =>
        have hc : Consistent env a :=
          ⟨fun h => absurd h hu, fun sk h => by rw [hs] at h; cases h⟩
        obtain ⟨_, sk, pk, h1, _, _⟩ := Unlock_returned_none env a p hc hok
        exact ⟨sk, h1⟩
  obtain ⟨sk, hsk⟩ := hkey
  refine ⟨sk, rfl, hsk, fun q pk => ?_⟩
  generalize (Unlock env a p).account = b at hsk
  simp [Unlock, Lock, hsk, Sign, IsUnlocked]

/-- Witness for C38: the demo account unlocked with `[1]` and locked. -/
theorem C38_cached_key_unlocks_with_any_passphrase_witness :
    ∃ sk, (Lock (Unlock Demo.env Demo.loaded [1]).account).2.unlocked = false ∧
      (Lock (Unlock Demo.env Demo.loaded [1]).account).2.secretKey = some sk ∧
      ∀ (q : Bytes) (pk : Option Bytes),
        (Unlock Demo.env { (Lock (Unlock Demo.env Demo.loaded [1]).account).2 with
            publicKey := pk } q).completion = .returned none ∧
          (Unlock Demo.env { (Lock (Unlock Demo.env Demo.loaded [1]).account).2 with
            publicKey := pk } q).calls = [] ∧
          ∀ m, Sign Demo.env
              (Unlock Demo.env { (Lock (Unlock Demo.env Demo.loaded [1]).account).2 with
                publicKey := pk } q).account m = (some (Demo.env.keys.Sign sk m), none) :=
  C38_cached_key_unlocks_with_any_passphrase Demo.env Demo.loaded [1]
    (fun h => (by cases h)) rfl

/-! ### Claims about account creation in the wallet of the specification -/

/-- C31: on a locked wallet, `CreateAccount` and `ImportAccount` fail with the
wallet-locked condition for every account name, key and passphrase, whatever the
name and the key are; they return no account and leave the wallet, with its
accounts and its index, as it was. -/
theorem C31_locked_wallet_creates_no_account (caps : Spec.Capabilities SK PK Sig)
    (v : Spec.Wallet SK PK) (hlocked : v.unlocked = false) (name : String)
    (key passphrase : Bytes) (sk : SK) (id : UUID) :
    Spec.CreateAccount caps v name passphrase sk id = (none, some Spec.walletLocked, v) ∧
    Spec.ImportAccount caps v name key passphrase id = (none, some Spec.walletLocked, v) := by
  simp [Spec.CreateAccount, Spec.ImportAccount, Spec.rejection, hlocked]

/-- The locked demo wallet refuses the name "attempt" with a valid key, for
creation and for import, and the same calls succeed once the wallet is
unlocked. -/
theorem C31_locked_wallet_creates_no_account_witness :
    Demo.lockedVault.unlocked = false ∧
    (Spec.CreateAccount Demo.caps Demo.lockedVault "attempt" [116] [10, 20] [1, 1, 1, 1]
        = (none, some Spec.walletLocked, Demo.lockedVault) ∧
      Spec.ImportAccount Demo.caps Demo.lockedVault "attempt" [10, 20] [116] [1, 1, 1, 1]
        = (none, some Spec.walletLocked, Demo.lockedVault)) ∧
    (Spec.CreateAccount Demo.caps Demo.vault "attempt" [116] [10, 20] [1, 1, 1, 1]).2.1 = none ∧
    (Spec.ImportAccount Demo.caps Demo.vault "attempt" [10, 20] [116] [1, 1, 1, 1]).2.1 = none :=
  ⟨rfl, C31_locked_wallet_creates_no_account Demo.caps Demo.lockedVault rfl "attempt"
    [10, 20] [116] [10, 20] [1, 1, 1, 1], rfl, rfl⟩

/-- C32: on an unlocked wallet, `CreateAccount` and `ImportAccount` reject the
empty name with "account name missing", a name with a reserved leading character
with the invalid-account-name error that quotes it, and an otherwise valid name
that is in the index with the already-exists error that quotes it; every call
that returns an error returns no account and leaves the wallet, with its accounts
and its index, as it was; and a call that returns no error returns an account
with exactly the requested name, which is appended to the accounts and, with its
identifier, to the index. -/
theorem C32_name_validation_of_creation (caps : Spec.Capabilities SK PK Sig)
    (v : Spec.Wallet SK PK) (hunlocked : v.unlocked = true) (name : String)
    (key passphrase : Bytes) (sk : SK) (id : UUID) :
    (name = "" →
      Spec.CreateAccount caps v name passphrase sk id
          = (none, some "account name missing", v) ∧
        Spec.ImportAccount caps v name key passphrase id
          = (none, some "account name missing", v)) ∧
    (name.data.head?.map caps.reserved = some true →
      Spec.CreateAccount caps v name passphrase sk id
          = (none, some ("invalid account name " ++ caps.quote name), v) ∧
        Spec.ImportAccount caps v name key passphrase id
          = (none, some ("invalid account name " ++ caps.quote name), v)) ∧
    (name ≠ "" → name.data.head?.map caps.reserved ≠ some true →
      (v.index.lookup name).isSome = true →
      Spec.CreateAccount caps v name passphrase sk id
          = (none, some ("account with name " ++ caps.quote name ++ " already exists"), v) ∧
        Spec.ImportAccount caps v name key passphrase id
          = (none, some ("account with name " ++ caps.quote name ++ " already exists"), v)) ∧
    (∀ r, r = Spec.CreateAccount caps v name passphrase sk id ∨
        r = Spec.ImportAccount caps v name key passphrase id →
      (∀ err, r.2.1 = some err → r.1 = none ∧ r.2.2 = v) ∧
      (r.2.1 = none → ∃ a, r.1 = some a ∧ a.name = name ∧ a.id = id ∧
        r.2.2.accounts = v.accounts ++ [a] ∧ r.2.2.index = v.index ++ [(name, id)] ∧
        (v.index.lookup name).isSome = false)) := by
  refine ⟨?_, ?_, ?_, ?_⟩
  · intro h
    simp [Spec.CreateAccount, Spec.ImportAccount, Spec.rejection, hunlocked, h]
  · intro h
    have h0 : name ≠ "" := by
      intro h0
      rw [h0] at h
      simp at h
    simp [Spec.CreateAccount, Spec.ImportAccount, Spec.rejection, hunlocked, h, h0]
  · intro h0 hres hin
    simp [Spec.CreateAccount, Spec.ImportAccount, Spec.rejection, hunlocked, hres, h0, hin]
  · intro r hr
    rcases hr with hr | hr
    · subst hr
      simp only [Spec.CreateAccount]
      cases hrej : Spec.rejection caps v name with
      | some e => simp
      | none =>
        have hnot : (v.index.lookup name).isSome = false := by
          cases hl : (List.lookup name v.index).isSome with
          | false => rfl
          | true =>
            simp only [Spec.rejection, hunlocked, hl] at hrej
            split_ifs at hrej
        simp only [Spec.register]
        cases hstore : caps.store _ with
        | some e => simp
        | none => simp [hnot, Spec.created]
    · subst hr
      simp only [Spec.ImportAccount]
      cases hrej : Spec.rejection caps v name with
      | some e => simp
      | none =>
        have hnot : (v.index.lookup name).isSome = false := by
          cases hl : (List.lookup name v.index).isSome with
          | false => rfl
          | true =>
            simp only [Spec.rejection, hunlocked, hl] at hrej
            split_ifs at hrej
        cases hkey : caps.keys.BLSPrivateKeyFromBytes key with
        | error e => simp
        | ok sk1 =>
          simp only [Spec.register]
          cases hstore : caps.store _ with
          | some e => simp
          | none => simp [hnot, Spec.created]

/-- The unlocked demo wallet that holds the account "test" rejects the empty
name, the name "_bad" and a second "test", each with its error and without a
change, and creates "other". -/
theorem C32_name_validation_of_creation_witness :
    Demo.vaultWithTest.unlocked = true ∧
    Spec.CreateAccount Demo.caps Demo.vaultWithTest "" [116] [30, 40] [2, 2, 2, 2]
      = (none, some "account name missing", Demo.vaultWithTest) ∧
    Spec.CreateAccount Demo.caps Demo.vaultWithTest "_bad" [116] [30, 40] [2, 2, 2, 2]
      = (none, some ("invalid account name " ++ Demo.codec.quote "_bad"), Demo.vaultWithTest) ∧
    Spec.ImportAccount Demo.caps Demo.vaultWithTest "test" [30, 40] [116] [2, 2, 2, 2]
      = (none, some ("account with name " ++ Demo.codec.quote "test" ++ " already exists"),
          Demo.vaultWithTest) ∧
    (∃ a, (Spec.CreateAccount Demo.caps Demo.vaultWithTest "other" [116] [30, 40]
          [2, 2, 2, 2]).1 = some a ∧
      a.name = "other" ∧ a.id = [2, 2, 2, 2] ∧
      (Spec.CreateAccount Demo.caps Demo.vaultWithTest "other" [116] [30, 40]
          [2, 2, 2, 2]).2.2.accounts = Demo.vaultWithTest.accounts ++ [a] ∧
      (Spec.CreateAccount Demo.caps Demo.vaultWithTest "other" [116] [30, 40]
          [2, 2, 2, 2]).2.2.index = Demo.vaultWithTest.index ++ [("other", [2, 2, 2, 2])] ∧
      (Demo.vaultWithTest.index.lookup "other").isSome = false) :=
  ⟨rfl,
    ((C32_name_validation_of_creation Demo.caps Demo.vaultWithTest rfl "" [30, 40] [116]
      [30, 40] [2, 2, 2, 2]).1 rfl).1,
    ((C32_name_validation_of_creation Demo.caps Demo.vaultWithTest rfl "_bad" [30, 40] [116]
      [30, 40] [2, 2, 2, 2]).2.1 rfl).1,
    ((C32_name_validation_of_creation Demo.caps Demo.vaultWithTest rfl "test" [30, 40] [116]
      [30, 40] [2, 2, 2, 2]).2.2.1 (by decide) (by decide) rfl).2,
    ((C32_name_validation_of_creation Demo.caps Demo.vaultWithTest rfl "other" [30, 40] [116]
      [30, 40] [2, 2, 2, 2]).2.2.2 _ (Or.inl rfl)).2 rfl⟩

/-! ### Batch re-keying in the wallet of the specification -/

/-- A locked account without secret whose crypto descriptor is the encryption of
the key `sk` with `p`, and whose public key is that of `sk`, opens with `p` and
with no other passphrase. -/
theorem Spec.opensWith_individual (caps : Spec.Capabilities SK PK Sig) (hcaps : caps.Sound)
    (a : account SK PK Spec.Owner) (sk : SK) (p : Bytes)
    (hkey : caps.keys.BLSPrivateKeyFromBytes (caps.secretBytes sk) = .ok sk)
    (hlocked : a.unlocked = false) (hsecret : a.secretKey = none)
    (hcrypto : a.crypto = some (caps.encrypt (caps.secretBytes sk) p))
    (henc : a.encryptor = some caps.encryptor)
    (hpk : a.publicKey = some (caps.keys.PublicKey sk)) :
    Spec.OpensWith caps a p sk := by
  refine ⟨hlocked, hsecret, ?_, ?_, ?_⟩
  · simp [Unlock, hlocked, hsecret, hcrypto, henc, hcaps.opens, Spec.env, hkey, ensureKey, hpk]
  · simp [Unlock, hlocked, hsecret, hcrypto, henc, hcaps.opens, Spec.env, hkey, ensureKey, hpk]
  · intro q hq
    obtain ⟨e, he⟩ := hcaps.shuts (caps.secretBytes sk) p q hq
    simp [Unlock, hlocked, hsecret, hcrypto, henc, he]

/-- A locked account without secret and without crypto descriptor, whose wallet
has the batch of `entries` encrypted with `p`, where the entry of the account is
the key `sk`, and whose public key is that of `sk`, opens with `p` and with no
other passphrase. -/
theorem Spec.opensWith_batch (caps : Spec.Capabilities SK PK Sig) (hcaps : caps.Sound)
    (a : account SK PK Spec.Owner) (sk : SK) (p : Bytes) (entries : List (UUID × Bytes))
    (hkey : caps.keys.BLSPrivateKeyFromBytes (caps.secretBytes sk) = .ok sk)
    (hlocked : a.unlocked = false) (hsecret : a.secretKey = none)
    (hcrypto : a.crypto = none)
    (hwallet : a.wallet = some ⟨some (caps.encryptBatch entries p)⟩)
    (hentry : entries.lookup a.id = some (caps.secretBytes sk))
    (hpk : a.publicKey = some (caps.keys.PublicKey sk)) :
    Spec.OpensWith caps a p sk := by
  refine ⟨hlocked, hsecret, ?_, ?_, ?_⟩
  · simp [Unlock, hlocked, hsecret, hcrypto, hwallet, Spec.env, Spec.batchDecrypt,
      hcaps.opensBatch, hentry, hkey, ensureKey, hpk]
  · simp [Unlock, hlocked, hsecret, hcrypto, hwallet, Spec.env, Spec.batchDecrypt,
      hcaps.opensBatch, hentry, hkey, ensureKey, hpk]
  · intro q hq
    obtain ⟨e, he⟩ := hcaps.shutsBatch entries p q hq
    simp [Unlock, hlocked, hsecret, hcrypto, hwallet, Spec.env, Spec.batchDecrypt, he]

/-- An account that opens with `p` and with no other passphrase is unlocked by a
list of passphrases exactly when `p` is in the list. -/
theorem Spec.unlockWithAny_opensWith (caps : Spec.Capabilities SK PK Sig)
    (a : account SK PK Spec.Owner) (p : Bytes) (sk : SK) (h : Spec.OpensWith caps a p sk)
    (ps : List Bytes) :
    Spec.unlockWithAny caps a ps =
      if p ∈ ps then some { a with secretKey := some sk, unlocked := true } else none := by
  obtain ⟨_, _, hok, hacc, hother⟩ := h
  induction ps with
  | nil => simp [Spec.unlockWithAny]
  | cons q rest ih =>
    by_cases hq : q = p
    · subst hq
      simp [Spec.unlockWithAny, hok, hacc]
    · obtain ⟨⟨e, he⟩, hsame⟩ := hother q hq
      have hne : ¬ p = q := fun h => hq h.symm
      simp [Spec.unlockWithAny, he, hsame, ih, hne]

/-- The stand-in cipher reads back the bytes it wrote. -/
theorem Demo.anyBytes_bytesAny (bs : Bytes) : Demo.anyBytes (Demo.bytesAny bs) = bs := by
  induction bs with
  | nil => rfl
  | cons b rest ih =>
    simp only [Demo.anyBytes, Demo.bytesAny, List.map_cons] at ih ⊢
    rw [ih]
    simp [Demo.anyNat]

/-- The stand-in cipher reads back the batch entries it wrote. -/
theorem Demo.anyEntry_entryAny (entries : List (UUID × Bytes)) :
    (entries.map Demo.entryAny).map Demo.anyEntry = entries := by
  induction entries with
  | nil => rfl
  | cons e rest ih =>
    simp only [List.map_cons, ih]
    simp [Demo.entryAny, Demo.anyEntry, Demo.anyBytes_bytesAny]

/-- The capabilities of the demo wallets are sound. -/
theorem Demo.caps_sound : Demo.caps.Sound where
  opens := by
    intro s p
    simp [Demo.caps, Demo.cipher, Demo.encipher, lookup, Demo.anyBytes_bytesAny]
  shuts := by
    intro s p q hq
    have hne : ¬ p = q := fun h => hq h.symm
    exact ⟨"invalid checksum", by
      simp [Demo.caps, Demo.cipher, Demo.encipher, lookup, Demo.anyBytes_bytesAny, hne]⟩
  opensBatch := by
    intro entries p
    have h := Demo.anyEntry_entryAny entries
    simp only [List.map_map] at h
    simp [Demo.caps, Demo.decipherBatch, Demo.encipherBatch, lookup, Demo.anyBytes_bytesAny, h]
  shutsBatch := by
    intro entries p q hq
    have hne : ¬ p = q := fun h => hq h.symm
    exact ⟨"invalid checksum", by
      simp [Demo.caps, Demo.decipherBatch, Demo.encipherBatch, lookup, Demo.anyBytes_bytesAny,
        hne]⟩
  stores := fun _ => rfl

/-- The batch scenario: the wallet after the creation of A and B holds the two
accounts, each with its own crypto descriptor, and their index entries. -/
theorem Spec.Scenario.created_eq (s : Spec.Scenario SK) (caps : Spec.Capabilities SK PK Sig)
    (hcaps : caps.Sound) (w : wallet) (hunlocked : w.unlocked = true)
    (hnames : ∀ n ∈ [s.nameA, s.nameB, s.nameC],
      n ≠ "" ∧ n.data.head?.map caps.reserved ≠ some true)
    (hdistinct : s.nameA ≠ s.nameB ∧ s.nameA ≠ s.nameC ∧ s.nameB ≠ s.nameC) :
    s.created caps w =
      { towallet := w,
        accounts := [Spec.created caps none s.nameA s.p1 s.skA s.idA,
          Spec.created caps none s.nameB s.p1 s.skB s.idB],
        index := [(s.nameA, s.idA), (s.nameB, s.idB)], batch := none } := by
  have hA := hnames s.nameA (by simp)
  have hB := hnames s.nameB (by simp)
  have hne : (s.nameB == s.nameA) = false := by
    simpa using fun h => hdistinct.1 h.symm
  simp [Spec.Scenario.created, Spec.CreateAccount, Spec.rejection, Spec.emptyWallet,
    hunlocked, hA.1, hA.2, hB.1, hB.2, Spec.register, hcaps.stores, List.lookup, hne]

/-- A created account opens with the passphrase it was created with and with no
other. -/
theorem Spec.created_opensWith (caps : Spec.Capabilities SK PK Sig) (hcaps : caps.Sound)
    (batch : Option CryptoMap) (name : String) (p : Bytes) (sk : SK) (id : UUID)
    (hkey : caps.keys.BLSPrivateKeyFromBytes (caps.secretBytes sk) = .ok sk) :
    Spec.OpensWith caps (Spec.created caps batch name p sk id) p sk :=
  Spec.opensWith_individual caps hcaps _ sk p hkey rfl rfl rfl rfl rfl

/-- The batch scenario: `BatchWallet([p1], bp)` returns no error, and the wallet
loaded again holds A and B as members of the batch. -/
theorem Spec.Scenario.reloaded_eq (s : Spec.Scenario SK) (caps : Spec.Capabilities SK PK Sig)
    (hcaps : caps.Sound) (w : wallet) (hunlocked : w.unlocked = true)
    (hnames : ∀ n ∈ [s.nameA, s.nameB, s.nameC],
      n ≠ "" ∧ n.data.head?.map caps.reserved ≠ some true)
    (hdistinct : s.nameA ≠ s.nameB ∧ s.nameA ≠ s.nameC ∧ s.nameB ≠ s.nameC)
    (hkeys : ∀ sk ∈ [s.skA, s.skB, s.skC],
      caps.keys.BLSPrivateKeyFromBytes (caps.secretBytes sk) = .ok sk) :
    (s.batched caps w).1 = none ∧
    s.reloaded caps w =
      { towallet := { w with unlocked := false },
        accounts := [Spec.member caps (s.descriptor caps) s.nameA s.skA s.idA,
          Spec.member caps (s.descriptor caps) s.nameB s.skB s.idB],
        index := [(s.nameA, s.idA), (s.nameB, s.idB)],
        batch := some (s.descriptor caps) } := by
  have hA := Spec.created_opensWith caps hcaps none s.nameA s.p1 s.skA s.idA
    (hkeys s.skA (by simp))
  have hB := Spec.created_opensWith caps hcaps none s.nameB s.p1 s.skB s.idB
    (hkeys s.skB (by simp))
  simp [Spec.Scenario.reloaded, Spec.reopen, Spec.Scenario.batched,
    Spec.Scenario.created_eq s caps hcaps w hunlocked hnames hdistinct,
    Spec.BatchWallet, Spec.unlockAll, Spec.unlockWithAny_opensWith caps _ _ _ hA,
    Spec.unlockWithAny_opensWith caps _ _ _ hB, Spec.secrets, Spec.member,
    Spec.Scenario.descriptor]
  simp [Spec.created]

/-- A loaded member of a batch that holds its key opens with the batch passphrase
and with no other. -/
theorem Spec.member_opensWith (caps : Spec.Capabilities SK PK Sig) (hcaps : caps.Sound)
    (entries : List (UUID × Bytes)) (p : Bytes) (name : String) (sk : SK) (id : UUID)
    (hkey : caps.keys.BLSPrivateKeyFromBytes (caps.secretBytes sk) = .ok sk)
    (hentry : entries.lookup id = some (caps.secretBytes sk)) :
    Spec.OpensWith caps (Spec.member caps (caps.encryptBatch entries p) name sk id) p sk :=
  Spec.opensWith_batch caps hcaps _ sk p entries hkey rfl rfl rfl rfl hentry rfl

/-- The batch scenario: the creation of C succeeds and adds C, with its own
crypto descriptor, to the two members of the batch. -/
theorem Spec.Scenario.extended_eq (s : Spec.Scenario SK) (caps : Spec.Capabilities SK PK Sig)
    (hcaps : caps.Sound) (w : wallet) (hunlocked : w.unlocked = true)
    (hnames : ∀ n ∈ [s.nameA, s.nameB, s.nameC],
      n ≠ "" ∧ n.data.head?.map caps.reserved ≠ some true)
    (hdistinct : s.nameA ≠ s.nameB ∧ s.nameA ≠ s.nameC ∧ s.nameB ≠ s.nameC)
    (hkeys : ∀ sk ∈ [s.skA, s.skB, s.skC],
      caps.keys.BLSPrivateKeyFromBytes (caps.secretBytes sk) = .ok sk) :
    s.extended caps w =
      (some (Spec.created caps (some (s.descriptor caps)) s.nameC s.p2 s.skC s.idC), none,
        { towallet := w,
          accounts := [Spec.member caps (s.descriptor caps) s.nameA s.skA s.idA,
            Spec.member caps (s.descriptor caps) s.nameB s.skB s.idB,
            Spec.created caps (some (s.descriptor caps)) s.nameC s.p2 s.skC s.idC],
          index := [(s.nameA, s.idA), (s.nameB, s.idB), (s.nameC, s.idC)],
          batch := some (s.descriptor caps) }) := by
  have hC := hnames s.nameC (by simp)
  have hCA : (s.nameC == s.nameA) = false := by
    simpa using fun h => hdistinct.2.1 h.symm
  have hCB : (s.nameC == s.nameB) = false := by
    simpa using fun h => hdistinct.2.2 h.symm
  have hw : ({ w with unlocked := true } : wallet) = w := by
    cases w
    simp at hunlocked
    simp [hunlocked]
  simp [Spec.Scenario.extended,
    (Spec.Scenario.reloaded_eq s caps hcaps w hunlocked hnames hdistinct hkeys).2,
    Spec.Wallet.unlock, wallet.Unlock, Spec.CreateAccount, Spec.rejection, hC.1, hC.2,
    List.lookup, hCA, hCB, Spec.register, hcaps.stores, hw]
  simp [hunlocked]

/-- C34: batch re-keying, for capabilities whose cipher opens a descriptor with
the passphrase it was made with and with no other, and for `p1` other than `bp`.
After A and B are created with `p1` in an empty unlocked wallet, `BatchWallet([p1],
bp)` returns no error; the wallet loaded again lists A and B with their original
ids and names; neither has a crypto descriptor of its own, `Unlock` with `bp`
succeeds on both and `Unlock` with `p1` fails on both.  An account C created
afterwards with `p2` has its own crypto descriptor and `Unlock(C, p2)` succeeds.
A later `BatchWallet(ps, bp2)` returns no error exactly when `ps` contains both
`p2` and `bp`; when it fails the wallet is as before, so C is not in the batch;
when it succeeds the wallet loaded again lists A, B and C, none with a crypto
descriptor of its own, and `Unlock` with `bp2` succeeds on all three. -/
theorem C34_batch_rekeying (s : Spec.Scenario SK) (caps : Spec.Capabilities SK PK Sig)
    (hcaps : caps.Sound) (w : wallet) (hunlocked : w.unlocked = true)
    (hnames : ∀ n ∈ [s.nameA, s.nameB, s.nameC],
      n ≠ "" ∧ n.data.head?.map caps.reserved ≠ some true)
    (hdistinct : s.nameA ≠ s.nameB ∧ s.nameA ≠ s.nameC ∧ s.nameB ≠ s.nameC)
    (hids : s.idA ≠ s.idB ∧ s.idA ≠ s.idC ∧ s.idB ≠ s.idC)
    (hkeys : ∀ sk ∈ [s.skA, s.skB, s.skC],
      caps.keys.BLSPrivateKeyFromBytes (caps.secretBytes sk) = .ok sk)
    (hp : s.p1 ≠ s.bp) :
    (s.batched caps w).1 = none ∧
    (s.reloaded caps w).accounts.map (fun a => (a.id, a.name))
      = [(s.idA, s.nameA), (s.idB, s.nameB)] ∧
    (∀ a ∈ (s.reloaded caps w).accounts, a.crypto = none ∧
      (Unlock (Spec.env caps) a s.bp).completion = .returned none ∧
      ∃ e, (Unlock (Spec.env caps) a s.p1).completion = .returned (some e)) ∧
    (∃ c, (s.extended caps w).1 = some c ∧ (s.extended caps w).2.1 = none ∧
      c.name = s.nameC ∧ c.crypto.isSome = true ∧
      (Unlock (Spec.env caps) c s.p2).completion = .returned none) ∧
    ∀ ps bp2,
      ((Spec.BatchWallet caps (s.extended caps w).2.2 ps bp2).1 = none ↔
        s.p2 ∈ ps ∧ s.bp ∈ ps) ∧
      ((Spec.BatchWallet caps (s.extended caps w).2.2 ps bp2).1 ≠ none →
        (Spec.BatchWallet caps (s.extended caps w).2.2 ps bp2).2 = (s.extended caps w).2.2) ∧
      ((Spec.BatchWallet caps (s.extended caps w).2.2 ps bp2).1 = none →
        (Spec.reopen (Spec.BatchWallet caps (s.extended caps w).2.2 ps bp2).2).accounts.map
            (fun a => (a.id, a.name))
          = [(s.idA, s.nameA), (s.idB, s.nameB), (s.idC, s.nameC)] ∧
        ∀ a ∈ (Spec.reopen (Spec.BatchWallet caps (s.extended caps w).2.2 ps bp2).2).accounts,
          a.crypto = none ∧ (Unlock (Spec.env caps) a bp2).completion = .returned none) := by
  have hBA : (s.idB == s.idA) = false := by
    simpa using fun h => hids.1 h.symm
  have hCA : (s.idC == s.idA) = false := by
    simpa using fun h => hids.2.1 h.symm
  have hCB : (s.idC == s.idB) = false := by
    simpa using fun h => hids.2.2 h.symm
  have hkA := hkeys s.skA (by simp)
  have hkB := hkeys s.skB (by simp)
  have hkC := hkeys s.skC (by simp)
  obtain ⟨hbatched, hreloaded⟩ :=
    Spec.Scenario.reloaded_eq s caps hcaps w hunlocked hnames hdistinct hkeys
  have hextended := Spec.Scenario.extended_eq s caps hcaps w hunlocked hnames hdistinct hkeys
  have hA : Spec.OpensWith caps (Spec.member caps (s.descriptor caps) s.nameA s.skA s.idA)
      s.bp s.skA :=
    Spec.member_opensWith caps hcaps _ s.bp s.nameA s.skA s.idA hkA (by simp [List.lookup])
  have hB : Spec.OpensWith caps (Spec.member caps (s.descriptor caps) s.nameB s.skB s.idB)
      s.bp s.skB :=
    Spec.member_opensWith caps hcaps _ s.bp s.nameB s.skB s.idB hkB
      (by simp [List.lookup, hBA])
  have hC := Spec.created_opensWith caps hcaps (some (s.descriptor caps)) s.nameC s.p2 s.skC
    s.idC hkC
  refine ⟨hbatched, ?_, ?_, ?_, ?_⟩
  · simp [hreloaded, Spec.member]
  · intro a ha
    simp only [hreloaded, List.mem_cons, List.mem_singleton, List.not_mem_nil, or_false] at ha
    rcases ha with rfl | rfl
    · exact ⟨rfl, hA.2.2.1, (hA.2.2.2.2 s.p1 hp).1⟩
    · exact ⟨rfl, hB.2.2.1, (hB.2.2.2.2 s.p1 hp).1⟩
  · exact ⟨Spec.created caps (some (s.descriptor caps)) s.nameC s.p2 s.skC s.idC,
      by rw [hextended], by rw [hextended], rfl, rfl, hC.2.2.1⟩
  · intro ps bp2
    rw [hextended]
    simp only [Spec.BatchWallet, Spec.unlockAll, Spec.unlockWithAny_opensWith caps _ _ _ hA,
      Spec.unlockWithAny_opensWith caps _ _ _ hB, Spec.unlockWithAny_opensWith caps _ _ _ hC]
    by_cases h2 : s.p2 ∈ ps <;> by_cases hb : s.bp ∈ ps
    · simp only [h2, hb, if_true, Option.map_some', Spec.secrets, Spec.reopen, List.map_cons,
        List.map_nil, List.filterMap_cons, List.filterMap_nil]
      refine ⟨by simp, fun h => absurd rfl h, fun _ => ⟨rfl, ?_⟩⟩
      intro a ha
      simp only [List.mem_cons, List.mem_singleton, List.not_mem_nil, or_false] at ha
      rcases ha with rfl | rfl | rfl
      · exact ⟨rfl, (Spec.opensWith_batch caps hcaps _ s.skA bp2 _ hkA rfl rfl rfl rfl
          (by simp [List.lookup, Spec.member]) rfl).2.2.1⟩
      · exact ⟨rfl, (Spec.opensWith_batch caps hcaps _ s.skB bp2 _ hkB rfl rfl rfl rfl
          (by simp [List.lookup, Spec.member, hBA]) rfl).2.2.1⟩
      · exact ⟨rfl, (Spec.opensWith_batch caps hcaps _ s.skC bp2 _ hkC rfl rfl rfl rfl
          (by simp [List.lookup, Spec.member, Spec.created, hCA, hCB]) rfl).2.2.1⟩
    · simp [h2, hb]
    · simp [h2, hb]
    · simp [h2, hb]

/-- The scenario of batch_test.go on the demo capabilities: the batch is made,
the reloaded wallet lists "account 1" and "account 2", and the later batch with
the passphrases of "account 3" and of the first batch is made. -/
theorem C34_batch_rekeying_witness :
    (wallet.Unlock Demo.someWallet none).2.unlocked = true ∧
    Demo.scenario.p1 ≠ Demo.scenario.bp ∧
    (Demo.scenario.batched Demo.caps (wallet.Unlock Demo.someWallet none).2).1 = none ∧
    (Demo.scenario.reloaded Demo.caps (wallet.Unlock Demo.someWallet none).2).accounts.map
        (fun a => (a.id, a.name))
      = [([1, 1, 1, 1], "account 1"), ([2, 2, 2, 2], "account 2")] ∧
    (Spec.BatchWallet Demo.caps
      (Demo.scenario.extended Demo.caps (wallet.Unlock Demo.someWallet none).2).2.2
      [[112, 50], [98, 112]] [98, 112]).1 = none := by
  have h := C34_batch_rekeying Demo.scenario Demo.caps Demo.caps_sound
    (wallet.Unlock Demo.someWallet none).2 rfl
    (by decide) (by decide) (by decide)
    (by
      intro sk hsk
      simp only [Demo.scenario, List.mem_cons, List.mem_singleton, List.not_mem_nil,
        or_false] at hsk
      rcases hsk with rfl | rfl | rfl <;> rfl)
    (by decide)
  exact ⟨rfl, by decide, h.1, h.2.1,
    ((h.2.2.2.2 [[112, 50], [98, 112]] [98, 112]).1).2 ⟨by decide, by decide⟩⟩

end nd
